import Mathlib

/-!
# K-IPCM (kernel IPC manager): a shallow embedding of `linux/net/rina/kipcm.c`,
with the command dispatch of the manager console (`rinad/src/ipcm/console.cc`)

The manager owns three tables (factories, instances, flows) behind one spin
lock.  Every public operation of `kipcm.c` is embedded as a total function

    arguments → kresult

giving the status of the call, the manager afterwards and the list of
externally visible events the call performed (lock traffic, table accesses,
calls through operation tables, allocations).

Conventions of the embedding

* A C pointer that the code tests against `NULL` is an `Option`.
* Every `return -1` site of the source carries a tag of type `kipcm_error`
  saying which guard fired; the C return value is `kresult.code` (`0`/`-1`).
  A call that stops in a failed `ASSERT`, or follows a pointer that does not
  resolve, has the status `Bug`: it does not return.
* Calls that may fail for reasons outside the manager (memory allocation)
  take their outcome from a record `kenv`.
* Objects reached through pointers kept in the tables (flows, instances) are
  stored by value in the tables; a mutation through such a pointer is written
  back to the table entry (`ipcp_fmap_store`).
* `size_t` is 64-bit, `unsigned int` is 32-bit; conversions are explicit.
-/

namespace Kipcm

/-! ## Basic types -/

/-- One octet of queue or buffer memory. -/
abbrev byte := Fin 256

/-- Process identifiers (`ipc_process_id_t`, declared in `common.h`). -/
abbrev ipc_process_id_t := Int

/-- Port identifiers (`port_id_t`, declared in `common.h`). -/
abbrev port_id_t := Int

/-- Width of `size_t` in bytes (`sizeof(size_t)` on the 64-bit reference target). -/
def SIZEOF_SIZE_T : Nat := 8

/-- Number of values of a `size_t`. -/
def SIZE_T_MOD : Nat := 2 ^ 64

/-- Number of values of an `unsigned int`. -/
def UINT_MOD : Nat := 2 ^ 32

/-- Largest size of a single C object (`PTRDIFF_MAX`). -/
def PTRDIFF_MAX : Nat := 2 ^ 63 - 1

/-- Modelled from the spec: `PAGE_SIZE`, the capacity of a flow queue ("one memory
page", 4096 bytes in the reference behaviour); the kernel macro is not in src/. -/
def PAGE_SIZE : Nat := 4096

/-- The `DEFAULT_FACTORY` macro of `kipcm.c`. -/
def DEFAULT_FACTORY : String := "normal-ipc"

/-! ## SDUs (`du.h`, not in src/) -/

/-- Modelled from the spec: `struct buffer` of `du.h`, "a byte buffer plus its length".
`data` is the pointed-to memory (`none` for a `NULL` pointer). -/
structure buffer where
  data : Option (List byte)
  size : Nat
deriving DecidableEq, Repr

/-- Modelled from the spec: `struct sdu` of `du.h`, a handle on one buffer. -/
structure sdu where
  buffer : Option buffer
deriving DecidableEq, Repr

/-- Modelled from the spec: `sdu_is_ok` of `du.h`: "a well-formed SDU (non-null,
positive length, consistent internal buffer)".  Consistency: the buffer pointer
and its data pointer are set, `data` holds exactly `size` bytes, and the buffer
is one C object, so its size is at most `PTRDIFF_MAX`. -/
def sdu_is_ok (s : sdu) : Bool :=
  match s.buffer with
  | none => false
  | some b =>
    match b.data with
    | none => false
    | some d => decide (0 < b.size) && decide (d.length = b.size) && decide (b.size ≤ PTRDIFF_MAX)

/-- The expression `sdu->buffer->size` (read only after `sdu_is_ok`). -/
def sdu.size (s : sdu) : Nat :=
  match s.buffer with
  | none => 0
  | some b => b.size

/-- The memory behind `sdu->buffer->data` (read only after `sdu_is_ok`). -/
def sdu.data (s : sdu) : List byte :=
  match s.buffer with
  | none => []
  | some b => b.data.getD []

/-- Modelled from the spec: `sdu_create_from(data, size)` of `du.h`: "constructs and
returns an SDU owning that buffer"; `NULL` when its allocation fails. -/
def sdu_create_from (data : List byte) (size : Nat) (mem_ok : Bool) : Option sdu :=
  if mem_ok then some ⟨some ⟨some data, size⟩⟩ else none

/-! ## Native-order image of a `size_t` -/

/-- The `sizeof(size_t)` bytes found at `&x` for a `size_t x` (little-endian target). -/
def size_t_bytes (n : Nat) : List byte :=
  (List.range 8).map fun i => ⟨(n / 256 ^ i) % 256, Nat.mod_lt _ (by decide)⟩

/-- The value of a `size_t` whose memory image is `bs` (little-endian target). -/
def bytes_to_size_t (bs : List byte) : Nat :=
  bs.foldr (fun b acc => b.val + 256 * acc) 0

/-! ## The kernel byte FIFO (`linux/kfifo.h`, not in src/) -/

/-- Modelled from the spec: `struct kfifo`, "a bounded, byte-oriented ring buffer":
`size` is its capacity, `data` the bytes currently held, oldest first.  The
fields of the kernel structure are `unsigned int`, and it never holds more
than `size` bytes. -/
structure kfifo where
  size : Nat
  data : List byte
  len_le : data.length ≤ size
  size_lt : size < 2 ^ 32
deriving DecidableEq

/-- Modelled from the spec: `kfifo_alloc(fifo, size, gfp)`: a fresh empty queue of
fixed capacity, or failure when memory is short or the size is unusable.
(`size` is a power of two at the only call site, so no rounding is modelled.) -/
def kfifo_alloc (size : Nat) (mem_ok : Bool) : Option kfifo :=
  if h : mem_ok = true ∧ 2 ≤ size ∧ size < 2 ^ 32 then
    some ⟨size, [], Nat.zero_le _, h.2.2⟩
  else none

/-- Modelled from the spec: `kfifo_len`: bytes currently held. -/
def kfifo_len (f : kfifo) : Nat := f.data.length

/-- Modelled from the spec: `kfifo_avail`: "remaining queue capacity". -/
def kfifo_avail (f : kfifo) : Nat := f.size - f.data.length

/-- Modelled from the spec: `kfifo_in(fifo, buf, n)`, a "non-blocking bounded" write:
copies `min(n, avail)` bytes of `buf` to the tail and returns that count.
`n` is taken as an `unsigned int`. -/
def kfifo_in (f : kfifo) (buf : List byte) (n : Nat) : kfifo × Nat :=
  let l := min (n % UINT_MOD) (kfifo_avail f)
  (⟨f.size, f.data ++ buf.take l, by
      have h1 := f.len_le
      have h2 : l ≤ f.size - f.data.length := Nat.min_le_right _ _
      have h3 : (buf.take l).length ≤ l := by simp [List.length_take]
      simp only [List.length_append]
      omega, f.size_lt⟩, l)

/-- Result of `kfifo_out`: the bytes copied out, the queue afterwards and the
returned count. -/
structure kfifo_out_result where
  buf : List byte
  fifo : kfifo
  ret : Nat

/-- Modelled from the spec: `kfifo_out(fifo, buf, n)`, a "non-blocking bounded" read:
removes `min(n, len)` bytes from the head, copies them to `buf` and returns
that count.  `n` is taken as an `unsigned int`. -/
def kfifo_out (f : kfifo) (n : Nat) : kfifo_out_result :=
  let l := min (n % UINT_MOD) (kfifo_len f)
  { buf := f.data.take l
    fifo := ⟨f.size, f.data.drop l, by
      have h1 := f.len_le
      simp only [List.length_drop]
      omega, f.size_lt⟩
    ret := l }

/-! ## Factories, instances, flows -/

/-- Modelled from the spec: `struct name` of `common.h`; only its rendering as
a string is used by the manager. -/
structure name where
  str : String
deriving DecidableEq, Repr

/-- Modelled from the spec: `name_tostring`: the rendering of a name in a freshly
allocated string; `NULL` for a `NULL` name or when the allocation fails. -/
def name_tostring (n : Option name) (mem_ok : Bool) : Option String :=
  match n with
  | none => none
  | some x => if mem_ok then some x.str else none

/-- Modelled from the spec: the operation set of an instance (`struct ipcp_instance_ops`):
`sdu_write(data, port_id, sdu) -> status` and
`flow_allocate_request(data, source, dest, flow_spec, port_id) -> status`. -/
structure ipcp_instance_ops where
  sdu_write : Nat → port_id_t → sdu → Int
  flow_allocate_request : Nat → name → name → Nat → port_id_t → Int

/-- Modelled from the spec: `struct ipcp_instance`: instance data, an operation set
and a back-reference to the owning factory.  `self` is the address of the
object (its identity under pointer comparison); the factory back-reference is
the name under which the factory is registered. -/
structure ipcp_instance where
  self : Nat
  data : Nat
  ops : ipcp_instance_ops
  factory : Option String

/-- Modelled from the spec: the operation set of a factory (`struct ipcp_factory_ops`):
`create(data, id) -> Instance | error`, `destroy(data, instance) -> status`,
`configure(data, instance, config) -> Instance | null`. -/
structure ipcp_factory_ops where
  create : Nat → ipc_process_id_t → Option ipcp_instance
  destroy : Nat → ipcp_instance → Int
  configure : Nat → ipcp_instance → Nat → Option ipcp_instance

/-- Modelled from the spec: `struct ipcp_factory`: "identified by a unique name; holds
private data and an operation set". -/
structure ipcp_factory where
  name : String
  data : Nat
  ops : ipcp_factory_ops

/-- The `struct ipcp_flow` of `kipcm.c`. -/
structure ipcp_flow where
  port_id : port_id_t
  ipc_process : ipcp_instance
  application_owned : Bool
  rmt_instance : Option Nat
  sdu_ready : kfifo

/-- Modelled from the spec: the FactoryRegistry (`struct ipcp_factories`). -/
abbrev ipcp_factories := List ipcp_factory

/-- Modelled from the spec: the InstanceTable (`struct ipcp_imap`), process id to instance. -/
abbrev ipcp_imap := List (ipc_process_id_t × ipcp_instance)

/-- Modelled from the spec: the FlowTable (`struct ipcp_fmap`), port id to flow. -/
abbrev ipcp_fmap := List (port_id_t × ipcp_flow)

/-- Modelled from the spec: `ipcpf_find`: "`find(name) -> FactoryHandle | not-found`". -/
def ipcpf_find (fs : ipcp_factories) (n : String) : Option ipcp_factory :=
  fs.find? fun f => f.name == n

/-- Modelled from the spec: `ipcp_imap_find`: the instance stored under `id`, if any. -/
def ipcp_imap_find : ipcp_imap → ipc_process_id_t → Option ipcp_instance
  | [], _ => none
  | (k, v) :: rest, id => if k = id then some v else ipcp_imap_find rest id

/-- Modelled from the spec: `ipcp_imap_add`: stores the instance under `id`; fails when
the entry cannot be allocated. -/
def ipcp_imap_add (m : ipcp_imap) (id : ipc_process_id_t) (x : ipcp_instance)
    (mem_ok : Bool) : Option ipcp_imap :=
  if mem_ok then some ((id, x) :: m) else none

/-- Modelled from the spec: `ipcp_fmap_find`: the flow bound to `port_id`, if any. -/
def ipcp_fmap_find : ipcp_fmap → port_id_t → Option ipcp_flow
  | [], _ => none
  | (k, v) :: rest, p => if k = p then some v else ipcp_fmap_find rest p

/-- Modelled from the spec: `ipcp_fmap_add`: inserts the flow keyed by `port_id`; fails
when the entry cannot be allocated. -/
def ipcp_fmap_add (m : ipcp_fmap) (port_id : port_id_t) (f : ipcp_flow)
    (mem_ok : Bool) : Option ipcp_fmap :=
  if mem_ok then some ((port_id, f) :: m) else none

/-- Write-back of a flow object mutated through the pointer that
`ipcp_fmap_find` returned: the entry found for `port_id` now holds `f`. -/
def ipcp_fmap_store : ipcp_fmap → port_id_t → ipcp_flow → ipcp_fmap
  | [], _, _ => []
  | (k, v) :: rest, p, f =>
    if k = p then (k, f) :: rest else (k, v) :: ipcp_fmap_store rest p f

/-- Modelled from the spec: `ipcp_imap_remove`: "removes the table entry": afterwards
`id` is absent and every other id resolves as before; fails when `id` is absent
or the table refuses. -/
def ipcp_imap_remove (m : ipcp_imap) (id : ipc_process_id_t) (ok : Bool) : Option ipcp_imap :=
  if ok && (ipcp_imap_find m id).isSome then some (m.filter fun e => !decide (e.1 = id))
  else none

/-- The table in which the entry found for `id` holds `x`. -/
def ipcp_imap_store : ipcp_imap → ipc_process_id_t → ipcp_instance → ipcp_imap
  | [], _, _ => []
  | (k, v) :: rest, id, x =>
    if k = id then (k, x) :: rest else (k, v) :: ipcp_imap_store rest id x

/-- Modelled from the spec: `ipcp_imap_update`: "the table entry is atomically swapped":
afterwards `id` resolves to `x`; fails when `id` is absent or the table refuses. -/
def ipcp_imap_update (m : ipcp_imap) (id : ipc_process_id_t) (x : ipcp_instance)
    (ok : Bool) : Option ipcp_imap :=
  if ok && (ipcp_imap_find m id).isSome then some (ipcp_imap_store m id x) else none

/-- Modelled from the spec: `ipcp_imap_empty`: no instance is stored. -/
def ipcp_imap_empty (m : ipcp_imap) : Bool := m.isEmpty

/-- Modelled from the spec: `ipcp_fmap_remove`: "removes the table entry": afterwards
`port_id` is unbound and every other port resolves as before; fails when
`port_id` is unbound or the table refuses. -/
def ipcp_fmap_remove (m : ipcp_fmap) (port_id : port_id_t) (ok : Bool) : Option ipcp_fmap :=
  if ok && (ipcp_fmap_find m port_id).isSome then
    some (m.filter fun e => !decide (e.1 = port_id))
  else none

/-- Modelled from the spec: `ipcp_fmap_empty`: no flow is bound. -/
def ipcp_fmap_empty (m : ipcp_fmap) : Bool := m.isEmpty

/-- Modelled from the spec: `ipcpf_register`: "stores a new factory under `name`"; the
handle of the new factory and the registry afterwards, or `NULL`. -/
def ipcpf_register (fs : ipcp_factories) (n : String) (data : Nat) (ops : ipcp_factory_ops)
    (ok : Bool) : Option (ipcp_factory × ipcp_factories) :=
  if ok then some (⟨n, data, ops⟩, fs ++ [⟨n, data, ops⟩]) else none

/-- Modelled from the spec: `ipcpf_unregister`: "removes a factory"; fails for a `NULL`
handle, for a factory that is not registered, or when the registry refuses. -/
def ipcpf_unregister (fs : ipcp_factories) (factory : Option ipcp_factory) (ok : Bool) :
    Option ipcp_factories :=
  match factory with
  | none => none
  | some f =>
    if ok && (ipcpf_find fs f.name).isSome then some (fs.filter fun g => !(g.name == f.name))
    else none

/-- The factory behind the pointer `instance->factory`: the registered factory
the back-reference names.  `none` when the pointer is `NULL` or the factory is
no longer registered (the pointer dangles). -/
def instance_factory (fs : ipcp_factories) (x : ipcp_instance) : Option ipcp_factory :=
  match x.factory with
  | none => none
  | some n => ipcpf_find fs n

/-! ## Decoded protocol messages (`netlink-utils.h`, not in src/) -/

/-- Modelled from the spec: the decoded attributes of an "allocate flow request":
source, destination, flow spec and requested port id. -/
structure rnl_ipcm_alloc_flow_req_msg_attrs where
  source : name
  dest : name
  fspec : Nat
  id : port_id_t
deriving DecidableEq, Repr

/-- Modelled from the spec: the header of a decoded message, with the target
process id. -/
structure rina_msg_hdr where
  src_ipc_id : ipc_process_id_t
deriving DecidableEq, Repr

/-- Modelled from the spec: a decoded message (`struct rnl_msg`): header and, when
present, the decoded attribute payload. -/
structure rnl_msg where
  rina_hdr : rina_msg_hdr
  attrs : Option rnl_ipcm_alloc_flow_req_msg_attrs
deriving DecidableEq, Repr

/-- Modelled from the spec: a received wire message (`struct genl_info`), reduced to
what decoding it yields ("the core only consumes its decoded output"). -/
structure genl_info where
  decoded : Option rnl_msg
deriving DecidableEq, Repr

/-- Modelled from the spec: `rnl_parse_msg`: the decoded message, or failure. -/
def rnl_parse_msg (info : genl_info) : Option rnl_msg := info.decoded

/-! ## The manager -/

/-- The `struct kipcm` of `kipcm.c`; `lock` is true while the spin lock is held. -/
structure kipcm where
  lock : Bool
  factories : ipcp_factories
  instances : ipcp_imap
  flows : ipcp_fmap

/-- Macro `KIPCM_LOCK`. -/
def KIPCM_LOCK (k : kipcm) : kipcm := { k with lock := true }

/-- Macro `KIPCM_UNLOCK`. -/
def KIPCM_UNLOCK (k : kipcm) : kipcm := { k with lock := false }

/-- Which guard of the source made a call return `-1`.  `Bug` is no return at
all: an `ASSERT` of the source failed or a pointer that does not resolve was
followed, and the call never comes back to its caller. -/
inductive kipcm_error where
  | InvalidArgument
  | DuplicateId
  | FactoryNotFound
  | CreationFailed
  | NotFound
  | DestroyFailed
  | ConfigureFailed
  | DuplicateFlow
  | InstanceNotFound
  | NoSuchFlow
  | QueueFull
  | ShortWrite
  | Underrun
  | InvalidSdu
  | OutOfMemory
  | MissingAttributes
  | SduWriteFailed
  | FlowRequestFailed
  | TableFailed
  | RegisterFailed
  | UnregisterFailed
  | ParseFailed
  | FiniFailed
  | InitFailed
  | Bug
deriving DecidableEq, Repr

/-- Externally visible steps of a manager call, in program order. -/
inductive kevent where
  | lock
  | unlock
  | factories_access
  | instances_access
  | flows_access
  | factory_create (factory : String) (data : Nat) (id : ipc_process_id_t)
  | factory_destroy (factory : String) (data : Nat) (inst : Nat)
  | factory_configure (factory : String) (data : Nat) (inst : Nat) (config : Nat)
  | instance_sdu_write (inst : Nat) (data : Nat) (port_id : port_id_t) (s : sdu)
  | instance_flow_allocate_request (inst : Nat) (data : Nat) (source dest : name)
      (fspec : Nat) (port_id : port_id_t)
  | rkzalloc_flow (ok : Bool)
  | rkfree_flow
  | rkzalloc_data (bytes : Nat) (ok : Bool)
  | rkfree_data
  | kfifo_alloc (ok : Bool)
  | kfifo_free
  | kfifo_in (n : Nat)
  | kfifo_out (n : Nat)
  | sdu_create_from (ok : Bool)
  | rkfree_kipcm
  | rkzalloc_kipcm (ok : Bool)
  | ipcpf_init (ok : Bool)
  | ipcp_imap_create (ok : Bool)
  | ipcp_fmap_create (ok : Bool)
  | ipcp_imap_destroy (ok : Bool)
  | ipcpf_fini (ok : Bool)
  | lock_init
deriving DecidableEq, Repr

/-- Outcomes of the calls whose failure is decided outside the manager. -/
structure kenv where
  /-- the string allocation inside `name_tostring` -/
  name_mem_ok : Bool := true
  /-- the entry allocation inside `ipcp_imap_add` -/
  imap_add_ok : Bool := true
  /-- `rkzalloc(sizeof(*flow))` in `kipcm_flow_add` -/
  flow_mem_ok : Bool := true
  /-- the buffer allocation inside `kfifo_alloc` -/
  kfifo_mem_ok : Bool := true
  /-- the entry allocation inside `ipcp_fmap_add` -/
  fmap_add_ok : Bool := true
  /-- `rkzalloc(size)` in `kipcm_sdu_read` -/
  data_mem_ok : Bool := true
  /-- the allocation inside `sdu_create_from` -/
  sdu_mem_ok : Bool := true
  /-- whether `ipcp_imap_remove` goes through for an id that is present -/
  imap_remove_ok : Bool := true
  /-- whether `ipcp_imap_update` goes through for an id that is present -/
  imap_update_ok : Bool := true
  /-- whether `ipcp_fmap_remove` goes through for a port that is bound -/
  fmap_remove_ok : Bool := true
  /-- whether `ipcpf_register` can set up the new factory -/
  register_ok : Bool := true
  /-- whether `ipcpf_unregister` goes through for a registered factory -/
  unregister_ok : Bool := true
  /-- whether `ipcp_fmap_destroy` goes through -/
  fmap_destroy_ok : Bool := true
  /-- whether `ipcp_imap_destroy` goes through -/
  imap_destroy_ok : Bool := true
  /-- whether `ipcpf_fini` goes through -/
  ipcpf_fini_ok : Bool := true
  /-- `rkzalloc(sizeof(*tmp))` in `kipcm_init` -/
  kipcm_mem_ok : Bool := true
  /-- whether `ipcpf_init` can construct the factory registry -/
  ipcpf_init_ok : Bool := true
  /-- whether `ipcp_imap_create` can construct the instance table -/
  imap_create_ok : Bool := true
  /-- whether `ipcp_fmap_create` can construct the flow table -/
  fmap_create_ok : Bool := true
deriving DecidableEq, Repr

/-- What a manager call leaves behind: its status (`ok` with the value handed
back, or the guard that fired), the manager afterwards, and its events. -/
structure kresult (α : Type) where
  ret : Except kipcm_error α
  kipcm : Option kipcm
  trace : List kevent

/-- The `int` a call returns to C: `0` on success, `-1` on every failure. -/
def kresult.code {α : Type} (r : kresult α) : Int :=
  match r.ret with
  | .ok _ => 0
  | .error _ => -1

/-! ## Operations of `kipcm.c` -/

/-- The function `kipcm_ipcp_create` (kipcm.c, lines 262-324). -/
def kipcm_ipcp_create (kipcm : Option kipcm) (ipcp_name : Option name)
    (id : ipc_process_id_t) (factory_name : Option String) (env : kenv) : kresult Unit :=
  match kipcm with
  | none => ⟨.error .InvalidArgument, none, []⟩
  | some k =>
    -- if (!factory_name) factory_name = DEFAULT_FACTORY;
    let factory_name := factory_name.getD DEFAULT_FACTORY
    match name_tostring ipcp_name env.name_mem_ok with
    | none => ⟨.error .InvalidArgument, some k, []⟩
    | some _ =>
      let k := KIPCM_LOCK k
      match ipcp_imap_find k.instances id with
      | some _ =>
        ⟨.error .DuplicateId, some (KIPCM_UNLOCK k), [.lock, .instances_access, .unlock]⟩
      | none =>
        match ipcpf_find k.factories factory_name with
        | none =>
          ⟨.error .FactoryNotFound, some (KIPCM_UNLOCK k),
            [.lock, .instances_access, .factories_access, .unlock]⟩
        | some factory =>
          match factory.ops.create factory.data id with
          | none =>
            ⟨.error .CreationFailed, some (KIPCM_UNLOCK k),
              [.lock, .instances_access, .factories_access,
               .factory_create factory.name factory.data id, .unlock]⟩
          | some created =>
            -- instance->factory = factory;
            let inst : ipcp_instance := { created with factory := some factory.name }
            match ipcp_imap_add k.instances id inst env.imap_add_ok with
            | none =>
              ⟨.error .CreationFailed, some (KIPCM_UNLOCK k),
                [.lock, .instances_access, .factories_access,
                 .factory_create factory.name factory.data id, .instances_access,
                 .factory_destroy factory.name factory.data inst.self, .unlock]⟩
            | some m =>
              ⟨.ok (), some (KIPCM_UNLOCK { k with instances := m }),
                [.lock, .instances_access, .factories_access,
                 .factory_create factory.name factory.data id, .instances_access, .unlock]⟩

/-- The function `kipcm_flow_add` (kipcm.c, lines 407-465). -/
def kipcm_flow_add (kipcm : Option kipcm) (ipc_id : ipc_process_id_t)
    (port_id : port_id_t) (env : kenv) : kresult Unit :=
  match kipcm with
  | none => ⟨.error .InvalidArgument, none, []⟩
  | some k =>
    let k := KIPCM_LOCK k
    match ipcp_fmap_find k.flows port_id with
    | some _ =>
      ⟨.error .DuplicateFlow, some (KIPCM_UNLOCK k), [.lock, .flows_access, .unlock]⟩
    | none =>
      if !env.flow_mem_ok then
        ⟨.error .OutOfMemory, some (KIPCM_UNLOCK k),
          [.lock, .flows_access, .rkzalloc_flow false, .unlock]⟩
      else
        match ipcp_imap_find k.instances ipc_id with
        | none =>
          ⟨.error .InstanceNotFound, some (KIPCM_UNLOCK k),
            [.lock, .flows_access, .rkzalloc_flow true, .instances_access, .rkfree_flow, .unlock]⟩
        | some ipc_process =>
          match kfifo_alloc PAGE_SIZE env.kfifo_mem_ok with
          | none =>
            ⟨.error .OutOfMemory, some (KIPCM_UNLOCK k),
              [.lock, .flows_access, .rkzalloc_flow true, .instances_access,
               .kfifo_alloc false, .rkfree_flow, .unlock]⟩
          | some sdu_ready =>
            let flow : ipcp_flow :=
              { port_id := port_id
                ipc_process := ipc_process
                application_owned := true
                rmt_instance := none
                sdu_ready := sdu_ready }
            match ipcp_fmap_add k.flows port_id flow env.fmap_add_ok with
            | none =>
              ⟨.error .OutOfMemory, some (KIPCM_UNLOCK k),
                [.lock, .flows_access, .rkzalloc_flow true, .instances_access,
                 .kfifo_alloc true, .flows_access, .kfifo_free, .rkfree_flow, .unlock]⟩
            | some m =>
              ⟨.ok (), some (KIPCM_UNLOCK { k with flows := m }),
                [.lock, .flows_access, .rkzalloc_flow true, .instances_access,
                 .kfifo_alloc true, .flows_access, .unlock]⟩

/-- The function `kipcm_sdu_read` (kipcm.c, lines 543-607).  `sdu_out` says
whether the result pointer `sdu` is non-`NULL`; the SDU stored through it is
the value of an `ok` status. -/
def kipcm_sdu_read (kipcm : Option kipcm) (port_id : port_id_t) (sdu_out : Bool)
    (env : kenv) : kresult sdu :=
  match kipcm with
  | none => ⟨.error .InvalidArgument, none, []⟩
  | some k =>
    if !sdu_out then ⟨.error .InvalidArgument, some k, []⟩
    else
      let k := KIPCM_LOCK k
      match ipcp_fmap_find k.flows port_id with
      | none => ⟨.error .NoSuchFlow, some (KIPCM_UNLOCK k), [.lock, .flows_access, .unlock]⟩
      | some flow =>
        -- kfifo_out(&flow->sdu_ready, &size, sizeof(size_t))
        let o1 := kfifo_out flow.sdu_ready SIZEOF_SIZE_T
        let k1 : Kipcm.kipcm :=
          { k with flows := ipcp_fmap_store k.flows port_id { flow with sdu_ready := o1.fifo } }
        if o1.ret < SIZEOF_SIZE_T then
          ⟨.error .Underrun, some (KIPCM_UNLOCK k1),
            [.lock, .flows_access, .kfifo_out o1.ret, .unlock]⟩
        else
          let size := bytes_to_size_t o1.buf
          if size = 0 then
            ⟨.error .InvalidSdu, some (KIPCM_UNLOCK k1),
              [.lock, .flows_access, .kfifo_out o1.ret, .unlock]⟩
          else if !env.data_mem_ok then
            ⟨.error .OutOfMemory, some (KIPCM_UNLOCK k1),
              [.lock, .flows_access, .kfifo_out o1.ret, .rkzalloc_data size false, .unlock]⟩
          else
            -- kfifo_out(&flow->sdu_ready, data, size)
            let o2 := kfifo_out o1.fifo size
            let k2 : Kipcm.kipcm :=
              { k with flows := ipcp_fmap_store k.flows port_id { flow with sdu_ready := o2.fifo } }
            if o2.ret ≠ size then
              ⟨.error .Underrun, some (KIPCM_UNLOCK k2),
                [.lock, .flows_access, .kfifo_out o1.ret, .rkzalloc_data size true,
                 .kfifo_out o2.ret, .rkfree_data, .unlock]⟩
            else
              match sdu_create_from o2.buf size env.sdu_mem_ok with
              | none =>
                ⟨.error .OutOfMemory, some (KIPCM_UNLOCK k2),
                  [.lock, .flows_access, .kfifo_out o1.ret, .rkzalloc_data size true,
                   .kfifo_out o2.ret, .sdu_create_from false, .rkfree_data, .unlock]⟩
              | some s =>
                ⟨.ok s, some (KIPCM_UNLOCK k2),
                  [.lock, .flows_access, .kfifo_out o1.ret, .rkzalloc_data size true,
                   .kfifo_out o2.ret, .sdu_create_from true, .unlock]⟩

/-- The function `kipcm_sdu_post` (kipcm.c, lines 609-662). -/
def kipcm_sdu_post (kipcm : Option kipcm) (port_id : port_id_t) (sdu : Option sdu) :
    kresult Unit :=
  match kipcm with
  | none => ⟨.error .InvalidArgument, none, []⟩
  | some k =>
    match sdu with
    | none => ⟨.error .InvalidArgument, some k, []⟩
    | some s =>
      if !sdu_is_ok s then ⟨.error .InvalidArgument, some k, []⟩
      else
        let k := KIPCM_LOCK k
        match ipcp_fmap_find k.flows port_id with
        | none => ⟨.error .NoSuchFlow, some (KIPCM_UNLOCK k), [.lock, .flows_access, .unlock]⟩
        | some flow =>
          let avail := kfifo_avail flow.sdu_ready
          -- avail < (sdu->buffer->size + sizeof(size_t)), computed in size_t
          if avail < (s.size + SIZEOF_SIZE_T) % SIZE_T_MOD then
            ⟨.error .QueueFull, some (KIPCM_UNLOCK k), [.lock, .flows_access, .unlock]⟩
          else
            -- kfifo_in(&flow->sdu_ready, &sdu->buffer->size, sizeof(size_t))
            let i1 := kfifo_in flow.sdu_ready (size_t_bytes s.size) SIZEOF_SIZE_T
            let k1 : Kipcm.kipcm :=
              { k with flows := ipcp_fmap_store k.flows port_id { flow with sdu_ready := i1.1 } }
            if i1.2 ≠ SIZEOF_SIZE_T then
              ⟨.error .ShortWrite, some (KIPCM_UNLOCK k1),
                [.lock, .flows_access, .kfifo_in i1.2, .unlock]⟩
            else
              -- kfifo_in(&flow->sdu_ready, sdu->buffer->data, sdu->buffer->size)
              let i2 := kfifo_in i1.1 s.data s.size
              let k2 : Kipcm.kipcm :=
                { k with flows := ipcp_fmap_store k.flows port_id { flow with sdu_ready := i2.1 } }
              if i2.2 ≠ s.size then
                ⟨.error .ShortWrite, some (KIPCM_UNLOCK k2),
                  [.lock, .flows_access, .kfifo_in i1.2, .kfifo_in i2.2, .unlock]⟩
              else
                ⟨.ok (), some (KIPCM_UNLOCK k2),
                  [.lock, .flows_access, .kfifo_in i1.2, .kfifo_in i2.2, .unlock]⟩


/-- The function `kipcm_fini` (kipcm.c, lines 176-213).  On success the manager
record is freed, so no manager is left. -/
def kipcm_fini (kipcm : Option kipcm) (env : kenv) : kresult Unit :=
  match kipcm with
  | none => ⟨.error .InvalidArgument, none, []⟩
  | some k =>
    let k := KIPCM_LOCK k
    -- ASSERT(ipcp_fmap_empty(kipcm->flows));
    if !ipcp_fmap_empty k.flows then ⟨.error .Bug, some k, [.lock, .flows_access]⟩
    else if !env.fmap_destroy_ok then
      ⟨.error .FiniFailed, some (KIPCM_UNLOCK k), [.lock, .flows_access, .flows_access, .unlock]⟩
    -- ASSERT(ipcp_imap_empty(kipcm->instances));
    else if !ipcp_imap_empty k.instances then
      ⟨.error .Bug, some k, [.lock, .flows_access, .flows_access, .instances_access]⟩
    else if !env.imap_destroy_ok then
      ⟨.error .FiniFailed, some (KIPCM_UNLOCK k),
        [.lock, .flows_access, .flows_access, .instances_access, .instances_access, .unlock]⟩
    else if !env.ipcpf_fini_ok then
      ⟨.error .FiniFailed, some (KIPCM_UNLOCK k),
        [.lock, .flows_access, .flows_access, .instances_access, .instances_access,
         .factories_access, .unlock]⟩
    else
      ⟨.ok (), none,
        [.lock, .flows_access, .flows_access, .instances_access, .instances_access,
         .factories_access, .unlock, .rkfree_kipcm]⟩

/-- The function `kipcm_ipcp_factory_register` (kipcm.c, lines 215-234); the
value of an `ok` status is the factory handle returned. -/
def kipcm_ipcp_factory_register (kipcm : Option kipcm) (n : String) (data : Nat)
    (ops : ipcp_factory_ops) (env : kenv) : kresult ipcp_factory :=
  match kipcm with
  | none => ⟨.error .InvalidArgument, none, []⟩
  | some k =>
    let k := KIPCM_LOCK k
    match ipcpf_register k.factories n data ops env.register_ok with
    | none => ⟨.error .RegisterFailed, some (KIPCM_UNLOCK k), [.lock, .factories_access, .unlock]⟩
    | some (f, fs) =>
      ⟨.ok f, some (KIPCM_UNLOCK { k with factories := fs }),
        [.lock, .factories_access, .unlock]⟩

/-- The function `kipcm_ipcp_factory_unregister` (kipcm.c, lines 236-260); the
source hands back whatever `ipcpf_unregister` returned. -/
def kipcm_ipcp_factory_unregister (kipcm : Option kipcm) (factory : Option ipcp_factory)
    (env : kenv) : kresult Unit :=
  match kipcm with
  | none => ⟨.error .InvalidArgument, none, []⟩
  | some k =>
    let k := KIPCM_LOCK k
    match ipcpf_unregister k.factories factory env.unregister_ok with
    | none =>
      ⟨.error .UnregisterFailed, some (KIPCM_UNLOCK k), [.lock, .factories_access, .unlock]⟩
    | some fs =>
      ⟨.ok (), some (KIPCM_UNLOCK { k with factories := fs }),
        [.lock, .factories_access, .unlock]⟩

/-- The function `kipcm_ipcp_destroy` (kipcm.c, lines 326-362). -/
def kipcm_ipcp_destroy (kipcm : Option kipcm) (id : ipc_process_id_t) (env : kenv) :
    kresult Unit :=
  match kipcm with
  | none => ⟨.error .InvalidArgument, none, []⟩
  | some k =>
    let k := KIPCM_LOCK k
    match ipcp_imap_find k.instances id with
    | none => ⟨.error .NotFound, some (KIPCM_UNLOCK k), [.lock, .instances_access, .unlock]⟩
    | some inst =>
      -- factory = instance->factory; ASSERT(factory);
      match instance_factory k.factories inst with
      | none => ⟨.error .Bug, some k, [.lock, .instances_access]⟩
      | some factory =>
        if factory.ops.destroy factory.data inst ≠ 0 then
          ⟨.error .DestroyFailed, some (KIPCM_UNLOCK k),
            [.lock, .instances_access, .factory_destroy factory.name factory.data inst.self,
             .unlock]⟩
        else
          match ipcp_imap_remove k.instances id env.imap_remove_ok with
          | none =>
            ⟨.error .TableFailed, some (KIPCM_UNLOCK k),
              [.lock, .instances_access, .factory_destroy factory.name factory.data inst.self,
               .instances_access, .unlock]⟩
          | some m =>
            ⟨.ok (), some (KIPCM_UNLOCK { k with instances := m }),
              [.lock, .instances_access, .factory_destroy factory.name factory.data inst.self,
               .instances_access, .unlock]⟩

/-- The function `kipcm_ipcp_configure` (kipcm.c, lines 364-405).  The
configuration is a handle passed on untouched.  `instance_new != instance_old`
compares addresses. -/
def kipcm_ipcp_configure (kipcm : Option kipcm) (id : ipc_process_id_t)
    (configuration : Nat) (env : kenv) : kresult Unit :=
  match kipcm with
  | none => ⟨.error .InvalidArgument, none, []⟩
  | some k =>
    let k := KIPCM_LOCK k
    match ipcp_imap_find k.instances id with
    | none => ⟨.error .NotFound, some (KIPCM_UNLOCK k), [.lock, .instances_access, .unlock]⟩
    | some instance_old =>
      -- factory = instance_old->factory; ASSERT(factory);
      match instance_factory k.factories instance_old with
      | none => ⟨.error .Bug, some k, [.lock, .instances_access]⟩
      | some factory =>
        match factory.ops.configure factory.data instance_old configuration with
        | none =>
          ⟨.error .ConfigureFailed, some (KIPCM_UNLOCK k),
            [.lock, .instances_access,
             .factory_configure factory.name factory.data instance_old.self configuration,
             .unlock]⟩
        | some instance_new =>
          if instance_new.self ≠ instance_old.self then
            match ipcp_imap_update k.instances id instance_new env.imap_update_ok with
            | none =>
              ⟨.error .TableFailed, some (KIPCM_UNLOCK k),
                [.lock, .instances_access,
                 .factory_configure factory.name factory.data instance_old.self configuration,
                 .instances_access, .unlock]⟩
            | some m =>
              ⟨.ok (), some (KIPCM_UNLOCK { k with instances := m }),
                [.lock, .instances_access,
                 .factory_configure factory.name factory.data instance_old.self configuration,
                 .instances_access, .unlock]⟩
          else
            ⟨.ok (), some (KIPCM_UNLOCK k),
              [.lock, .instances_access,
               .factory_configure factory.name factory.data instance_old.self configuration,
               .unlock]⟩

/-- The function `kipcm_flow_remove` (kipcm.c, lines 468-498). -/
def kipcm_flow_remove (kipcm : Option kipcm) (port_id : port_id_t) (env : kenv) :
    kresult Unit :=
  match kipcm with
  | none => ⟨.error .InvalidArgument, none, []⟩
  | some k =>
    let k := KIPCM_LOCK k
    match ipcp_fmap_find k.flows port_id with
    | none => ⟨.error .NotFound, some (KIPCM_UNLOCK k), [.lock, .flows_access, .unlock]⟩
    | some _ =>
      -- kfifo_free(&flow->sdu_ready); rkfree(flow);
      match ipcp_fmap_remove k.flows port_id env.fmap_remove_ok with
      | none =>
        ⟨.error .TableFailed, some (KIPCM_UNLOCK k),
          [.lock, .flows_access, .kfifo_free, .rkfree_flow, .flows_access, .unlock]⟩
      | some m =>
        ⟨.ok (), some (KIPCM_UNLOCK { k with flows := m }),
          [.lock, .flows_access, .kfifo_free, .rkfree_flow, .flows_access, .unlock]⟩

/-- The function `kipcm_sdu_write` (kipcm.c, lines 501-541). -/
def kipcm_sdu_write (kipcm : Option kipcm) (port_id : port_id_t) (sdu : Option sdu) :
    kresult Unit :=
  match kipcm with
  | none => ⟨.error .InvalidArgument, none, []⟩
  | some k =>
    match sdu with
    | none => ⟨.error .InvalidArgument, some k, []⟩
    | some s =>
      if !sdu_is_ok s then ⟨.error .InvalidArgument, some k, []⟩
      else
        let k := KIPCM_LOCK k
        match ipcp_fmap_find k.flows port_id with
        | none => ⟨.error .NoSuchFlow, some (KIPCM_UNLOCK k), [.lock, .flows_access, .unlock]⟩
        | some flow =>
          let inst := flow.ipc_process
          if inst.ops.sdu_write inst.data port_id s ≠ 0 then
            ⟨.error .SduWriteFailed, some (KIPCM_UNLOCK k),
              [.lock, .flows_access, .instance_sdu_write inst.self inst.data port_id s,
               .unlock]⟩
          else
            ⟨.ok (), some (KIPCM_UNLOCK k),
              [.lock, .flows_access, .instance_sdu_write inst.self inst.data port_id s,
               .unlock]⟩

/-- The function `kipcm_notify_ipcp_allocate_flow_request` (kipcm.c, lines
665-697).  The local pointer `msg` is declared at line 669 and never assigned:
`rnl_parse_msg` (line 673) is handed the value of the pointer, not its address,
so whatever the parse decodes, `msg` designates no message when line 675 reads
`msg->rina_hdr`: the call stops there (`Bug`).  The lines after it are embedded
as written, under the message `msg` would have to designate.  The source
neither tests `kipcm` nor takes the lock. -/
def kipcm_notify_ipcp_allocate_flow_request (kipcm : Option kipcm) (info : genl_info) :
    kresult Unit :=
  -- struct rnl_msg * msg;
  let msg : Option rnl_msg := none
  -- if (rnl_parse_msg(info, msg)) return -1;
  match rnl_parse_msg info with
  | none => ⟨.error .ParseFailed, kipcm, []⟩
  | some _ =>
    -- ipc_id = msg->rina_hdr->src_ipc_id;
    match msg with
    | none => ⟨.error .Bug, kipcm, []⟩
    | some msg =>
      match kipcm with
      | none => ⟨.error .Bug, none, []⟩
      | some k =>
        let ipc_id := msg.rina_hdr.src_ipc_id
        match ipcp_imap_find k.instances ipc_id with
        | none => ⟨.error .InstanceNotFound, some k, [.instances_access]⟩
        | some ipc_process =>
          match msg.attrs with
          | none => ⟨.error .MissingAttributes, some k, [.instances_access]⟩
          | some msg_attrs =>
            if ipc_process.ops.flow_allocate_request ipc_process.data msg_attrs.source
                msg_attrs.dest msg_attrs.fspec msg_attrs.id ≠ 0 then
              ⟨.error .FlowRequestFailed, some k,
                [.instances_access,
                 .instance_flow_allocate_request ipc_process.self ipc_process.data
                   msg_attrs.source msg_attrs.dest msg_attrs.fspec msg_attrs.id]⟩
            else
              ⟨.ok (), some k,
                [.instances_access,
                 .instance_flow_allocate_request ipc_process.self ipc_process.data
                   msg_attrs.source msg_attrs.dest msg_attrs.fspec msg_attrs.id]⟩

/-- Modelled from the spec: `ipcpf_init`: constructs the FactoryRegistry, with no
factory in it, under the parent object; `NULL` on failure. -/
def ipcpf_init (_parent : Option Nat) (ok : Bool) : Option ipcp_factories :=
  if ok then some [] else none

/-- Modelled from the spec: `ipcp_imap_create`: constructs the InstanceTable, empty;
`NULL` on failure. -/
def ipcp_imap_create (ok : Bool) : Option ipcp_imap := if ok then some [] else none

/-- Modelled from the spec: `ipcp_fmap_create`: constructs the FlowTable, empty; `NULL`
on failure. -/
def ipcp_fmap_create (ok : Bool) : Option ipcp_fmap := if ok then some [] else none

/-- The function `kipcm_init` (kipcm.c, lines 132-174).  The manager handed back
is the `kipcm` of the result (`none` for `NULL`).  The statuses of the releases
on the failure paths are ignored by the source and only recorded as events. -/
def kipcm_init (parent : Option Nat) (env : kenv) : kresult Unit :=
  if !env.kipcm_mem_ok then ⟨.error .OutOfMemory, none, [.rkzalloc_kipcm false]⟩
  else
    match ipcpf_init parent env.ipcpf_init_ok with
    | none =>
      ⟨.error .InitFailed, none, [.rkzalloc_kipcm true, .ipcpf_init false, .rkfree_kipcm]⟩
    | some factories =>
      match ipcp_imap_create env.imap_create_ok with
      | none =>
        ⟨.error .InitFailed, none,
          [.rkzalloc_kipcm true, .ipcpf_init true, .ipcp_imap_create false,
           .ipcpf_fini env.ipcpf_fini_ok, .rkfree_kipcm]⟩
      | some instances =>
        match ipcp_fmap_create env.fmap_create_ok with
        | none =>
          ⟨.error .InitFailed, none,
            [.rkzalloc_kipcm true, .ipcpf_init true, .ipcp_imap_create true,
             .ipcp_fmap_create false, .ipcp_imap_destroy env.imap_destroy_ok,
             .ipcpf_fini env.ipcpf_fini_ok, .rkfree_kipcm]⟩
        | some flows =>
          -- KIPCM_LOCK_INIT(tmp);
          ⟨.ok (), some ⟨false, factories, instances, flows⟩,
            [.rkzalloc_kipcm true, .ipcpf_init true, .ipcp_imap_create true,
             .ipcp_fmap_create true, .lock_init]⟩

/-! ## The console of the IPC manager (`rinad/src/ipcm/console.cc`) -/

/-- The whitespace of `std::isspace` in the "C" locale: space, and the control
characters from horizontal tab (9) to carriage return (13). -/
def isspace (c : Char) : Bool := c.toNat == 32 || (decide (9 ≤ c.toNat) && decide (c.toNat ≤ 13))

/-- The extraction `iss >> token` on the characters left in the stream: leading
whitespace is skipped, then characters are taken up to the next whitespace or
the end.  `none` when no character is extracted (the stream then fails);
otherwise the token and the characters left. -/
def extract_token (cs : List Char) : Option (List Char × List Char) :=
  let tok := (cs.dropWhile isspace).takeWhile fun c => !isspace c
  if tok = [] then none
  else some (tok, (cs.dropWhile isspace).dropWhile fun c => !isspace c)

/-- The loop `while (iss >> token) args.push_back(token);`, run for at most
`fuel` extractions. -/
def read_tokens : Nat → List Char → List String
  | 0, _ => []
  | fuel + 1, cs =>
    match extract_token cs with
    | none => []
    | some (tok, rest) => String.mk tok :: read_tokens fuel rest

/-- The vector `args` that `process_command` builds from its input: every
extraction takes at least one character, so one more than the length of the
input is fuel enough. -/
def console_args (input : List Char) : List String := read_tokens (input.length + 1) input

/-- Splitting on whitespace, in the words of the specification: the input is cut
at every whitespace character and the empty pieces are dropped. -/
def whitespace_split (input : List Char) : List String :=
  ((input.splitOnP isspace).filter fun t => !t.isEmpty).map String.mk

/-- Modelled from the spec: `command_function_t` (console.h): a handler, called with
the argument list and returning a status. -/
abbrev command_function_t := List String → Int

/-- Modelled from the spec: the members of `IPCMConsole` (console.h) that
`process_command` uses: the registered command table and the buffered textual
output. -/
structure IPCMConsole where
  commands_map : List (String × command_function_t)
  outstream : String

/-- The lookup `commands_map.find(key)` (`none` for `end()`). -/
def commands_find : List (String × command_function_t) → String → Option command_function_t
  | [], _ => none
  | (k, h) :: rest, key => if k = key then some h else commands_find rest key

/-- What a console call leaves behind: the returned `int`, the console
afterwards, the bytes that went out on the connection and the handler calls
made (command name and argument list). -/
structure console_result where
  ret : Int
  console : IPCMConsole
  written : String
  invoked : List (String × List String)

/-- The function `IPCMConsole::flush_output` (console.cc, lines 162-179).
`write cfd str` is what `write(cfd, str.c_str(), str.size())` returns. -/
def flush_output (c : IPCMConsole) (cfd : Int) (write : Int → String → Int) : console_result :=
  let str := c.outstream
  let n := write cfd str
  if n < 0 then ⟨-1, c, "", []⟩
  else ⟨0, { c with outstream := "" }, String.mk (str.data.take n.toNat), []⟩

/-- The function `IPCMConsole::process_command` (console.cc, lines 181-208); the
input is `string(cmdbuf, size)`. -/
def process_command (c : IPCMConsole) (cfd : Int) (cmdbuf : List Char) (size : Nat)
    (write : Int → String → Int) : console_result :=
  let args := console_args (cmdbuf.take size)
  match args with
  | [] => ⟨0, c, "", []⟩
  | arg0 :: _ =>
    match commands_find c.commands_map arg0 with
    | none =>
      -- outstream << "Unknown command '" << args[0] << "'" << endl;
      let c1 : IPCMConsole :=
        { c with outstream := c.outstream ++ "Unknown command '" ++ arg0 ++ "'" ++ "\n" }
      let f := flush_output c1 cfd write
      ⟨0, f.console, f.written, []⟩
    | some handler => ⟨handler args, c, "", [(arg0, args)]⟩

/-! ## Wire format and call sequences -/

/-- The bytes one SDU occupies in a flow queue: the native-order image of its
length followed by its payload. -/
def sdu_frame (s : sdu) : List byte := size_t_bytes s.size ++ s.data

/-- The bytes a list of SDUs occupies in a flow queue, first SDU first. -/
def sdu_frames : List sdu → List byte
  | [] => []
  | s :: rest => sdu_frame s ++ sdu_frames rest

/-- Calls `kipcm_sdu_post` on `port_id` for each SDU of the list in turn: the
manager after the last call and the statuses in call order. -/
def post_each (kipcm : Option kipcm) (port_id : port_id_t) :
    List sdu → Option Kipcm.kipcm × List (Except kipcm_error Unit)
  | [] => (kipcm, [])
  | s :: rest =>
    let r := kipcm_sdu_post kipcm port_id (some s)
    let t := post_each r.kipcm port_id rest
    (t.1, r.ret :: t.2)

/-- Calls `kipcm_sdu_read` on `port_id` the given number of times in a row: the
manager after the last call and the statuses in call order. -/
def read_times (kipcm : Option kipcm) (port_id : port_id_t) (env : kenv) :
    Nat → Option Kipcm.kipcm × List (Except kipcm_error sdu)
  | 0 => (kipcm, [])
  | n + 1 =>
    let r := kipcm_sdu_read kipcm port_id true env
    let t := read_times r.kipcm port_id env n
    (t.1, r.ret :: t.2)

/-! ## The scenario of the specification

Factory "normal-ipc" registered, instance 1 created from it, flow on port 7
bound to instance 1, payload "hello". -/

/-- Instance operations that accept every request. -/
def scenario_ops : ipcp_instance_ops :=
  { sdu_write := fun _ _ _ => 0
    flow_allocate_request := fun _ _ _ _ _ => 0 }

/-- The factory "normal-ipc": creates the instance at address `100 + id`. -/
def scenario_factory : ipcp_factory :=
  { name := "normal-ipc"
    data := 0
    ops :=
      { create := fun _ id => some ⟨100 + id.toNat, 0, scenario_ops, none⟩
        destroy := fun _ _ => 0
        configure := fun _ x _ => some x } }

/-- A manager right after `kipcm_init` and the registration of "normal-ipc". -/
def scenario_init : kipcm := ⟨false, [scenario_factory], [], []⟩

/-- Instance 1 as stored in the table. -/
def scenario_instance : ipcp_instance := ⟨101, 0, scenario_ops, some "normal-ipc"⟩

/-- The flow on port 7, its queue empty. -/
def scenario_flow : ipcp_flow :=
  { port_id := 7
    ipc_process := scenario_instance
    application_owned := true
    rmt_instance := none
    sdu_ready := ⟨4096, [], by decide, by decide⟩ }

/-- The manager with instance 1 and the flow on port 7. -/
def scenario_kipcm : kipcm :=
  ⟨false, [scenario_factory], [(1, scenario_instance)], [(7, scenario_flow)]⟩

/-- The SDU carrying the five bytes of "hello". -/
def scenario_hello : sdu := ⟨some ⟨some [104, 101, 108, 108, 111], 5⟩⟩

/-- A well-formed SDU of `n` zero bytes. -/
def zero_sdu (n : Nat) : sdu := ⟨some ⟨some (List.replicate n 0), n⟩⟩

/-! ## A second factory, whose instances refuse everything -/

/-- Instance operations that fail every request with `-12`. -/
def refusing_ops : ipcp_instance_ops :=
  { sdu_write := fun _ _ _ => -12
    flow_allocate_request := fun _ _ _ _ _ => -12 }

/-- The factory "shim": creates the instance at address `200 + id`, cannot
destroy, and configures by handing out a new instance 1000 addresses up. -/
def shim_factory : ipcp_factory :=
  { name := "shim"
    data := 1
    ops :=
      { create := fun _ id => some ⟨200 + id.toNat, 1, refusing_ops, none⟩
        destroy := fun _ _ => -1
        configure := fun _ x _ => some { x with self := x.self + 1000 } } }

/-- Instance 2, made by "shim". -/
def shim_instance : ipcp_instance := ⟨202, 1, refusing_ops, some "shim"⟩

/-- The flow on port 9, bound to instance 2, its queue empty. -/
def shim_flow : ipcp_flow :=
  { port_id := 9
    ipc_process := shim_instance
    application_owned := true
    rmt_instance := none
    sdu_ready := ⟨4096, [], by decide, by decide⟩ }

/-- The scenario manager with "shim", instance 2 and the flow on port 9 added. -/
def scenario_two : kipcm :=
  ⟨false, [scenario_factory, shim_factory],
    [(2, shim_instance), (1, scenario_instance)],
    [(9, shim_flow), (7, scenario_flow)]⟩

/-- An "allocate flow request" for process `id`, asking for port 11. -/
def scenario_request (id : ipc_process_id_t) : genl_info :=
  ⟨some ⟨⟨id⟩, some ⟨⟨"source"⟩, ⟨"dest"⟩, 0, 11⟩⟩⟩

/-! ## Lock discipline of an event list -/

/-- Events that consult or change the factory registry, the instance table or
the flow table. -/
def table_access : kevent → Bool
  | .factories_access => true
  | .instances_access => true
  | .flows_access => true
  | _ => false

/-- Follows the lock through a list of events, from `held`: taking a held lock,
releasing a free one or touching a table with the lock free is a violation
(`none`); otherwise the state of the lock at the end. -/
def lock_scan : Bool → List kevent → Option Bool
  | held, [] => some held
  | held, e :: rest =>
    if e = .lock then (if held then none else lock_scan true rest)
    else if e = .unlock then (if held then lock_scan false rest else none)
    else if table_access e && !held then none
    else lock_scan held rest

/-- The lock is taken exactly once, released exactly once, free at the end, and
every table access lies in between. -/
def locked_once (t : List kevent) : Prop :=
  lock_scan false t = some false ∧ t.count .lock = 1 ∧ t.count .unlock = 1

/-- The lock is never taken and no table is touched. -/
def lock_unused (t : List kevent) : Prop :=
  t.count .lock = 0 ∧ t.count .unlock = 0 ∧ ∀ e ∈ t, table_access e = false

/-- The lock is taken exactly once, never released, held at the end, and every
table access comes after it was taken. -/
def lock_held_once (t : List kevent) : Prop :=
  lock_scan false t = some true ∧ t.count .lock = 1 ∧ t.count .unlock = 0

/-! ## Queue contents as frames -/

/-- Whether the bytes are a concatenation of complete frames, each a
`sizeof(size_t)`-byte native-order length `n > 0` followed by exactly `n`
payload bytes; `fuel` bounds the number of frames looked at. -/
def well_framed_upto : Nat → List byte → Bool
  | _, [] => true
  | 0, _ :: _ => false
  | fuel + 1, b :: bs =>
    let n := bytes_to_size_t ((b :: bs).take SIZEOF_SIZE_T)
    decide (SIZEOF_SIZE_T ≤ (b :: bs).length) && decide (0 < n) &&
      decide (n ≤ (b :: bs).length - SIZEOF_SIZE_T) &&
      well_framed_upto fuel ((b :: bs).drop (SIZEOF_SIZE_T + n))

/-- Whether the bytes are a concatenation of complete frames (a frame takes
more than one byte, so the length of the list is fuel enough). -/
def well_framed (bs : List byte) : Bool := well_framed_upto bs.length bs

/-- One call on the queue of a port: a post of an SDU, or a read with the
outcomes of its allocations. -/
inductive queue_call where
  | post (s : Option sdu)
  | read (sdu_out : Bool) (env : kenv)

/-- The manager after a list of posts and reads on `port_id`, whatever their
statuses. -/
def run_queue_calls (kipcm : Option kipcm) (port_id : port_id_t) :
    List queue_call → Option Kipcm.kipcm
  | [] => kipcm
  | .post s :: rest => run_queue_calls (kipcm_sdu_post kipcm port_id s).kipcm port_id rest
  | .read o env :: rest =>
    run_queue_calls (kipcm_sdu_read kipcm port_id o env).kipcm port_id rest

/-- The bytes held in the queue of the flow on `port_id`, if there is one. -/
def queue_bytes (kipcm : Option kipcm) (port_id : port_id_t) : Option (List byte) :=
  match kipcm with
  | none => none
  | some k => (ipcp_fmap_find k.flows port_id).map fun f => f.sdu_ready.data

/-! ## A factory that hands out one instance twice -/

/-- The factory "single": every create hands out the one instance at address 300;
configure hands out a new instance 1000 addresses up. -/
def single_factory : ipcp_factory :=
  { name := "single"
    data := 2
    ops :=
      { create := fun _ _ => some ⟨300, 2, scenario_ops, none⟩
        destroy := fun _ _ => 0
        configure := fun _ x _ => some { x with self := x.self + 1000 } } }

/-- The manager after "single" was asked for instance 1 and for instance 2. -/
def shared_instance_kipcm : Option kipcm :=
  (kipcm_ipcp_create
    (kipcm_ipcp_create (some ⟨false, [single_factory], [], []⟩)
      (some ⟨"a"⟩) 1 (some "single") {}).kipcm
    (some ⟨"b"⟩) 2 (some "single") {}).kipcm

/-! ## Predicates on calls -/

/-- What a call that starts with the lock free owes the lock.  A call that
returns either rejected an argument before touching lock or tables, or took
and released the lock exactly once around all its table accesses; the manager
it leaves has the lock flag free.  A call that stops in a failed assertion
(`Bug`) took the lock once, before its first table access, and never released
it: the manager it leaves has the lock flag held. -/
def lock_discipline {α : Type} (r : kresult α) : Prop :=
  (r.ret = .error .Bug ∧ lock_held_once r.trace ∧ ∃ k', r.kipcm = some k' ∧ k'.lock = true) ∨
    (r.ret ≠ .error .Bug ∧
      ((lock_unused r.trace ∧ r.ret = .error .InvalidArgument) ∨ locked_once r.trace) ∧
      ∀ k', r.kipcm = some k' → k'.lock = false)

/-- The queue of the flow on `p` holds exactly the frames of well-formed SDUs. -/
def holds_frames (k : kipcm) (p : port_id_t) : Prop :=
  ∃ f ss, ipcp_fmap_find k.flows p = some f ∧ (∀ s ∈ ss, sdu_is_ok s = true) ∧
    f.sdu_ready.data = sdu_frames ss

/-- Whether the buffer allocation of every read in the list goes through. -/
def reads_get_buffers : List queue_call → Prop
  | [] => True
  | .post _ :: rest => reads_get_buffers rest
  | .read _ env :: rest => env.data_mem_ok = true ∧ reads_get_buffers rest

/-- Between two managers, nothing but the queue of the flow on `p` differs: same
factory registry, same instance table, same bound ports in the same order,
every port other than `p` resolving to the same flow, and the flow on `p`
keeping its port id, its instance, its ownership flag, its relay reference and
the capacity of its queue. -/
def only_queue_changed (k k' : kipcm) (p : port_id_t) : Prop :=
  k'.factories = k.factories ∧ k'.instances = k.instances ∧
  k'.flows.map Prod.fst = k.flows.map Prod.fst ∧
  (∀ q, (ipcp_fmap_find k'.flows q).isSome = (ipcp_fmap_find k.flows q).isSome) ∧
  (∀ q, q ≠ p → ipcp_fmap_find k'.flows q = ipcp_fmap_find k.flows q) ∧
  (∀ f, ipcp_fmap_find k.flows p = some f →
    ∃ f', ipcp_fmap_find k'.flows p = some f' ∧
      f'.port_id = f.port_id ∧ f'.ipc_process = f.ipc_process ∧
      f'.application_owned = f.application_owned ∧ f'.rmt_instance = f.rmt_instance ∧
      f'.sdu_ready.size = f.sdu_ready.size)

/-- Every call of the list, made in turn on `port_id`, succeeds. -/
def calls_succeed (kipcm : Option kipcm) (port_id : port_id_t) : List queue_call → Prop
  | [] => True
  | .post s :: rest =>
    (kipcm_sdu_post kipcm port_id s).ret = .ok () ∧
      calls_succeed (kipcm_sdu_post kipcm port_id s).kipcm port_id rest
  | .read o env :: rest =>
    (∃ t, (kipcm_sdu_read kipcm port_id o env).ret = .ok t) ∧
      calls_succeed (kipcm_sdu_read kipcm port_id o env).kipcm port_id rest

/-! ## A console to try things on -/

/-- The line the console answers to a command it does not know. -/
def unknown_command_line (tok : String) : String :=
  "Unknown command '" ++ tok ++ "'" ++ "\n"

/-- A console with the one command "count", which returns the number of its
arguments, and nothing buffered. -/
def scenario_console : IPCMConsole :=
  { commands_map := [("count", fun args => args.length)]
    outstream := "" }

/-- A connection that takes every byte it is given. -/
def write_all : Int → String → Int := fun _ s => s.length

/-! ## Auxiliary facts -/

theorem kfifo_eq_of (a b : kfifo) (hs : a.size = b.size) (hd : a.data = b.data) : a = b := by
  cases a; cases b; simp_all

theorem size_t_bytes_length (n : Nat) : (size_t_bytes n).length = 8 := by
  simp [size_t_bytes]

theorem bytes_to_size_t_bytes (n : Nat) (h : n < 2 ^ 64) :
    bytes_to_size_t (size_t_bytes n) = n := by
  simp [size_t_bytes, bytes_to_size_t, List.range, List.range.loop]
  omega

theorem sdu_is_ok_iff (s : sdu) :
    sdu_is_ok s = true ↔
      ∃ d n, s = ⟨some ⟨some d, n⟩⟩ ∧ 0 < n ∧ d.length = n ∧ n ≤ PTRDIFF_MAX := by
  rcases s with ⟨_ | ⟨_ | d, n⟩⟩ <;> simp [sdu_is_ok]
  constructor
  · rintro ⟨⟨h1, h2⟩, h3⟩
    exact ⟨d, n, ⟨rfl, rfl⟩, h1, h2, h3⟩
  · rintro ⟨d1, n1, ⟨rfl, rfl⟩, h1, h2, h3⟩
    exact ⟨⟨h1, h2⟩, h3⟩

theorem kfifo_in_size (f : kfifo) (buf : List byte) (n : Nat) :
    (kfifo_in f buf n).1.size = f.size := rfl

theorem kfifo_in_ret_le (f : kfifo) (buf : List byte) (n : Nat) :
    (kfifo_in f buf n).2 ≤ kfifo_avail f := by
  simp only [kfifo_in]
  exact Nat.min_le_right _ _

theorem kfifo_in_fits (f : kfifo) (buf : List byte) (n : Nat)
    (hn : buf.length = n) (hfit : n ≤ kfifo_avail f) :
    (kfifo_in f buf n).2 = n ∧ (kfifo_in f buf n).1.data = f.data ++ buf := by
  have h1 := f.size_lt
  have h2 : n < 2 ^ 32 := by unfold kfifo_avail at hfit; omega
  have h3 : min (n % UINT_MOD) (kfifo_avail f) = n := by
    rw [UINT_MOD, Nat.mod_eq_of_lt h2]; exact Nat.min_eq_left hfit
  simp only [kfifo_in, h3]
  refine ⟨trivial, ?_⟩
  rw [List.take_of_length_le (by omega)]

theorem kfifo_out_size (f : kfifo) (n : Nat) : (kfifo_out f n).fifo.size = f.size := rfl

theorem kfifo_out_ret_le (f : kfifo) (n : Nat) : (kfifo_out f n).ret ≤ kfifo_len f := by
  simp only [kfifo_out]
  exact Nat.min_le_right _ _

theorem kfifo_out_front (f : kfifo) (front rest : List byte)
    (hd : f.data = front ++ rest) :
    (kfifo_out f front.length).ret = front.length ∧
    (kfifo_out f front.length).buf = front ∧
    (kfifo_out f front.length).fifo.data = rest := by
  have h1 := f.size_lt
  have h2 := f.len_le
  have h4 : front.length ≤ f.data.length := by simp [hd]
  have h3 : min (front.length % UINT_MOD) (kfifo_len f) = front.length := by
    rw [UINT_MOD, Nat.mod_eq_of_lt (by omega)]; exact Nat.min_eq_left h4
  simp only [kfifo_out, h3, hd]
  simp


theorem ipcp_fmap_find_store_same (m : ipcp_fmap) (p : port_id_t) (f g : ipcp_flow)
    (h : ipcp_fmap_find m p = some g) :
    ipcp_fmap_find (ipcp_fmap_store m p f) p = some f := by
  induction m with
  | nil => simp [ipcp_fmap_find] at h
  | cons e rest ih =>
    obtain ⟨k, v⟩ := e
    by_cases hk : k = p
    · simp [ipcp_fmap_store, ipcp_fmap_find, hk]
    · simp only [ipcp_fmap_find, hk, if_false] at h
      simp [ipcp_fmap_store, ipcp_fmap_find, hk, ih h]

theorem ipcp_fmap_find_store_other (m : ipcp_fmap) (p q : port_id_t) (f : ipcp_flow)
    (h : q ≠ p) :
    ipcp_fmap_find (ipcp_fmap_store m p f) q = ipcp_fmap_find m q := by
  induction m with
  | nil => simp [ipcp_fmap_store]
  | cons e rest ih =>
    obtain ⟨k, v⟩ := e
    by_cases hk : k = p
    · have hq : ¬ k = q := fun hkq => h (hkq ▸ hk)
      subst hk
      simp [ipcp_fmap_store, ipcp_fmap_find, hq]
    · by_cases hq : k = q
      · subst hq
        simp [ipcp_fmap_store, ipcp_fmap_find, hk]
      · simp [ipcp_fmap_store, ipcp_fmap_find, hk, hq, ih]

theorem ipcp_fmap_store_store (m : ipcp_fmap) (p : port_id_t) (f g : ipcp_flow) :
    ipcp_fmap_store (ipcp_fmap_store m p f) p g = ipcp_fmap_store m p g := by
  induction m with
  | nil => simp [ipcp_fmap_store]
  | cons e rest ih =>
    obtain ⟨k, v⟩ := e
    by_cases hk : k = p
    · simp [ipcp_fmap_store, hk]
    · simp [ipcp_fmap_store, hk, ih]

/-- A post that fits: status, manager and events of the call. -/
theorem kipcm_sdu_post_fits (k : kipcm) (p : port_id_t) (f : ipcp_flow) (s : sdu)
    (hf : ipcp_fmap_find k.flows p = some f) (hok : sdu_is_ok s = true)
    (hfit : s.size + SIZEOF_SIZE_T ≤ kfifo_avail f.sdu_ready) :
    ∃ q : kfifo, q.size = f.sdu_ready.size ∧
      q.data = f.sdu_ready.data ++ (size_t_bytes s.size ++ s.data) ∧
      kipcm_sdu_post (some k) p (some s) =
        ⟨.ok (), some ⟨false, k.factories, k.instances,
            ipcp_fmap_store k.flows p { f with sdu_ready := q }⟩,
          [.lock, .flows_access, .kfifo_in SIZEOF_SIZE_T, .kfifo_in s.size, .unlock]⟩ := by
  obtain ⟨d, n, rfl, hpos, hlen, hmax⟩ := (sdu_is_ok_iff s).1 hok
  simp only [sdu.size, SIZEOF_SIZE_T] at hfit
  have hsz := f.sdu_ready.size_lt
  have havail : kfifo_avail f.sdu_ready ≤ f.sdu_ready.size := Nat.sub_le _ _
  have hwrap : (n + 8) % 18446744073709551616 = n + 8 := Nat.mod_eq_of_lt (by omega)
  obtain ⟨r1, d1⟩ := kfifo_in_fits f.sdu_ready (size_t_bytes n) 8 (size_t_bytes_length n)
    (by omega)
  have havail1 : kfifo_avail (kfifo_in f.sdu_ready (size_t_bytes n) 8).1
      = kfifo_avail f.sdu_ready - 8 := by
    simp only [kfifo_avail, kfifo_in_size, d1, List.length_append, size_t_bytes_length]
    omega
  obtain ⟨r2, d2⟩ := kfifo_in_fits (kfifo_in f.sdu_ready (size_t_bytes n) 8).1 d n hlen
    (by omega)
  refine ⟨(kfifo_in (kfifo_in f.sdu_ready (size_t_bytes n) 8).1 d n).1, rfl, ?_, ?_⟩
  · simp [sdu.size, sdu.data, d2, d1]
  · have hnot : ¬ kfifo_avail f.sdu_ready < n + 8 := by omega
    simp [kipcm_sdu_post, hok, KIPCM_LOCK, KIPCM_UNLOCK, hf, sdu.size, sdu.data,
      SIZEOF_SIZE_T, SIZE_T_MOD, hwrap, hnot, r1, r2, ipcp_fmap_store_store]

/-- A post that does not fit: status, manager and events of the call. -/
theorem kipcm_sdu_post_full (k : kipcm) (p : port_id_t) (f : ipcp_flow) (s : sdu)
    (hf : ipcp_fmap_find k.flows p = some f) (hok : sdu_is_ok s = true)
    (hfull : kfifo_avail f.sdu_ready < s.size + SIZEOF_SIZE_T) :
    kipcm_sdu_post (some k) p (some s) =
      ⟨.error .QueueFull, some ⟨false, k.factories, k.instances, k.flows⟩,
        [.lock, .flows_access, .unlock]⟩ := by
  obtain ⟨d, n, rfl, hpos, hlen, hmax⟩ := (sdu_is_ok_iff s).1 hok
  simp only [sdu.size, SIZEOF_SIZE_T] at hfull
  have hwrap : (n + 8) % 18446744073709551616 = n + 8 :=
    Nat.mod_eq_of_lt (by simp only [PTRDIFF_MAX] at hmax; omega)
  simp [kipcm_sdu_post, hok, KIPCM_LOCK, KIPCM_UNLOCK, hf, sdu.size,
    SIZEOF_SIZE_T, SIZE_T_MOD, hwrap, hfull]

/-- A read from a queue that starts with the frame of a well-formed SDU. -/
theorem kipcm_sdu_read_frame (k : kipcm) (p : port_id_t) (f : ipcp_flow) (s : sdu)
    (rest : List byte) (env : kenv)
    (hf : ipcp_fmap_find k.flows p = some f) (hok : sdu_is_ok s = true)
    (hd : f.sdu_ready.data = size_t_bytes s.size ++ s.data ++ rest)
    (hdata : env.data_mem_ok = true) (hsdu : env.sdu_mem_ok = true) :
    ∃ q : kfifo, q.size = f.sdu_ready.size ∧ q.data = rest ∧
      kipcm_sdu_read (some k) p true env =
        ⟨.ok s, some ⟨false, k.factories, k.instances,
            ipcp_fmap_store k.flows p { f with sdu_ready := q }⟩,
          [.lock, .flows_access, .kfifo_out SIZEOF_SIZE_T, .rkzalloc_data s.size true,
           .kfifo_out s.size, .sdu_create_from true, .unlock]⟩ := by
  obtain ⟨d, n, rfl, hpos, hlen, hmax⟩ := (sdu_is_ok_iff s).1 hok
  simp only [sdu.size, sdu.data, Option.getD_some] at hd ⊢
  simp only [PTRDIFF_MAX] at hmax
  have hd1 : f.sdu_ready.data = size_t_bytes n ++ (d ++ rest) := by simp [hd]
  obtain ⟨r1, b1, q1⟩ := kfifo_out_front f.sdu_ready (size_t_bytes n) (d ++ rest) hd1
  rw [size_t_bytes_length] at r1 b1 q1
  obtain ⟨r2, b2, q2⟩ := kfifo_out_front (kfifo_out f.sdu_ready 8).fifo d rest q1
  rw [hlen] at r2 b2 q2
  refine ⟨(kfifo_out (kfifo_out f.sdu_ready 8).fifo n).fifo, rfl, q2, ?_⟩
  have hn : ¬ n = 0 := by omega
  simp [kipcm_sdu_read, KIPCM_LOCK, KIPCM_UNLOCK, hf, SIZEOF_SIZE_T, r1, b1,
    bytes_to_size_t_bytes n (by omega), hn, hdata, hsdu, r2, b2, sdu_create_from]


/-! ## Round trip and FIFO order -/

/-- C1: on a bound port whose queue is empty with capacity C, posting a
well-formed SDU s with 0 < len(s) <= C - sizeof(size_t) succeeds, and the
read that follows (its buffer and SDU allocations succeeding) succeeds and
hands back an SDU of the same size and bytes (indeed s itself), leaving the
queue empty. -/
theorem C1_post_read_round_trip (k : kipcm) (p : port_id_t) (f : ipcp_flow) (s : sdu)
    (env : kenv)
    (hbound : ipcp_fmap_find k.flows p = some f)
    (hempty : kfifo_len f.sdu_ready = 0)
    (hok : sdu_is_ok s = true)
    (hlen : 0 < s.size ∧ s.size ≤ f.sdu_ready.size - SIZEOF_SIZE_T)
    (hdata : env.data_mem_ok = true) (hsdu : env.sdu_mem_ok = true) :
    (kipcm_sdu_post (some k) p (some s)).ret = .ok () ∧
    ∃ s' k' f',
      (kipcm_sdu_read (kipcm_sdu_post (some k) p (some s)).kipcm p true env).ret = .ok s' ∧
      s'.size = s.size ∧ s'.data = s.data ∧ s' = s ∧
      (kipcm_sdu_read (kipcm_sdu_post (some k) p (some s)).kipcm p true env).kipcm = some k' ∧
      ipcp_fmap_find k'.flows p = some f' ∧
      kfifo_len f'.sdu_ready = 0 ∧ f'.sdu_ready.size = f.sdu_ready.size := by
  have hnil : f.sdu_ready.data = [] := List.length_eq_zero.1 hempty
  have hfit : s.size + SIZEOF_SIZE_T ≤ kfifo_avail f.sdu_ready := by
    simp only [kfifo_avail, hnil, List.length_nil, SIZEOF_SIZE_T] at hlen ⊢
    omega
  obtain ⟨q, hq1, hq2, hpost⟩ := kipcm_sdu_post_fits k p f s hbound hok hfit
  rw [hpost]
  refine ⟨rfl, ?_⟩
  have hfind := ipcp_fmap_find_store_same k.flows p { f with sdu_ready := q } f hbound
  obtain ⟨q', hq1', hq2', hread⟩ :=
    kipcm_sdu_read_frame ⟨false, k.factories, k.instances,
      ipcp_fmap_store k.flows p { f with sdu_ready := q }⟩ p { f with sdu_ready := q } s []
      env hfind hok (by simp [hq2, hnil]) hdata hsdu
  simp only [hread]
  refine ⟨s, _, _, rfl, rfl, rfl, rfl, rfl, ipcp_fmap_find_store_same _ _ _ _ hfind, ?_, ?_⟩
  · simp [kfifo_len, hq2']
  · simp [hq1', hq1]

/-- C1, the scenario of the specification: "hello" posted on port 7 of the
scenario manager and read back. -/
theorem C1_post_read_round_trip_witness :
    (kipcm_sdu_post (some scenario_kipcm) 7 (some scenario_hello)).ret = .ok () ∧
    ∃ s' k' f',
      (kipcm_sdu_read (kipcm_sdu_post (some scenario_kipcm) 7 (some scenario_hello)).kipcm
        7 true {}).ret = .ok s' ∧
      s'.size = scenario_hello.size ∧ s'.data = scenario_hello.data ∧ s' = scenario_hello ∧
      (kipcm_sdu_read (kipcm_sdu_post (some scenario_kipcm) 7 (some scenario_hello)).kipcm
        7 true {}).kipcm = some k' ∧
      ipcp_fmap_find k'.flows 7 = some f' ∧
      kfifo_len f'.sdu_ready = 0 ∧ f'.sdu_ready.size = scenario_flow.sdu_ready.size :=
  C1_post_read_round_trip scenario_kipcm 7 scenario_flow scenario_hello {}
    rfl rfl (by decide) (by decide) rfl rfl


theorem scenario_reached :
    (kipcm_flow_add
      (kipcm_ipcp_create (some scenario_init) (some ⟨"ipcp"⟩) 1 none {}).kipcm 1 7 {}).kipcm
      = some scenario_kipcm := rfl

theorem kipcm_sdu_post_ok_inv (k : kipcm) (p : port_id_t) (s : sdu)
    (h : (kipcm_sdu_post (some k) p (some s)).ret = .ok ()) :
    ∃ f, ipcp_fmap_find k.flows p = some f ∧ sdu_is_ok s = true ∧
      s.size + SIZEOF_SIZE_T ≤ kfifo_avail f.sdu_ready := by
  by_cases hok : sdu_is_ok s = true
  · cases hf : ipcp_fmap_find k.flows p with
    | none => simp [kipcm_sdu_post, hok, KIPCM_LOCK, hf] at h
    | some f =>
      refine ⟨f, rfl, hok, ?_⟩
      by_contra hfit
      rw [kipcm_sdu_post_full k p f s hf hok (by omega)] at h
      simp at h
  · simp [kipcm_sdu_post, hok] at h

theorem post_each_frames (p : port_id_t) (ss : List sdu) :
    ∀ (k : kipcm) (f : ipcp_flow), ipcp_fmap_find k.flows p = some f →
      (post_each (some k) p ss).2 = ss.map (fun _ => .ok ()) →
      (∀ s ∈ ss, sdu_is_ok s = true) ∧
      ∃ k' f', (post_each (some k) p ss).1 = some k' ∧
        ipcp_fmap_find k'.flows p = some f' ∧
        f'.sdu_ready.data = f.sdu_ready.data ++ sdu_frames ss := by
  induction ss with
  | nil =>
    intro k f hf _
    exact ⟨by simp, k, f, rfl, hf, by simp [sdu_frames]⟩
  | cons s rest ih =>
    intro k f hf hall
    simp only [post_each, List.map_cons, List.cons.injEq] at hall
    obtain ⟨f0, hf0, hok, hfit⟩ := kipcm_sdu_post_ok_inv k p s hall.1
    rw [hf] at hf0
    cases Option.some.inj hf0
    obtain ⟨q, _, hq2, hpost⟩ := kipcm_sdu_post_fits k p f s hf hok hfit
    have hfind := ipcp_fmap_find_store_same k.flows p { f with sdu_ready := q } f hf
    have hrest := hall.2
    rw [hpost] at hrest
    obtain ⟨hoks, k', f', hk', hf', hd'⟩ := ih _ _ hfind hrest
    refine ⟨?_, k', f', ?_, hf', ?_⟩
    · intro t ht
      rcases List.mem_cons.1 ht with rfl | ht
      · exact hok
      · exact hoks t ht
    · simp only [post_each, hpost]
      exact hk'
    · rw [hd']
      simp [hq2, sdu_frames, sdu_frame]

theorem read_times_frames (p : port_id_t) (env : kenv)
    (hdata : env.data_mem_ok = true) (hsdu : env.sdu_mem_ok = true) (ss : List sdu) :
    ∀ (k : kipcm) (f : ipcp_flow) (rest : List byte),
      ipcp_fmap_find k.flows p = some f →
      f.sdu_ready.data = sdu_frames ss ++ rest →
      (∀ s ∈ ss, sdu_is_ok s = true) →
      (read_times (some k) p env ss.length).2 = ss.map .ok ∧
      ∃ k' f', (read_times (some k) p env ss.length).1 = some k' ∧
        ipcp_fmap_find k'.flows p = some f' ∧ f'.sdu_ready.data = rest := by
  induction ss with
  | nil =>
    intro k f rest hf hd _
    exact ⟨rfl, k, f, rfl, hf, by simpa [sdu_frames] using hd⟩
  | cons s more ih =>
    intro k f rest hf hd hoks
    have hok := hoks s (List.mem_cons_self _ _)
    obtain ⟨q, _, hq2, hread⟩ := kipcm_sdu_read_frame k p f s (sdu_frames more ++ rest) env hf
      hok (by simp [hd, sdu_frames, sdu_frame]) hdata hsdu
    have hfind := ipcp_fmap_find_store_same k.flows p { f with sdu_ready := q } f hf
    obtain ⟨hrets, k', f', hk', hf', hd'⟩ :=
      ih ⟨false, k.factories, k.instances, ipcp_fmap_store k.flows p { f with sdu_ready := q }⟩
        { f with sdu_ready := q } rest hfind hq2
      (fun t ht => hoks t (List.mem_cons_of_mem _ ht))
    simp only [List.length_cons, read_times, hread, List.map_cons]
    exact ⟨by rw [hrets], k', f', hk', hf', hd'⟩

/-- C2: when the SDUs s1..sn are all posted successfully on a port whose queue
was empty, n reads in a row on that port (their allocations succeeding) all
succeed and hand back s1, s2, ..., sn in that order, each equal to what was
posted. -/
theorem C2_strict_fifo (k : kipcm) (p : port_id_t) (f : ipcp_flow) (ss : List sdu)
    (env : kenv)
    (hbound : ipcp_fmap_find k.flows p = some f)
    (hempty : kfifo_len f.sdu_ready = 0)
    (hposted : (post_each (some k) p ss).2 = ss.map (fun _ => .ok ()))
    (hdata : env.data_mem_ok = true) (hsdu : env.sdu_mem_ok = true) :
    (read_times (post_each (some k) p ss).1 p env ss.length).2 = ss.map .ok := by
  have hnil : f.sdu_ready.data = [] := List.length_eq_zero.1 hempty
  obtain ⟨hoks, k', f', hk', hf', hd'⟩ := post_each_frames p ss k f hbound hposted
  rw [hk']
  exact (read_times_frames p env hdata hsdu ss k' f' [] hf' (by simp [hd', hnil]) hoks).1

/-- C2 on the scenario manager: "hello", one zero byte and "hello" again come
back in the order posted. -/
theorem C2_strict_fifo_witness :
    (read_times
      (post_each (some scenario_kipcm) 7 [scenario_hello, zero_sdu 1, scenario_hello]).1
      7 {} 3).2 = [.ok scenario_hello, .ok (zero_sdu 1), .ok scenario_hello] :=
  C2_strict_fifo scenario_kipcm 7 scenario_flow [scenario_hello, zero_sdu 1, scenario_hello] {}
    rfl rfl rfl rfl rfl


/-! ## Queue capacity -/

theorem zero_sdu_is_ok (n : Nat) (h0 : 0 < n) (h1 : n ≤ PTRDIFF_MAX) :
    sdu_is_ok (zero_sdu n) = true := by
  simp [zero_sdu, sdu_is_ok, h0, h1]

theorem zero_sdu_size (n : Nat) : (zero_sdu n).size = n := rfl

theorem kfifo_alloc_page :
    ∃ q : kfifo, kfifo_alloc PAGE_SIZE true = some q ∧ q.size = PAGE_SIZE ∧ q.data = [] := by
  refine ⟨⟨PAGE_SIZE, [], Nat.zero_le _, by decide⟩, ?_, rfl, rfl⟩
  simp [kfifo_alloc, PAGE_SIZE]

theorem kfifo_alloc_some (n : Nat) (b : Bool) (q : kfifo) (h : kfifo_alloc n b = some q) :
    b = true ∧ q.size = n ∧ q.data = [] := by
  unfold kfifo_alloc at h
  split at h
  · rename_i hc
    cases Option.some.inj h
    exact ⟨hc.1, rfl, rfl⟩
  · cases h

/-- A successful `kipcm_flow_add`, read backwards: what held before the call
and what the manager is afterwards. -/
theorem kipcm_flow_add_ok_inv (k : kipcm) (i : ipc_process_id_t) (p : port_id_t)
    (env : kenv) (h : (kipcm_flow_add (some k) i p env).ret = .ok ()) :
    ipcp_fmap_find k.flows p = none ∧
    ∃ x q, ipcp_imap_find k.instances i = some x ∧ q.size = PAGE_SIZE ∧ q.data = [] ∧
      (kipcm_flow_add (some k) i p env).kipcm =
        some ⟨false, k.factories, k.instances, (p, ⟨p, x, true, none, q⟩) :: k.flows⟩ := by
  cases hf : ipcp_fmap_find k.flows p with
  | some f => simp [kipcm_flow_add, KIPCM_LOCK, hf] at h
  | none =>
    refine ⟨rfl, ?_⟩
    cases hm : env.flow_mem_ok with
    | false => simp [kipcm_flow_add, KIPCM_LOCK, hf, hm] at h
    | true =>
      cases hx : ipcp_imap_find k.instances i with
      | none => simp [kipcm_flow_add, KIPCM_LOCK, hf, hm, hx] at h
      | some x =>
        cases hq : kfifo_alloc PAGE_SIZE env.kfifo_mem_ok with
        | none => simp [kipcm_flow_add, KIPCM_LOCK, hf, hm, hx, hq] at h
        | some q =>
          obtain ⟨_, hq1, hq2⟩ := kfifo_alloc_some _ _ _ hq
          cases ha : env.fmap_add_ok with
          | false => simp [kipcm_flow_add, KIPCM_LOCK, hf, hm, hx, hq, ha, ipcp_fmap_add] at h
          | true =>
            refine ⟨x, q, rfl, hq1, hq2, ?_⟩
            simp [kipcm_flow_add, KIPCM_LOCK, KIPCM_UNLOCK, hf, hm, hx, hq, ha, ipcp_fmap_add]

/-- C3: on a bound port, a well-formed SDU whose length plus sizeof(size_t)
exceeds the remaining capacity of the queue is refused with QueueFull, and the
flow table (so the queue of the port, byte for byte) is what it was. -/
theorem C3_full_queue_rejects (k : kipcm) (p : port_id_t) (f : ipcp_flow) (s : sdu)
    (hbound : ipcp_fmap_find k.flows p = some f)
    (hok : sdu_is_ok s = true)
    (hfull : kfifo_avail f.sdu_ready < s.size + SIZEOF_SIZE_T) :
    (kipcm_sdu_post (some k) p (some s)).ret = .error .QueueFull ∧
    ∃ k', (kipcm_sdu_post (some k) p (some s)).kipcm = some k' ∧
      k'.flows = k.flows ∧ ipcp_fmap_find k'.flows p = some f ∧
      k'.instances = k.instances ∧ k'.factories = k.factories := by
  rw [kipcm_sdu_post_full k p f s hbound hok hfull]
  exact ⟨rfl, _, rfl, rfl, hbound, rfl, rfl⟩

/-- C3 on the scenario manager: 4089 bytes do not fit the empty page-sized queue. -/
theorem C3_full_queue_rejects_witness :
    (kipcm_sdu_post (some scenario_kipcm) 7 (some (zero_sdu 4089))).ret = .error .QueueFull ∧
    ∃ k', (kipcm_sdu_post (some scenario_kipcm) 7 (some (zero_sdu 4089))).kipcm = some k' ∧
      k'.flows = scenario_kipcm.flows ∧ ipcp_fmap_find k'.flows 7 = some scenario_flow ∧
      k'.instances = scenario_kipcm.instances ∧ k'.factories = scenario_kipcm.factories :=
  C3_full_queue_rejects scenario_kipcm 7 scenario_flow (zero_sdu 4089) rfl
    (zero_sdu_is_ok 4089 (by decide) (by decide)) (by decide)

/-- C4: the queue of a freshly added flow has a capacity of 4096 bytes and the
length header takes 8; on it a well-formed SDU of 4096 - 8 bytes is accepted
and one of 4096 - 8 + 1 bytes is refused with QueueFull.  In general, on a
bound port a well-formed SDU of n bytes is accepted exactly when
n + sizeof(size_t) <= kfifo_avail of the queue. -/
theorem C4_capacity_boundary (k : kipcm) (i : ipc_process_id_t) (p : port_id_t) (env : kenv)
    (s : sdu)
    (hadded : (kipcm_flow_add (some k) i p env).ret = .ok ())
    (hok : sdu_is_ok s = true) :
    (PAGE_SIZE = 4096 ∧ SIZEOF_SIZE_T = 8) ∧
    (s.size = 4096 - 8 →
      (kipcm_sdu_post (kipcm_flow_add (some k) i p env).kipcm p (some s)).ret = .ok ()) ∧
    (s.size = 4096 - 8 + 1 →
      (kipcm_sdu_post (kipcm_flow_add (some k) i p env).kipcm p (some s)).ret
        = .error .QueueFull) ∧
    (∀ (k2 : kipcm) (p2 : port_id_t) (f2 : ipcp_flow) (s2 : sdu),
      ipcp_fmap_find k2.flows p2 = some f2 → sdu_is_ok s2 = true →
      ((kipcm_sdu_post (some k2) p2 (some s2)).ret = .ok () ↔
        s2.size + SIZEOF_SIZE_T ≤ kfifo_avail f2.sdu_ready)) := by
  obtain ⟨_, x, q, _, hq1, hq2, hk⟩ := kipcm_flow_add_ok_inv k i p env hadded
  have hfind : ipcp_fmap_find
      (⟨false, k.factories, k.instances, (p, ⟨p, x, true, none, q⟩) :: k.flows⟩ : kipcm).flows p
      = some ⟨p, x, true, none, q⟩ := by simp [ipcp_fmap_find]
  have havail : kfifo_avail q = 4096 := by simp [kfifo_avail, hq1, hq2, PAGE_SIZE]
  refine ⟨⟨rfl, rfl⟩, ?_, ?_, ?_⟩
  · intro hs
    rw [hk]
    obtain ⟨_, _, _, hpost⟩ := kipcm_sdu_post_fits _ p _ s hfind hok
      (by simp only [havail, hs, SIZEOF_SIZE_T]; decide)
    rw [hpost]
  · intro hs
    rw [hk, kipcm_sdu_post_full _ p _ s hfind hok
      (by simp only [havail, hs, SIZEOF_SIZE_T]; decide)]
  · intro k2 p2 f2 s2 hf2 hok2
    constructor
    · intro hret
      obtain ⟨f0, hf0, _, hfit⟩ := kipcm_sdu_post_ok_inv k2 p2 s2 hret
      rw [hf2] at hf0
      cases Option.some.inj hf0
      exact hfit
    · intro hfit
      obtain ⟨_, _, _, hpost⟩ := kipcm_sdu_post_fits k2 p2 f2 s2 hf2 hok2 hfit
      rw [hpost]

/-- C4 on the scenario: port 7 freshly added for instance 1; 4088 zero bytes
are accepted, 4089 are refused. -/
theorem C4_capacity_boundary_witness :
    (kipcm_sdu_post
        (kipcm_flow_add (some ⟨false, [scenario_factory], [(1, scenario_instance)], []⟩)
          1 7 {}).kipcm 7 (some (zero_sdu 4088))).ret = .ok () ∧
    (kipcm_sdu_post
        (kipcm_flow_add (some ⟨false, [scenario_factory], [(1, scenario_instance)], []⟩)
          1 7 {}).kipcm 7 (some (zero_sdu 4089))).ret = .error .QueueFull :=
  ⟨(C4_capacity_boundary ⟨false, [scenario_factory], [(1, scenario_instance)], []⟩ 1 7 {}
      (zero_sdu 4088) rfl (zero_sdu_is_ok 4088 (by decide) (by decide))).2.1 rfl,
   (C4_capacity_boundary ⟨false, [scenario_factory], [(1, scenario_instance)], []⟩ 1 7 {}
      (zero_sdu 4089) rfl (zero_sdu_is_ok 4089 (by decide) (by decide))).2.2.1 rfl⟩


/-! ## Instance creation -/

theorem ipcpf_find_name (fs : ipcp_factories) (n : String) (f : ipcp_factory)
    (h : ipcpf_find fs n = some f) : f.name = n := by
  have := List.find?_some h
  simpa using this

theorem ipcp_imap_find_cons_other (m : ipcp_imap) (i j : ipc_process_id_t) (x : ipcp_instance)
    (h : j ≠ i) : ipcp_imap_find ((i, x) :: m) j = ipcp_imap_find m j := by
  have h' : ¬ i = j := fun e => h e.symm
  simp [ipcp_imap_find, h']

/-- C5: when process id i is present in the instance table, kipcm_ipcp_create
with id i fails whatever the name and the factory name (known, unknown or
defaulted); the guard that fires is the duplicate-id one (DuplicateId) as soon
as the name renders to a string; no factory create operation is invoked; the
instance table (with the instance stored under i), the flow table and the
factory registry are unchanged. -/
theorem C5_duplicate_id (k : kipcm) (i : ipc_process_id_t) (x : ipcp_instance)
    (nm : Option name) (fname : Option String) (env : kenv)
    (hpresent : ipcp_imap_find k.instances i = some x) :
    (kipcm_ipcp_create (some k) nm i fname env).code = -1 ∧
    (name_tostring nm env.name_mem_ok ≠ none →
      (kipcm_ipcp_create (some k) nm i fname env).ret = .error .DuplicateId) ∧
    (∀ f d j, kevent.factory_create f d j ∉ (kipcm_ipcp_create (some k) nm i fname env).trace) ∧
    ∃ k', (kipcm_ipcp_create (some k) nm i fname env).kipcm = some k' ∧
      k'.instances = k.instances ∧ ipcp_imap_find k'.instances i = some x ∧
      k'.flows = k.flows ∧ k'.factories = k.factories := by
  cases hn : name_tostring nm env.name_mem_ok with
  | none =>
    have hres : kipcm_ipcp_create (some k) nm i fname env
        = ⟨.error .InvalidArgument, some k, []⟩ := by
      simp only [kipcm_ipcp_create, hn]
    rw [hres]
    exact ⟨rfl, fun h => absurd rfl h, by simp, k, rfl, rfl, hpresent, rfl, rfl⟩
  | some str =>
    have hres : kipcm_ipcp_create (some k) nm i fname env
        = ⟨.error .DuplicateId, some ⟨false, k.factories, k.instances, k.flows⟩,
            [.lock, .instances_access, .unlock]⟩ := by
      simp only [kipcm_ipcp_create, hn, KIPCM_LOCK, KIPCM_UNLOCK, hpresent]
    rw [hres]
    exact ⟨rfl, fun _ => rfl, by simp, _, rfl, rfl, hpresent, rfl, rfl⟩

/-- C5 on the scenario manager: a second create with id 1, here with a factory
name nobody registered. -/
theorem C5_duplicate_id_witness :
    (kipcm_ipcp_create (some scenario_kipcm) (some ⟨"other"⟩) 1 (some "shim") {}).code = -1 ∧
    (name_tostring (some ⟨"other"⟩) ({} : kenv).name_mem_ok ≠ none →
      (kipcm_ipcp_create (some scenario_kipcm) (some ⟨"other"⟩) 1 (some "shim") {}).ret
        = .error .DuplicateId) ∧
    (∀ f d j, kevent.factory_create f d j ∉
      (kipcm_ipcp_create (some scenario_kipcm) (some ⟨"other"⟩) 1 (some "shim") {}).trace) ∧
    ∃ k', (kipcm_ipcp_create (some scenario_kipcm) (some ⟨"other"⟩) 1 (some "shim") {}).kipcm
        = some k' ∧
      k'.instances = scenario_kipcm.instances ∧
      ipcp_imap_find k'.instances 1 = some scenario_instance ∧
      k'.flows = scenario_kipcm.flows ∧ k'.factories = scenario_kipcm.factories :=
  C5_duplicate_id scenario_kipcm 1 scenario_instance (some ⟨"other"⟩) (some "shim") {} rfl

/-- C6 as stated fails: on the scenario manager the factory name "shim" does
not resolve, yet a create with the id 1 already present stops at the
duplicate-id guard, not at the factory lookup. -/
theorem C6_unknown_factory_counterexample :
    ipcpf_find scenario_kipcm.factories "shim" = none ∧
    (kipcm_ipcp_create (some scenario_kipcm) (some ⟨"other"⟩) 1 (some "shim") {}).ret
      = .error .DuplicateId ∧
    (kipcm_ipcp_create (some scenario_kipcm) (some ⟨"other"⟩) 1 (some "shim") {}).ret
      ≠ .error .FactoryNotFound := by
  refine ⟨rfl, rfl, ?_⟩
  intro h
  have h2 : (kipcm_ipcp_create (some scenario_kipcm) (some ⟨"other"⟩) 1 (some "shim") {}).ret
      = .error .DuplicateId := rfl
  rw [h2] at h
  cases h

/-- C6 amended: when process id i is absent from the instance table and the
factory name (or the default when none is given) does not resolve,
kipcm_ipcp_create fails; the guard that fires is the factory lookup
(FactoryNotFound) as soon as the name renders to a string; no factory create
operation is invoked and the instance table, the flow table and the factory
registry are unchanged. -/
theorem C6_unknown_factory (k : kipcm) (i : ipc_process_id_t)
    (nm : Option name) (fname : Option String) (env : kenv)
    (habsent : ipcp_imap_find k.instances i = none)
    (hunknown : ipcpf_find k.factories (fname.getD DEFAULT_FACTORY) = none) :
    (kipcm_ipcp_create (some k) nm i fname env).code = -1 ∧
    (name_tostring nm env.name_mem_ok ≠ none →
      (kipcm_ipcp_create (some k) nm i fname env).ret = .error .FactoryNotFound) ∧
    (∀ f d j, kevent.factory_create f d j ∉ (kipcm_ipcp_create (some k) nm i fname env).trace) ∧
    ∃ k', (kipcm_ipcp_create (some k) nm i fname env).kipcm = some k' ∧
      k'.instances = k.instances ∧ k'.flows = k.flows ∧ k'.factories = k.factories := by
  cases hn : name_tostring nm env.name_mem_ok with
  | none =>
    have hres : kipcm_ipcp_create (some k) nm i fname env
        = ⟨.error .InvalidArgument, some k, []⟩ := by
      simp only [kipcm_ipcp_create, hn]
    rw [hres]
    exact ⟨rfl, fun h => absurd rfl h, by simp, k, rfl, rfl, rfl, rfl⟩
  | some str =>
    have hres : kipcm_ipcp_create (some k) nm i fname env
        = ⟨.error .FactoryNotFound, some ⟨false, k.factories, k.instances, k.flows⟩,
            [.lock, .instances_access, .factories_access, .unlock]⟩ := by
      simp only [kipcm_ipcp_create, hn, KIPCM_LOCK, KIPCM_UNLOCK, habsent, hunknown]
    rw [hres]
    exact ⟨rfl, fun _ => rfl, by simp, _, rfl, rfl, rfl, rfl⟩

/-- C6 amended, on the scenario manager: id 2 is free and "shim" is not
registered. -/
theorem C6_unknown_factory_witness :
    (kipcm_ipcp_create (some scenario_kipcm) (some ⟨"other"⟩) 2 (some "shim") {}).ret
      = .error .FactoryNotFound :=
  (C6_unknown_factory scenario_kipcm 2 (some ⟨"other"⟩) (some "shim") {} rfl rfl).2.1
    (by simp [name_tostring])

/-- C7: when id i is absent from the instance table, the factory name (the
default "normal-ipc" when none is given) resolves to factory f, the create
operation of f returns an instance x and the table insertion succeeds (the
name rendering to a string), kipcm_ipcp_create succeeds; afterwards i resolves
to x with its factory back-reference set to f, every other id resolves as
before, and the flow table and the factory registry are unchanged. -/
theorem C7_create_postcondition (k : kipcm) (nm : name) (i : ipc_process_id_t)
    (fname : Option String) (env : kenv) (f : ipcp_factory) (x : ipcp_instance)
    (hname : env.name_mem_ok = true)
    (habsent : ipcp_imap_find k.instances i = none)
    (hfactory : ipcpf_find k.factories (fname.getD DEFAULT_FACTORY) = some f)
    (hcreate : f.ops.create f.data i = some x)
    (hinsert : env.imap_add_ok = true) :
    DEFAULT_FACTORY = "normal-ipc" ∧
    (kipcm_ipcp_create (some k) (some nm) i fname env).ret = .ok () ∧
    ∃ k', (kipcm_ipcp_create (some k) (some nm) i fname env).kipcm = some k' ∧
      ipcp_imap_find k'.instances i = some { x with factory := some f.name } ∧
      ipcpf_find k'.factories f.name = some f ∧
      (∀ j, j ≠ i → ipcp_imap_find k'.instances j = ipcp_imap_find k.instances j) ∧
      k'.flows = k.flows ∧ k'.factories = k.factories := by
  have hfn := ipcpf_find_name _ _ _ hfactory
  have hres : kipcm_ipcp_create (some k) (some nm) i fname env
      = ⟨.ok (), some ⟨false, k.factories,
            (i, { x with factory := some f.name }) :: k.instances, k.flows⟩,
          [.lock, .instances_access, .factories_access, .factory_create f.name f.data i,
           .instances_access, .unlock]⟩ := by
    simp only [kipcm_ipcp_create, name_tostring, hname, if_true, KIPCM_LOCK, KIPCM_UNLOCK,
      habsent, hfactory, hcreate, ipcp_imap_add, hinsert]
  rw [hres]
  refine ⟨rfl, rfl, _, rfl, ?_, ?_, ?_, rfl, rfl⟩
  · simp [ipcp_imap_find]
  · rw [hfn]; exact hfactory
  · intro j hj
    exact ipcp_imap_find_cons_other _ _ _ _ hj

/-- C7 on the scenario: instance 1 created on the fresh manager with the default
factory. -/
theorem C7_create_postcondition_witness :
    (kipcm_ipcp_create (some scenario_init) (some ⟨"ipcp"⟩) 1 none {}).ret = .ok () ∧
    ∃ k', (kipcm_ipcp_create (some scenario_init) (some ⟨"ipcp"⟩) 1 none {}).kipcm = some k' ∧
      ipcp_imap_find k'.instances 1 = some scenario_instance :=
  have h := C7_create_postcondition scenario_init ⟨"ipcp"⟩ 1 none {} scenario_factory
    ⟨101, 0, scenario_ops, none⟩ rfl rfl rfl rfl rfl
  ⟨h.2.1, h.2.2.elim fun k' hk => ⟨k', hk.1, hk.2.1⟩⟩


/-! ## Flow creation -/

theorem ipcp_fmap_find_cons_other (m : ipcp_fmap) (p q : port_id_t) (f : ipcp_flow)
    (h : q ≠ p) : ipcp_fmap_find ((p, f) :: m) q = ipcp_fmap_find m q := by
  have h' : ¬ p = q := fun e => h e.symm
  simp [ipcp_fmap_find, h']

/-- C8: on a port p that is not bound, kipcm_flow_add(i, p) with a process id i
absent from the instance table fails and leaves the flow table unchanged, p
still unbound; the guard that fires is the instance lookup (InstanceNotFound)
as soon as the flow record could be allocated.  Consequently a successful
kipcm_flow_add(i2, p2) implies that i2 was present in the instance table when
it was called. -/
theorem C8_flow_needs_instance (k : kipcm) (i : ipc_process_id_t) (p : port_id_t)
    (env : kenv)
    (hunbound : ipcp_fmap_find k.flows p = none)
    (habsent : ipcp_imap_find k.instances i = none) :
    (kipcm_flow_add (some k) i p env).code = -1 ∧
    (env.flow_mem_ok = true →
      (kipcm_flow_add (some k) i p env).ret = .error .InstanceNotFound) ∧
    (∃ k', (kipcm_flow_add (some k) i p env).kipcm = some k' ∧
      k'.flows = k.flows ∧ ipcp_fmap_find k'.flows p = none ∧ k'.instances = k.instances) ∧
    (∀ (k2 : kipcm) (i2 : ipc_process_id_t) (p2 : port_id_t) (env2 : kenv),
      (kipcm_flow_add (some k2) i2 p2 env2).ret = .ok () →
      ∃ x, ipcp_imap_find k2.instances i2 = some x) := by
  refine ⟨?_, ?_, ?_, ?_⟩
  · cases hm : env.flow_mem_ok <;>
      simp [kipcm_flow_add, KIPCM_LOCK, hunbound, habsent, hm, kresult.code]
  · intro hm
    simp [kipcm_flow_add, KIPCM_LOCK, hunbound, habsent, hm]
  · cases hm : env.flow_mem_ok <;>
      simp [kipcm_flow_add, KIPCM_LOCK, KIPCM_UNLOCK, hunbound, habsent, hm]
  · intro k2 i2 p2 env2 h
    obtain ⟨_, x, _, hx, _⟩ := kipcm_flow_add_ok_inv k2 i2 p2 env2 h
    exact ⟨x, hx⟩

/-- C8 on the scenario manager: port 8 is free and there is no instance 5. -/
theorem C8_flow_needs_instance_witness :
    (kipcm_flow_add (some scenario_kipcm) 5 8 {}).ret = .error .InstanceNotFound ∧
    ∃ k', (kipcm_flow_add (some scenario_kipcm) 5 8 {}).kipcm = some k' ∧
      k'.flows = scenario_kipcm.flows ∧ ipcp_fmap_find k'.flows 8 = none ∧
      k'.instances = scenario_kipcm.instances :=
  have h := C8_flow_needs_instance scenario_kipcm 5 8 {} rfl rfl
  ⟨h.2.1 rfl, h.2.2.1⟩

/-- C9: when port p is already bound to a flow, kipcm_flow_add(i, p) fails with
DuplicateFlow for every process id i, present or absent; the flow table is
unchanged, so the flow on p keeps its bound instance and its queue contents;
the instance table is unchanged too. -/
theorem C9_duplicate_port (k : kipcm) (i : ipc_process_id_t) (p : port_id_t)
    (f : ipcp_flow) (env : kenv)
    (hbound : ipcp_fmap_find k.flows p = some f) :
    (kipcm_flow_add (some k) i p env).ret = .error .DuplicateFlow ∧
    ∃ k', (kipcm_flow_add (some k) i p env).kipcm = some k' ∧
      k'.flows = k.flows ∧ ipcp_fmap_find k'.flows p = some f ∧
      k'.instances = k.instances := by
  have hres : kipcm_flow_add (some k) i p env
      = ⟨.error .DuplicateFlow, some ⟨false, k.factories, k.instances, k.flows⟩,
          [.lock, .flows_access, .unlock]⟩ := by
    simp only [kipcm_flow_add, KIPCM_LOCK, KIPCM_UNLOCK, hbound]
  rw [hres]
  exact ⟨rfl, _, rfl, rfl, hbound, rfl⟩

/-- C9 on the scenario manager: port 7 is taken, for the present id 1 and for
the absent id 5 alike. -/
theorem C9_duplicate_port_witness :
    (kipcm_flow_add (some scenario_kipcm) 1 7 {}).ret = .error .DuplicateFlow ∧
    (kipcm_flow_add (some scenario_kipcm) 5 7 {}).ret = .error .DuplicateFlow :=
  ⟨(C9_duplicate_port scenario_kipcm 1 7 scenario_flow {} rfl).1,
   (C9_duplicate_port scenario_kipcm 5 7 scenario_flow {} rfl).1⟩

/-- C10: when port p is unbound, process id i resolves to instance x, and the
flow record allocation, the queue allocation and the table insertion succeed,
kipcm_flow_add(i, p) succeeds; afterwards p resolves to a flow whose port id is
p, whose bound instance is x, which is application-owned, whose relay
reference is empty and whose sdu-ready queue is empty with a capacity of one
page; every other port resolves as before and the instance table is
unchanged. -/
theorem C10_flow_add_postcondition (k : kipcm) (i : ipc_process_id_t) (p : port_id_t)
    (x : ipcp_instance) (env : kenv)
    (hunbound : ipcp_fmap_find k.flows p = none)
    (hpresent : ipcp_imap_find k.instances i = some x)
    (hflow : env.flow_mem_ok = true)
    (hqueue : env.kfifo_mem_ok = true)
    (hinsert : env.fmap_add_ok = true) :
    (kipcm_flow_add (some k) i p env).ret = .ok () ∧
    ∃ k' f', (kipcm_flow_add (some k) i p env).kipcm = some k' ∧
      ipcp_fmap_find k'.flows p = some f' ∧
      f'.port_id = p ∧ f'.ipc_process = x ∧ f'.application_owned = true ∧
      f'.rmt_instance = none ∧
      kfifo_len f'.sdu_ready = 0 ∧ f'.sdu_ready.size = PAGE_SIZE ∧
      (∀ q, q ≠ p → ipcp_fmap_find k'.flows q = ipcp_fmap_find k.flows q) ∧
      k'.instances = k.instances ∧ k'.factories = k.factories := by
  obtain ⟨q, hq, hq1, hq2⟩ := kfifo_alloc_page
  have hres : kipcm_flow_add (some k) i p env
      = ⟨.ok (), some ⟨false, k.factories, k.instances, (p, ⟨p, x, true, none, q⟩) :: k.flows⟩,
          [.lock, .flows_access, .rkzalloc_flow true, .instances_access, .kfifo_alloc true,
           .flows_access, .unlock]⟩ := by
    simp [kipcm_flow_add, KIPCM_LOCK, KIPCM_UNLOCK, hunbound, hpresent, hflow, hqueue, hq,
      hinsert, ipcp_fmap_add]
  rw [hres]
  refine ⟨rfl, _, ⟨p, x, true, none, q⟩, rfl, ?_, rfl, rfl, rfl, rfl, ?_, hq1, ?_, rfl, rfl⟩
  · simp [ipcp_fmap_find]
  · simp [kfifo_len, hq2]
  · intro r hr
    exact ipcp_fmap_find_cons_other _ _ _ _ hr

/-- C10 on the scenario: port 7 added for instance 1 gives the scenario flow. -/
theorem C10_flow_add_postcondition_witness :
    (kipcm_flow_add (some ⟨false, [scenario_factory], [(1, scenario_instance)], []⟩)
      1 7 {}).ret = .ok () ∧
    ∃ k' f', (kipcm_flow_add (some ⟨false, [scenario_factory], [(1, scenario_instance)], []⟩)
        1 7 {}).kipcm = some k' ∧
      ipcp_fmap_find k'.flows 7 = some f' ∧
      f'.port_id = 7 ∧ f'.ipc_process = scenario_instance ∧ f'.application_owned = true ∧
      f'.rmt_instance = none ∧
      kfifo_len f'.sdu_ready = 0 ∧ f'.sdu_ready.size = PAGE_SIZE ∧
      (∀ q, q ≠ 7 → ipcp_fmap_find k'.flows q
        = ipcp_fmap_find (⟨false, [scenario_factory], [(1, scenario_instance)], []⟩ : kipcm).flows q) ∧
      k'.instances = [(1, scenario_instance)] ∧ k'.factories = [scenario_factory] :=
  C10_flow_add_postcondition ⟨false, [scenario_factory], [(1, scenario_instance)], []⟩ 1 7
    scenario_instance {} rfl rfl rfl rfl rfl

/-! ## Flow removal -/

theorem ipcp_fmap_find_filter (m : ipcp_fmap) (p q : port_id_t) :
    ipcp_fmap_find (m.filter fun e => !decide (e.1 = p)) q
      = if q = p then none else ipcp_fmap_find m q := by
  induction m with
  | nil => simp [ipcp_fmap_find]
  | cons e rest ih =>
    obtain ⟨k, v⟩ := e
    by_cases hk : k = p
    · have hf : ((k, v) :: rest).filter (fun e => !decide (e.1 = p))
          = rest.filter (fun e => !decide (e.1 = p)) := by
        simp [List.filter_cons, hk]
      rw [hf, ih]
      by_cases hq : q = p
      · simp [hq]
      · have hkq : ¬ k = q := fun e => hq (e ▸ hk)
        simp [hq, hkq, ipcp_fmap_find]
    · have hf : ((k, v) :: rest).filter (fun e => !decide (e.1 = p))
          = (k, v) :: rest.filter (fun e => !decide (e.1 = p)) := by
        simp [List.filter_cons, hk]
      rw [hf]
      simp only [ipcp_fmap_find, ih]
      by_cases hq : q = p
      · have hkq : ¬ k = q := fun e => hk (e.trans hq)
        simp [hq, hkq]
        intro h; exact hk h
      · simp [hq]

theorem ipcp_fmap_store_same (m : ipcp_fmap) (p : port_id_t) (f : ipcp_flow)
    (h : ipcp_fmap_find m p = some f) : ipcp_fmap_store m p f = m := by
  induction m with
  | nil => rfl
  | cons e rest ih =>
    obtain ⟨k, v⟩ := e
    by_cases hk : k = p
    · simp only [ipcp_fmap_find, hk, if_true] at h
      cases Option.some.inj h
      simp [ipcp_fmap_store, hk]
    · simp only [ipcp_fmap_find, hk, if_false] at h
      simp [ipcp_fmap_store, hk, ih h]

/-- A successful `kipcm_flow_remove`, read backwards. -/
theorem kipcm_flow_remove_ok_inv (k : kipcm) (p : port_id_t) (env : kenv)
    (h : (kipcm_flow_remove (some k) p env).ret = .ok ()) :
    (kipcm_flow_remove (some k) p env).kipcm =
      some ⟨false, k.factories, k.instances, k.flows.filter fun e => !decide (e.1 = p)⟩ := by
  cases hf : ipcp_fmap_find k.flows p with
  | none => simp [kipcm_flow_remove, KIPCM_LOCK, hf] at h
  | some f =>
    cases ho : env.fmap_remove_ok with
    | false => simp [kipcm_flow_remove, KIPCM_LOCK, hf, ipcp_fmap_remove, ho] at h
    | true => simp [kipcm_flow_remove, KIPCM_LOCK, KIPCM_UNLOCK, hf, ipcp_fmap_remove, ho]

/-- C11: when port p is bound and kipcm_flow_remove(p) succeeds, p is unbound
afterwards: kipcm_sdu_read(p), and kipcm_sdu_post(p, s) and
kipcm_sdu_write(p, s) for a well-formed SDU s, fail with NoSuchFlow, a second
kipcm_flow_remove(p) fails with NotFound, and every other port resolves as
before. -/
theorem C11_removed_flow_is_gone (k : kipcm) (p : port_id_t) (f : ipcp_flow) (s : sdu)
    (env env2 : kenv)
    (hbound : ipcp_fmap_find k.flows p = some f)
    (hremoved : (kipcm_flow_remove (some k) p env).ret = .ok ())
    (hok : sdu_is_ok s = true) :
    ∃ k', (kipcm_flow_remove (some k) p env).kipcm = some k' ∧
      ipcp_fmap_find k'.flows p = none ∧
      (kipcm_sdu_read (some k') p true env2).ret = .error .NoSuchFlow ∧
      (kipcm_sdu_post (some k') p (some s)).ret = .error .NoSuchFlow ∧
      (kipcm_sdu_write (some k') p (some s)).ret = .error .NoSuchFlow ∧
      (kipcm_flow_remove (some k') p env2).ret = .error .NotFound ∧
      (∀ q, q ≠ p → ipcp_fmap_find k'.flows q = ipcp_fmap_find k.flows q) ∧
      k'.instances = k.instances ∧ k'.factories = k.factories := by
  have _hf := hbound
  have hgone : ipcp_fmap_find (k.flows.filter fun e => !decide (e.1 = p)) p = none := by
    rw [ipcp_fmap_find_filter]; simp
  refine ⟨_, kipcm_flow_remove_ok_inv k p env hremoved, hgone, ?_, ?_, ?_, ?_, ?_, rfl, rfl⟩
  · simp [kipcm_sdu_read, KIPCM_LOCK, hgone]
  · simp [kipcm_sdu_post, KIPCM_LOCK, hgone, hok]
  · simp [kipcm_sdu_write, KIPCM_LOCK, hgone, hok]
  · simp [kipcm_flow_remove, KIPCM_LOCK, hgone]
  · intro q hq
    simp only [ipcp_fmap_find_filter, hq, if_false]

/-- C11 on the scenario manager: port 7 removed. -/
theorem C11_removed_flow_is_gone_witness :
    ∃ k', (kipcm_flow_remove (some scenario_kipcm) 7 {}).kipcm = some k' ∧
      ipcp_fmap_find k'.flows 7 = none ∧
      (kipcm_sdu_read (some k') 7 true {}).ret = .error .NoSuchFlow ∧
      (kipcm_sdu_post (some k') 7 (some scenario_hello)).ret = .error .NoSuchFlow ∧
      (kipcm_sdu_write (some k') 7 (some scenario_hello)).ret = .error .NoSuchFlow ∧
      (kipcm_flow_remove (some k') 7 {}).ret = .error .NotFound ∧
      (∀ q, q ≠ 7 → ipcp_fmap_find k'.flows q = ipcp_fmap_find scenario_kipcm.flows q) ∧
      k'.instances = scenario_kipcm.instances ∧ k'.factories = scenario_kipcm.factories :=
  C11_removed_flow_is_gone scenario_kipcm 7 scenario_flow scenario_hello {} {} rfl rfl
    (by decide)

/-! ## Reading an empty queue -/

/-- C12: on a bound port whose queue holds no byte, kipcm_sdu_read fails with
Underrun; it allocates no buffer, builds no SDU and hands none back; the flow
table is what it was, the queue still empty. -/
theorem C12_empty_queue_read (k : kipcm) (p : port_id_t) (f : ipcp_flow) (env : kenv)
    (hbound : ipcp_fmap_find k.flows p = some f)
    (hempty : kfifo_len f.sdu_ready = 0) :
    (kipcm_sdu_read (some k) p true env).ret = .error .Underrun ∧
    (kipcm_sdu_read (some k) p true env).trace
      = [.lock, .flows_access, .kfifo_out 0, .unlock] ∧
    (∀ n ok, kevent.rkzalloc_data n ok ∉ (kipcm_sdu_read (some k) p true env).trace) ∧
    (∀ ok, kevent.sdu_create_from ok ∉ (kipcm_sdu_read (some k) p true env).trace) ∧
    (∀ s, (kipcm_sdu_read (some k) p true env).ret ≠ .ok s) ∧
    ∃ k', (kipcm_sdu_read (some k) p true env).kipcm = some k' ∧
      k'.flows = k.flows ∧ ipcp_fmap_find k'.flows p = some f ∧
      kfifo_len f.sdu_ready = 0 := by
  have hnil : f.sdu_ready.data = [] := List.length_eq_zero.1 hempty
  have hret : (kfifo_out f.sdu_ready SIZEOF_SIZE_T).ret = 0 := by
    simp [kfifo_out, kfifo_len, hnil]
  have hfifo : (kfifo_out f.sdu_ready SIZEOF_SIZE_T).fifo = f.sdu_ready :=
    kfifo_eq_of _ _ rfl (by simp [kfifo_out, hnil])
  have hflow : ({ f with sdu_ready := (kfifo_out f.sdu_ready SIZEOF_SIZE_T).fifo } : ipcp_flow)
      = f := by rw [hfifo]
  have hres : kipcm_sdu_read (some k) p true env
      = ⟨.error .Underrun, some ⟨false, k.factories, k.instances, k.flows⟩,
          [.lock, .flows_access, .kfifo_out 0, .unlock]⟩ := by
    simp only [kipcm_sdu_read, KIPCM_LOCK, KIPCM_UNLOCK, hbound, hret, hflow,
      ipcp_fmap_store_same _ _ _ hbound]
    simp [SIZEOF_SIZE_T]
  rw [hres]
  refine ⟨rfl, rfl, by simp, by simp, ?_, _, rfl, rfl, hbound, hempty⟩
  intro s h
  cases h

/-- C12 on the scenario manager, whose port 7 has an empty queue. -/
theorem C12_empty_queue_read_witness :
    (kipcm_sdu_read (some scenario_kipcm) 7 true {}).ret = .error .Underrun ∧
    (kipcm_sdu_read (some scenario_kipcm) 7 true {}).trace
      = [.lock, .flows_access, .kfifo_out 0, .unlock] :=
  have h := C12_empty_queue_read scenario_kipcm 7 scenario_flow {} rfl rfl
  ⟨h.1, h.2.1⟩

/-! ## Instance reconfiguration, destruction and rollback -/

theorem ipcp_imap_find_filter (m : ipcp_imap) (i j : ipc_process_id_t) :
    ipcp_imap_find (m.filter fun e => !decide (e.1 = i)) j
      = if j = i then none else ipcp_imap_find m j := by
  induction m with
  | nil => simp [ipcp_imap_find]
  | cons e rest ih =>
    obtain ⟨k, v⟩ := e
    by_cases hk : k = i
    · have hf : ((k, v) :: rest).filter (fun e => !decide (e.1 = i))
          = rest.filter (fun e => !decide (e.1 = i)) := by
        simp [List.filter_cons, hk]
      rw [hf, ih]
      by_cases hj : j = i
      · simp [hj]
      · have hkj : ¬ k = j := fun e => hj (e ▸ hk)
        simp [hj, hkj, ipcp_imap_find]
    · have hf : ((k, v) :: rest).filter (fun e => !decide (e.1 = i))
          = (k, v) :: rest.filter (fun e => !decide (e.1 = i)) := by
        simp [List.filter_cons, hk]
      rw [hf]
      simp only [ipcp_imap_find, ih]
      by_cases hj : j = i
      · have hkj : ¬ k = j := fun e => hk (e.trans hj)
        simp [hj, hkj]
        intro h; exact hk h
      · simp [hj]

theorem ipcp_imap_find_store_same (m : ipcp_imap) (i : ipc_process_id_t) (x y : ipcp_instance)
    (h : ipcp_imap_find m i = some x) :
    ipcp_imap_find (ipcp_imap_store m i y) i = some y := by
  induction m with
  | nil => simp [ipcp_imap_find] at h
  | cons e rest ih =>
    obtain ⟨k, v⟩ := e
    by_cases hk : k = i
    · simp [ipcp_imap_store, ipcp_imap_find, hk]
    · simp only [ipcp_imap_find, hk, if_false] at h
      simp [ipcp_imap_store, ipcp_imap_find, hk, ih h]

theorem ipcp_imap_find_store_other (m : ipcp_imap) (i j : ipc_process_id_t) (y : ipcp_instance)
    (h : j ≠ i) :
    ipcp_imap_find (ipcp_imap_store m i y) j = ipcp_imap_find m j := by
  induction m with
  | nil => simp [ipcp_imap_store]
  | cons e rest ih =>
    obtain ⟨k, v⟩ := e
    by_cases hk : k = i
    · have hj : ¬ k = j := fun hkj => h (hkj ▸ hk)
      subst hk
      simp [ipcp_imap_store, ipcp_imap_find, hj]
    · by_cases hj : k = j
      · subst hj
        simp [ipcp_imap_store, ipcp_imap_find, hk]
      · simp [ipcp_imap_store, ipcp_imap_find, hk, hj, ih]

/-- C13 amended: when id i resolves to instance x and the configure operation of
the owning factory returns an instance y at another address (the table update
going through), kipcm_ipcp_configure succeeds; afterwards i resolves to y,
every other id resolves as before, and the only ids that may still resolve to
x are other ids that already did: none at all when x was stored under i
only. -/
theorem C13_configure_swap (k : kipcm) (i : ipc_process_id_t) (x y : ipcp_instance)
    (f : ipcp_factory) (cfg : Nat) (env : kenv)
    (hfound : ipcp_imap_find k.instances i = some x)
    (hfactory : instance_factory k.factories x = some f)
    (hconf : f.ops.configure f.data x cfg = some y)
    (hdiff : y.self ≠ x.self)
    (hupdate : env.imap_update_ok = true) :
    (kipcm_ipcp_configure (some k) i cfg env).ret = .ok () ∧
    ∃ k', (kipcm_ipcp_configure (some k) i cfg env).kipcm = some k' ∧
      ipcp_imap_find k'.instances i = some y ∧
      (∀ j, j ≠ i → ipcp_imap_find k'.instances j = ipcp_imap_find k.instances j) ∧
      (∀ j z, ipcp_imap_find k'.instances j = some z → z.self = x.self →
        j ≠ i ∧ ipcp_imap_find k.instances j = some z) ∧
      ((∀ j z, j ≠ i → ipcp_imap_find k.instances j = some z → z.self ≠ x.self) →
        ∀ j z, ipcp_imap_find k'.instances j = some z → z.self ≠ x.self) ∧
      k'.flows = k.flows ∧ k'.factories = k.factories := by
  have hres : kipcm_ipcp_configure (some k) i cfg env
      = ⟨.ok (), some ⟨false, k.factories, ipcp_imap_store k.instances i y, k.flows⟩,
          [.lock, .instances_access, .factory_configure f.name f.data x.self cfg,
           .instances_access, .unlock]⟩ := by
    simp [kipcm_ipcp_configure, KIPCM_LOCK, KIPCM_UNLOCK, hfound, hfactory, hconf, hdiff,
      ipcp_imap_update, hupdate]
  rw [hres]
  have hself := ipcp_imap_find_store_same k.instances i x y hfound
  have hother := fun j (hj : j ≠ i) => ipcp_imap_find_store_other k.instances i j y hj
  have hexact : ∀ j z, ipcp_imap_find (ipcp_imap_store k.instances i y) j = some z →
      z.self = x.self → j ≠ i ∧ ipcp_imap_find k.instances j = some z := by
    intro j z hz hzx
    by_cases hj : j = i
    · subst hj
      rw [hself] at hz
      cases Option.some.inj hz
      exact absurd hzx hdiff
    · exact ⟨hj, by rw [← hother j hj]; exact hz⟩
  refine ⟨rfl, _, rfl, hself, hother, hexact, ?_, rfl, rfl⟩
  intro hown j z hz hzx
  obtain ⟨hj, hz'⟩ := hexact j z hz hzx
  exact hown j z hj hz' hzx

/-- C13 amended, on the two-factory scenario: instance 2 of "shim" is replaced by the
instance 1000 addresses up. -/
theorem C13_configure_swap_witness :
    (kipcm_ipcp_configure (some scenario_two) 2 0 {}).ret = .ok () ∧
    ∃ k', (kipcm_ipcp_configure (some scenario_two) 2 0 {}).kipcm = some k' ∧
      ipcp_imap_find k'.instances 2 = some { shim_instance with self := 1202 } ∧
      ipcp_imap_find k'.instances 1 = some scenario_instance ∧
      ∀ j z, ipcp_imap_find k'.instances j = some z → z.self ≠ shim_instance.self :=
  have h := C13_configure_swap scenario_two 2 shim_instance { shim_instance with self := 1202 }
    shim_factory 0 {} rfl rfl rfl (by decide) rfl
  ⟨h.1, h.2.elim fun k' hk =>
    ⟨k', hk.1, hk.2.1, (hk.2.2.1 1 (by decide)).trans rfl,
      hk.2.2.2.2.1 (fun j z hj hz hzx => by
        by_cases h1 : j = 1
        · subst h1
          have hz1 : ipcp_imap_find scenario_two.instances 1 = some scenario_instance := rfl
          rw [hz1] at hz
          cases Option.some.inj hz
          exact absurd hzx (by decide)
        · have hnone : ipcp_imap_find scenario_two.instances j = none := by
            simp [scenario_two, ipcp_imap_find, Ne.symm hj, Ne.symm h1]
          rw [hnone] at hz
          cases hz)⟩⟩

/-- C13 as stated fails: with one instance x stored under ids 1 and 2 (a factory
that hands out the same instance twice), a configure of id 1 that returns
another instance succeeds, and id 2 still resolves to x. -/
theorem C13_configure_swap_counterexample :
    ∃ k x y, shared_instance_kipcm = some k ∧
      ipcp_imap_find k.instances 1 = some x ∧
      instance_factory k.factories x = some single_factory ∧
      single_factory.ops.configure single_factory.data x 0 = some y ∧
      y.self ≠ x.self ∧
      (kipcm_ipcp_configure (some k) 1 0 {}).ret = .ok () ∧
      ∃ k' z, (kipcm_ipcp_configure (some k) 1 0 {}).kipcm = some k' ∧
        ipcp_imap_find k'.instances 2 = some z ∧ z.self = x.self :=
  ⟨_, ⟨300, 2, scenario_ops, some "single"⟩, ⟨1300, 2, scenario_ops, some "single"⟩,
    rfl, rfl, rfl, rfl, by decide, rfl, _, _, rfl, rfl, rfl⟩

/-- C14: kipcm_ipcp_configure(i, cfg) fails with NotFound and changes nothing
when i is absent; when i resolves to x and the configure operation of its
factory returns null, it fails and the instance table is unchanged; when that
operation returns x itself (an instance at the address of x), it succeeds
without any table operation after the lookup, and the instance table is
unchanged. -/
theorem C14_configure_without_swap (k : kipcm) (i : ipc_process_id_t) (cfg : Nat)
    (env : kenv) :
    (ipcp_imap_find k.instances i = none →
      (kipcm_ipcp_configure (some k) i cfg env).ret = .error .NotFound ∧
      (kipcm_ipcp_configure (some k) i cfg env).kipcm
        = some ⟨false, k.factories, k.instances, k.flows⟩) ∧
    (∀ x f, ipcp_imap_find k.instances i = some x →
      instance_factory k.factories x = some f →
      f.ops.configure f.data x cfg = none →
      (kipcm_ipcp_configure (some k) i cfg env).ret = .error .ConfigureFailed ∧
      (kipcm_ipcp_configure (some k) i cfg env).code = -1 ∧
      (kipcm_ipcp_configure (some k) i cfg env).kipcm
        = some ⟨false, k.factories, k.instances, k.flows⟩) ∧
    (∀ x f y, ipcp_imap_find k.instances i = some x →
      instance_factory k.factories x = some f →
      f.ops.configure f.data x cfg = some y → y.self = x.self →
      (kipcm_ipcp_configure (some k) i cfg env).ret = .ok () ∧
      (kipcm_ipcp_configure (some k) i cfg env).trace
        = [.lock, .instances_access, .factory_configure f.name f.data x.self cfg, .unlock] ∧
      (kipcm_ipcp_configure (some k) i cfg env).kipcm
        = some ⟨false, k.factories, k.instances, k.flows⟩) := by
  refine ⟨?_, ?_, ?_⟩
  · intro h
    simp [kipcm_ipcp_configure, KIPCM_LOCK, KIPCM_UNLOCK, h]
  · intro x f hx hf hc
    simp [kipcm_ipcp_configure, KIPCM_LOCK, KIPCM_UNLOCK, hx, hf, hc, kresult.code]
  · intro x f y hx hf hc hy
    simp [kipcm_ipcp_configure, KIPCM_LOCK, KIPCM_UNLOCK, hx, hf, hc, hy]

/-- C14 on the two-factory scenario: id 5 is absent; "normal-ipc" configures
instance 1 in place. -/
theorem C14_configure_without_swap_witness :
    (kipcm_ipcp_configure (some scenario_two) 5 0 {}).ret = .error .NotFound ∧
    (kipcm_ipcp_configure (some scenario_two) 1 0 {}).ret = .ok () ∧
    (kipcm_ipcp_configure (some scenario_two) 1 0 {}).kipcm = some scenario_two :=
  ⟨((C14_configure_without_swap scenario_two 5 0 {}).1 rfl).1,
   ((C14_configure_without_swap scenario_two 1 0 {}).2.2 scenario_instance scenario_factory
      scenario_instance rfl rfl rfl rfl).1,
   ((C14_configure_without_swap scenario_two 1 0 {}).2.2 scenario_instance scenario_factory
      scenario_instance rfl rfl rfl rfl).2.2⟩

/-- C15: kipcm_ipcp_destroy(i) fails with NotFound and changes nothing when i is
absent; when i resolves to x and the destroy operation of the recorded
factory fails, it fails and the instance table, still mapping i to x, is
unchanged; when that operation succeeds and the table removal goes through, it
succeeds, i is absent afterwards and every other id resolves as before. -/
theorem C15_destroy_atomicity (k : kipcm) (i : ipc_process_id_t) (env : kenv) :
    (ipcp_imap_find k.instances i = none →
      (kipcm_ipcp_destroy (some k) i env).ret = .error .NotFound ∧
      (kipcm_ipcp_destroy (some k) i env).kipcm
        = some ⟨false, k.factories, k.instances, k.flows⟩) ∧
    (∀ x f, ipcp_imap_find k.instances i = some x →
      instance_factory k.factories x = some f →
      f.ops.destroy f.data x ≠ 0 →
      (kipcm_ipcp_destroy (some k) i env).ret = .error .DestroyFailed ∧
      (kipcm_ipcp_destroy (some k) i env).code = -1 ∧
      ∃ k', (kipcm_ipcp_destroy (some k) i env).kipcm = some k' ∧
        k'.instances = k.instances ∧ ipcp_imap_find k'.instances i = some x ∧
        k'.flows = k.flows ∧ k'.factories = k.factories) ∧
    (∀ x f, ipcp_imap_find k.instances i = some x →
      instance_factory k.factories x = some f →
      f.ops.destroy f.data x = 0 → env.imap_remove_ok = true →
      (kipcm_ipcp_destroy (some k) i env).ret = .ok () ∧
      (kipcm_ipcp_destroy (some k) i env).trace
        = [.lock, .instances_access, .factory_destroy f.name f.data x.self,
           .instances_access, .unlock] ∧
      ∃ k', (kipcm_ipcp_destroy (some k) i env).kipcm = some k' ∧
        ipcp_imap_find k'.instances i = none ∧
        (∀ j, j ≠ i → ipcp_imap_find k'.instances j = ipcp_imap_find k.instances j) ∧
        k'.flows = k.flows ∧ k'.factories = k.factories) := by
  refine ⟨?_, ?_, ?_⟩
  · intro h
    simp [kipcm_ipcp_destroy, KIPCM_LOCK, KIPCM_UNLOCK, h]
  · intro x f hx hf hd
    have hres : kipcm_ipcp_destroy (some k) i env
        = ⟨.error .DestroyFailed, some ⟨false, k.factories, k.instances, k.flows⟩,
            [.lock, .instances_access, .factory_destroy f.name f.data x.self, .unlock]⟩ := by
      simp [kipcm_ipcp_destroy, KIPCM_LOCK, KIPCM_UNLOCK, hx, hf, hd]
    rw [hres]
    exact ⟨rfl, rfl, _, rfl, rfl, hx, rfl, rfl⟩
  · intro x f hx hf hd hr
    have hres : kipcm_ipcp_destroy (some k) i env
        = ⟨.ok (), some ⟨false, k.factories,
              k.instances.filter (fun e => !decide (e.1 = i)), k.flows⟩,
            [.lock, .instances_access, .factory_destroy f.name f.data x.self,
             .instances_access, .unlock]⟩ := by
      simp [kipcm_ipcp_destroy, KIPCM_LOCK, KIPCM_UNLOCK, hx, hf, hd, ipcp_imap_remove, hr]
    rw [hres]
    refine ⟨rfl, rfl, _, rfl, ?_, ?_, rfl, rfl⟩
    · simp [ipcp_imap_find_filter]
    · intro j hj
      simp [ipcp_imap_find_filter, hj]

/-- C15 on the two-factory scenario: id 5 is absent, "shim" cannot destroy
instance 2, "normal-ipc" destroys instance 1. -/
theorem C15_destroy_atomicity_witness :
    (kipcm_ipcp_destroy (some scenario_two) 5 {}).ret = .error .NotFound ∧
    (kipcm_ipcp_destroy (some scenario_two) 2 {}).ret = .error .DestroyFailed ∧
    (kipcm_ipcp_destroy (some scenario_two) 1 {}).ret = .ok () :=
  ⟨((C15_destroy_atomicity scenario_two 5 {}).1 rfl).1,
   ((C15_destroy_atomicity scenario_two 2 {}).2.1 shim_instance shim_factory rfl rfl
      (by decide)).1,
   ((C15_destroy_atomicity scenario_two 1 {}).2.2 scenario_instance scenario_factory rfl rfl
      rfl rfl).1⟩

/-- C20: when id i is absent, the factory name (or the default) resolves to f
and the create operation of f returns x, but the insertion of (i, x) into the
instance table fails (the name rendering to a string), kipcm_ipcp_create
invokes the destroy operation of f on x exactly once, fails with
CreationFailed, and leaves the instance table as it was, without an entry
for i. -/
theorem C20_create_rollback (k : kipcm) (nm : name) (i : ipc_process_id_t)
    (fname : Option String) (env : kenv) (f : ipcp_factory) (x : ipcp_instance)
    (hname : env.name_mem_ok = true)
    (habsent : ipcp_imap_find k.instances i = none)
    (hfactory : ipcpf_find k.factories (fname.getD DEFAULT_FACTORY) = some f)
    (hcreate : f.ops.create f.data i = some x)
    (hinsert : env.imap_add_ok = false) :
    (kipcm_ipcp_create (some k) (some nm) i fname env).ret = .error .CreationFailed ∧
    (kipcm_ipcp_create (some k) (some nm) i fname env).code = -1 ∧
    (kipcm_ipcp_create (some k) (some nm) i fname env).trace
      = [.lock, .instances_access, .factories_access, .factory_create f.name f.data i,
         .instances_access, .factory_destroy f.name f.data x.self, .unlock] ∧
    (kipcm_ipcp_create (some k) (some nm) i fname env).trace.count
      (.factory_destroy f.name f.data x.self) = 1 ∧
    (∀ g d z, kevent.factory_destroy g d z ∈
        (kipcm_ipcp_create (some k) (some nm) i fname env).trace →
      g = f.name ∧ d = f.data ∧ z = x.self) ∧
    ∃ k', (kipcm_ipcp_create (some k) (some nm) i fname env).kipcm = some k' ∧
      k'.instances = k.instances ∧ ipcp_imap_find k'.instances i = none ∧
      k'.flows = k.flows ∧ k'.factories = k.factories := by
  have hres : kipcm_ipcp_create (some k) (some nm) i fname env
      = ⟨.error .CreationFailed, some ⟨false, k.factories, k.instances, k.flows⟩,
          [.lock, .instances_access, .factories_access, .factory_create f.name f.data i,
           .instances_access, .factory_destroy f.name f.data x.self, .unlock]⟩ := by
    simp only [kipcm_ipcp_create, name_tostring, hname, if_true, KIPCM_LOCK, KIPCM_UNLOCK,
      habsent, hfactory, hcreate, ipcp_imap_add, hinsert]
    simp
  rw [hres]
  refine ⟨rfl, rfl, rfl, ?_, ?_, _, rfl, rfl, habsent, rfl, rfl⟩
  · simp [List.count_cons]
  · intro g d z hmem
    simpa using hmem

/-- C20 on the fresh scenario manager: the table refuses instance 1. -/
theorem C20_create_rollback_witness :
    (kipcm_ipcp_create (some scenario_init) (some ⟨"ipcp"⟩) 1 none
      { imap_add_ok := false }).ret = .error .CreationFailed ∧
    (kipcm_ipcp_create (some scenario_init) (some ⟨"ipcp"⟩) 1 none
      { imap_add_ok := false }).trace.count (.factory_destroy "normal-ipc" 0 101) = 1 :=
  have h := C20_create_rollback scenario_init ⟨"ipcp"⟩ 1 none { imap_add_ok := false }
    scenario_factory ⟨101, 0, scenario_ops, none⟩ rfl rfl rfl rfl rfl
  ⟨h.1, h.2.2.2.1⟩

/-! ## Delegation to the instance -/

/-- C17 as stated fails: on port 9 of the two-factory scenario the sdu_write
operation of the bound instance returns -12, and kipcm_sdu_write returns -1,
not the delegated value. -/
theorem C17_write_delegation_counterexample :
    sdu_is_ok scenario_hello = true ∧
    ipcp_fmap_find scenario_two.flows 9 = some shim_flow ∧
    shim_flow.ipc_process.ops.sdu_write shim_flow.ipc_process.data 9 scenario_hello = -12 ∧
    (kipcm_sdu_write (some scenario_two) 9 (some scenario_hello)).code = -1 ∧
    (kipcm_sdu_write (some scenario_two) 9 (some scenario_hello)).code
      ≠ shim_flow.ipc_process.ops.sdu_write shim_flow.ipc_process.data 9 scenario_hello := by
  refine ⟨by decide, rfl, rfl, rfl, ?_⟩
  decide

/-- C17 amended: for a well-formed SDU s and a port p bound to a flow whose
instance is x, kipcm_sdu_write(p, s) invokes the sdu_write operation of x
exactly once, with (the data of x, p, s), and returns 0 when that operation
returns 0 and -1 when it returns anything else; the tables are unchanged.  For
a null or malformed SDU it fails with InvalidArgument without any event, so
without consulting the flow table; for an unbound port it fails with
NoSuchFlow without invoking any instance operation. -/
theorem C17_write_delegation (k : kipcm) (p : port_id_t) (s : sdu) :
    (∀ f, sdu_is_ok s = true → ipcp_fmap_find k.flows p = some f →
      (kipcm_sdu_write (some k) p (some s)).trace
        = [.lock, .flows_access,
           .instance_sdu_write f.ipc_process.self f.ipc_process.data p s, .unlock] ∧
      (f.ipc_process.ops.sdu_write f.ipc_process.data p s = 0 →
        (kipcm_sdu_write (some k) p (some s)).ret = .ok () ∧
        (kipcm_sdu_write (some k) p (some s)).code = 0) ∧
      (f.ipc_process.ops.sdu_write f.ipc_process.data p s ≠ 0 →
        (kipcm_sdu_write (some k) p (some s)).ret = .error .SduWriteFailed ∧
        (kipcm_sdu_write (some k) p (some s)).code = -1) ∧
      (kipcm_sdu_write (some k) p (some s)).kipcm
        = some ⟨false, k.factories, k.instances, k.flows⟩) ∧
    ((kipcm_sdu_write (some k) p none).ret = .error .InvalidArgument ∧
      (kipcm_sdu_write (some k) p none).trace = []) ∧
    (sdu_is_ok s = false →
      (kipcm_sdu_write (some k) p (some s)).ret = .error .InvalidArgument ∧
      (kipcm_sdu_write (some k) p (some s)).trace = []) ∧
    (sdu_is_ok s = true → ipcp_fmap_find k.flows p = none →
      (kipcm_sdu_write (some k) p (some s)).ret = .error .NoSuchFlow ∧
      (kipcm_sdu_write (some k) p (some s)).trace = [.lock, .flows_access, .unlock] ∧
      ∀ x d q t, kevent.instance_sdu_write x d q t ∉
        (kipcm_sdu_write (some k) p (some s)).trace) := by
  refine ⟨?_, ⟨rfl, rfl⟩, ?_, ?_⟩
  · intro f hok hf
    by_cases hw : f.ipc_process.ops.sdu_write f.ipc_process.data p s = 0
    · simp [kipcm_sdu_write, KIPCM_LOCK, KIPCM_UNLOCK, hok, hf, hw, kresult.code]
    · simp [kipcm_sdu_write, KIPCM_LOCK, KIPCM_UNLOCK, hok, hf, hw, kresult.code]
  · intro hok
    simp [kipcm_sdu_write, hok]
  · intro hok hf
    simp [kipcm_sdu_write, KIPCM_LOCK, hok, hf]

/-- C17 amended, on the two-factory scenario: the write on port 7 is delegated
and succeeds, the one on port 9 is delegated and refused. -/
theorem C17_write_delegation_witness :
    (kipcm_sdu_write (some scenario_two) 7 (some scenario_hello)).ret = .ok () ∧
    (kipcm_sdu_write (some scenario_two) 7 (some scenario_hello)).trace
      = [.lock, .flows_access, .instance_sdu_write 101 0 7 scenario_hello, .unlock] ∧
    (kipcm_sdu_write (some scenario_two) 9 (some scenario_hello)).ret
      = .error .SduWriteFailed :=
  ⟨(((C17_write_delegation scenario_two 7 scenario_hello).1 scenario_flow (by decide) rfl).2.1
      rfl).1,
   ((C17_write_delegation scenario_two 7 scenario_hello).1 scenario_flow (by decide) rfl).1,
   (((C17_write_delegation scenario_two 9 scenario_hello).1 shim_flow (by decide) rfl).2.2.1
      (by decide)).1⟩

/-- C18, the code as written: in the two-factory scenario instance 1 is bound
and the request for process 1 decodes, header and attributes; yet the handler
neither looks the process up nor invokes flow_allocate_request: it stops at
the read through the pointer `msg`, which the source never assigns, and
returns no status.  The request for the absent process 5 does not fail with
InstanceNotFound either, and the same holds for every manager and every
decoded message. -/
theorem C18_notify_reads_unassigned_msg :
    rnl_parse_msg (scenario_request 1)
      = some ⟨⟨1⟩, some ⟨⟨"source"⟩, ⟨"dest"⟩, 0, 11⟩⟩ ∧
    ipcp_imap_find scenario_two.instances 1 = some scenario_instance ∧
    (kipcm_notify_ipcp_allocate_flow_request (some scenario_two) (scenario_request 1)).ret
      = .error .Bug ∧
    (kipcm_notify_ipcp_allocate_flow_request (some scenario_two) (scenario_request 1)).trace
      = [] ∧
    ipcp_imap_find scenario_two.instances 5 = none ∧
    (kipcm_notify_ipcp_allocate_flow_request (some scenario_two) (scenario_request 5)).ret
      = .error .Bug ∧
    ∀ (k : Option kipcm) (m : rnl_msg),
      kipcm_notify_ipcp_allocate_flow_request k ⟨some m⟩ = ⟨.error .Bug, k, []⟩ :=
  ⟨rfl, rfl, rfl, rfl, rfl, rfl, fun _ _ => rfl⟩

/-! ## Framing of the queue -/

theorem sdu_frame_length (s : sdu) (hok : sdu_is_ok s = true) :
    (sdu_frame s).length = SIZEOF_SIZE_T + s.size := by
  obtain ⟨d, n, rfl, _, hlen, _⟩ := (sdu_is_ok_iff s).1 hok
  simp [sdu_frame, sdu.size, sdu.data, size_t_bytes_length, hlen, SIZEOF_SIZE_T]

theorem well_framed_upto_frames (ss : List sdu) (hoks : ∀ s ∈ ss, sdu_is_ok s = true) :
    ∀ fuel, ss.length ≤ fuel → well_framed_upto fuel (sdu_frames ss) = true := by
  induction ss with
  | nil => intro fuel _; cases fuel <;> simp [sdu_frames, well_framed_upto]
  | cons s rest ih =>
    intro fuel hfuel
    have hok := hoks s (List.mem_cons_self _ _)
    obtain ⟨d, n, rfl, hpos, hlen, hmax⟩ := (sdu_is_ok_iff _).1 hok
    simp only [PTRDIFF_MAX] at hmax
    cases fuel with
    | zero => simp at hfuel
    | succ fuel =>
      have hrest := ih (fun t ht => hoks t (List.mem_cons_of_mem _ ht)) fuel
        (by simpa using hfuel)
      have hcons : ∃ b bs, sdu_frames (⟨some ⟨some d, n⟩⟩ :: rest) = b :: bs := by
        cases hL : sdu_frames (⟨some ⟨some d, n⟩⟩ :: rest) with
        | nil =>
          have := congrArg List.length hL
          simp [sdu_frames, sdu_frame, size_t_bytes_length] at this
        | cons b bs => exact ⟨b, bs, rfl⟩
      obtain ⟨b, bs, hb⟩ := hcons
      rw [hb]
      simp only [well_framed_upto]
      rw [← hb]
      have htake : (sdu_frames (⟨some ⟨some d, n⟩⟩ :: rest)).take SIZEOF_SIZE_T
          = size_t_bytes n := by
        simp only [sdu_frames, sdu_frame, sdu.size, List.append_assoc, SIZEOF_SIZE_T]
        rw [List.take_append_of_le_length (by simp [size_t_bytes_length])]
        rw [List.take_of_length_le (by simp [size_t_bytes_length])]
      have hlenL : (sdu_frames (⟨some ⟨some d, n⟩⟩ :: rest)).length
          = 8 + n + (sdu_frames rest).length := by
        simp [sdu_frames, sdu_frame, sdu.size, sdu.data, size_t_bytes_length, hlen]
        omega
      have hdrop : (sdu_frames (⟨some ⟨some d, n⟩⟩ :: rest)).drop (SIZEOF_SIZE_T + n)
          = sdu_frames rest := by
        have hfl : (sdu_frame ⟨some ⟨some d, n⟩⟩).length = SIZEOF_SIZE_T + n :=
          sdu_frame_length _ hok
        simp only [sdu_frames]
        rw [← hfl, List.drop_left]
      rw [htake, bytes_to_size_t_bytes n (by omega), hdrop, hlenL, hrest]
      simp only [SIZEOF_SIZE_T, hpos, decide_True, Bool.and_true, Bool.true_and,
        decide_eq_true_eq, Bool.and_eq_true]
      omega

theorem sdu_frames_length_ge (ss : List sdu) (hoks : ∀ s ∈ ss, sdu_is_ok s = true) :
    ss.length ≤ (sdu_frames ss).length := by
  induction ss with
  | nil => simp
  | cons s rest ih =>
    have h1 := sdu_frame_length s (hoks s (List.mem_cons_self _ _))
    have h2 := ih (fun t ht => hoks t (List.mem_cons_of_mem _ ht))
    simp only [sdu_frames, List.length_append, List.length_cons, h1, SIZEOF_SIZE_T]
    omega

theorem well_framed_frames (ss : List sdu) (hoks : ∀ s ∈ ss, sdu_is_ok s = true) :
    well_framed (sdu_frames ss) = true :=
  well_framed_upto_frames ss hoks _ (sdu_frames_length_ge ss hoks)

theorem sdu_frames_append (ss : List sdu) (s : sdu) :
    sdu_frames (ss ++ [s]) = sdu_frames ss ++ sdu_frame s := by
  induction ss with
  | nil => simp [sdu_frames]
  | cons t rest ih => simp [sdu_frames, ih]

/-- A post keeps the queue a sequence of frames. -/
theorem holds_frames_post (k : kipcm) (p : port_id_t) (so : Option sdu)
    (h : holds_frames k p) :
    ∃ k', (kipcm_sdu_post (some k) p so).kipcm = some k' ∧ holds_frames k' p := by
  obtain ⟨f, ss, hf, hoks, hd⟩ := h
  cases so with
  | none => exact ⟨k, rfl, f, ss, hf, hoks, hd⟩
  | some s =>
    by_cases hok : sdu_is_ok s = true
    · by_cases hfit : s.size + SIZEOF_SIZE_T ≤ kfifo_avail f.sdu_ready
      · obtain ⟨q, _, hq, hpost⟩ := kipcm_sdu_post_fits k p f s hf hok hfit
        rw [hpost]
        refine ⟨_, rfl, { f with sdu_ready := q }, ss ++ [s],
          ipcp_fmap_find_store_same _ _ _ _ hf, ?_, ?_⟩
        · intro t ht
          rcases List.mem_append.1 ht with ht | ht
          · exact hoks t ht
          · rw [List.mem_singleton.1 ht]; exact hok
        · simp [hq, hd, sdu_frames_append, sdu_frame]
      · rw [kipcm_sdu_post_full k p f s hf hok (by omega)]
        exact ⟨_, rfl, f, ss, hf, hoks, hd⟩
    · refine ⟨k, ?_, f, ss, hf, hoks, hd⟩
      simp [kipcm_sdu_post, hok]

/-- A read whose buffer allocation does not fail keeps the queue a sequence of
frames, whether or not the SDU can then be built. -/
theorem holds_frames_read (k : kipcm) (p : port_id_t) (o : Bool) (env : kenv)
    (hdata : env.data_mem_ok = true) (h : holds_frames k p) :
    ∃ k', (kipcm_sdu_read (some k) p o env).kipcm = some k' ∧ holds_frames k' p := by
  obtain ⟨f, ss, hf, hoks, hd⟩ := h
  cases o with
  | false => exact ⟨k, by simp [kipcm_sdu_read], f, ss, hf, hoks, hd⟩
  | true =>
    cases ss with
    | nil =>
      have hnil : f.sdu_ready.data = [] := by simpa [sdu_frames] using hd
      have hret : (kfifo_out f.sdu_ready SIZEOF_SIZE_T).ret = 0 := by
        simp [kfifo_out, kfifo_len, hnil]
      have hfifo : (kfifo_out f.sdu_ready SIZEOF_SIZE_T).fifo = f.sdu_ready :=
        kfifo_eq_of _ _ rfl (by simp [kfifo_out, hnil])
      have hflow : ({ f with sdu_ready := (kfifo_out f.sdu_ready SIZEOF_SIZE_T).fifo }
          : ipcp_flow) = f := by rw [hfifo]
      refine ⟨⟨false, k.factories, k.instances, k.flows⟩, ?_, f, [], hf, hoks, hd⟩
      simp only [kipcm_sdu_read, KIPCM_LOCK, KIPCM_UNLOCK, hf, hret, hflow,
        ipcp_fmap_store_same _ _ _ hf]
      simp [SIZEOF_SIZE_T]
    | cons s rest =>
      have hok := hoks s (List.mem_cons_self _ _)
      obtain ⟨d, n, rfl, hpos, hlen, hmax⟩ := (sdu_is_ok_iff s).1 hok
      simp only [PTRDIFF_MAX] at hmax
      have hd1 : f.sdu_ready.data = size_t_bytes n ++ (d ++ sdu_frames rest) := by
        simp [hd, sdu_frames, sdu_frame, sdu.size, sdu.data]
      obtain ⟨r1, b1, q1⟩ := kfifo_out_front f.sdu_ready (size_t_bytes n) _ hd1
      rw [size_t_bytes_length] at r1 b1 q1
      obtain ⟨r2, b2, q2⟩ := kfifo_out_front (kfifo_out f.sdu_ready 8).fifo d _ q1
      rw [hlen] at r2 b2 q2
      have hn : ¬ n = 0 := by omega
      refine ⟨⟨false, k.factories, k.instances, ipcp_fmap_store k.flows p
          { f with sdu_ready := (kfifo_out (kfifo_out f.sdu_ready 8).fifo n).fifo }⟩, ?_,
        _, rest, ipcp_fmap_find_store_same _ _ _ _ hf,
        fun t ht => hoks t (List.mem_cons_of_mem _ ht), q2⟩
      cases hs : env.sdu_mem_ok <;>
        simp [kipcm_sdu_read, KIPCM_LOCK, KIPCM_UNLOCK, hf, SIZEOF_SIZE_T, r1, b1,
          bytes_to_size_t_bytes n (by omega), hn, hdata, hs, r2, sdu_create_from]

/-- Along any sequence of posts and reads in which no read is refused its
buffer, a queue that holds frames still does. -/
theorem holds_frames_run (p : port_id_t) (calls : List queue_call) :
    ∀ k, holds_frames k p → reads_get_buffers calls →
      ∃ k', run_queue_calls (some k) p calls = some k' ∧ holds_frames k' p := by
  induction calls with
  | nil => intro k h _; exact ⟨k, rfl, h⟩
  | cons c rest ih =>
    intro k h hb
    cases c with
    | post so =>
      obtain ⟨k1, hk1, h1⟩ := holds_frames_post k p so h
      simp only [run_queue_calls, hk1]
      exact ih k1 h1 hb
    | read o env =>
      obtain ⟨k1, hk1, h1⟩ := holds_frames_read k p o env hb.1 h
      simp only [run_queue_calls, hk1]
      exact ih k1 h1 hb.2

/-- From a freshly added flow, along any sequence of posts and reads in which
no read is refused its buffer, the queue is a concatenation of complete frames. -/
theorem framing_kept_while_buffers_allocate (k : kipcm) (i : ipc_process_id_t)
    (p : port_id_t) (env : kenv) (calls : List queue_call)
    (hadded : (kipcm_flow_add (some k) i p env).ret = .ok ())
    (hb : reads_get_buffers calls) :
    ∃ bs, queue_bytes (run_queue_calls (kipcm_flow_add (some k) i p env).kipcm p calls) p
        = some bs ∧ well_framed bs = true := by
  obtain ⟨_, x, q, _, _, hq, hk⟩ := kipcm_flow_add_ok_inv k i p env hadded
  rw [hk]
  have h0 : holds_frames ⟨false, k.factories, k.instances,
      (p, ⟨p, x, true, none, q⟩) :: k.flows⟩ p :=
    ⟨⟨p, x, true, none, q⟩, [], by simp [ipcp_fmap_find], by simp, by simp [hq, sdu_frames]⟩
  obtain ⟨k', hk', f, ss, hf, hoks, hd⟩ := holds_frames_run p calls _ h0 hb
  rw [hk']
  exact ⟨f.sdu_ready.data, by simp [queue_bytes, hf], by rw [hd]; exact well_framed_frames ss hoks⟩

/-- C16 fails on the code: on a freshly added flow, "hello" is posted and then
read while the buffer allocation of the read fails.  The read has already
taken the length header out of the queue when it gives up, so the queue is
left with the five payload bytes and no header: not a sequence of frames. -/
theorem C16_framing_broken_by_failed_allocation :
    (kipcm_flow_add (some ⟨false, [scenario_factory], [(1, scenario_instance)], []⟩)
      1 7 {}).kipcm = some scenario_kipcm ∧
    queue_bytes (run_queue_calls (some scenario_kipcm) 7 [.post (some scenario_hello)]) 7
      = some [5, 0, 0, 0, 0, 0, 0, 0, 104, 101, 108, 108, 111] ∧
    (kipcm_sdu_read (run_queue_calls (some scenario_kipcm) 7 [.post (some scenario_hello)])
      7 true { data_mem_ok := false }).ret = .error .OutOfMemory ∧
    queue_bytes
      (run_queue_calls (some scenario_kipcm) 7
        [.post (some scenario_hello), .read true { data_mem_ok := false }]) 7
      = some [104, 101, 108, 108, 111] ∧
    well_framed [104, 101, 108, 108, 111] = false ∧
    well_framed [5, 0, 0, 0, 0, 0, 0, 0, 104, 101, 108, 108, 111] = true := by
  refine ⟨rfl, rfl, rfl, rfl, by decide, by decide⟩

/-! ## Lock discipline -/

theorem lock_discipline_create (k : kipcm) (hfree : k.lock = false) (nm : Option name)
    (i : ipc_process_id_t) (fname : Option String) (env : kenv) :
    lock_discipline (kipcm_ipcp_create (some k) nm i fname env) := by
  unfold lock_discipline kipcm_ipcp_create
  simp only [KIPCM_LOCK, KIPCM_UNLOCK]
  repeat' split
  all_goals simp [locked_once, lock_unused, lock_held_once, lock_scan, table_access, hfree]

theorem lock_discipline_flow_add (k : kipcm)
    (i : ipc_process_id_t) (p : port_id_t) (env : kenv) :
    lock_discipline (kipcm_flow_add (some k) i p env) := by
  unfold lock_discipline kipcm_flow_add
  simp only [KIPCM_LOCK, KIPCM_UNLOCK]
  repeat' split
  all_goals simp [locked_once, lock_unused, lock_held_once, lock_scan, table_access]

theorem lock_discipline_read (k : kipcm) (hfree : k.lock = false)
    (p : port_id_t) (o : Bool) (env : kenv) :
    lock_discipline (kipcm_sdu_read (some k) p o env) := by
  unfold lock_discipline kipcm_sdu_read
  simp only [KIPCM_LOCK, KIPCM_UNLOCK]
  repeat' split
  all_goals simp [locked_once, lock_unused, lock_held_once, lock_scan, table_access, hfree]

theorem lock_discipline_post (k : kipcm) (hfree : k.lock = false)
    (p : port_id_t) (s : Option sdu) :
    lock_discipline (kipcm_sdu_post (some k) p s) := by
  unfold lock_discipline kipcm_sdu_post
  simp only [KIPCM_LOCK, KIPCM_UNLOCK]
  repeat' split
  all_goals simp [locked_once, lock_unused, lock_held_once, lock_scan, table_access, hfree]

theorem lock_discipline_write (k : kipcm) (hfree : k.lock = false)
    (p : port_id_t) (s : Option sdu) :
    lock_discipline (kipcm_sdu_write (some k) p s) := by
  unfold lock_discipline kipcm_sdu_write
  simp only [KIPCM_LOCK, KIPCM_UNLOCK]
  repeat' split
  all_goals simp [locked_once, lock_unused, lock_held_once, lock_scan, table_access, hfree]

theorem lock_discipline_fini (k : kipcm) (env : kenv) :
    lock_discipline (kipcm_fini (some k) env) := by
  unfold lock_discipline kipcm_fini
  simp only [KIPCM_LOCK, KIPCM_UNLOCK]
  repeat' split
  all_goals simp [locked_once, lock_unused, lock_held_once, lock_scan, table_access]

theorem lock_discipline_register (k : kipcm) (n : String) (d : Nat)
    (ops : ipcp_factory_ops) (env : kenv) :
    lock_discipline (kipcm_ipcp_factory_register (some k) n d ops env) := by
  unfold lock_discipline kipcm_ipcp_factory_register
  simp only [KIPCM_LOCK, KIPCM_UNLOCK]
  repeat' split
  all_goals simp [locked_once, lock_unused, lock_held_once, lock_scan, table_access]

theorem lock_discipline_unregister (k : kipcm) (f : Option ipcp_factory) (env : kenv) :
    lock_discipline (kipcm_ipcp_factory_unregister (some k) f env) := by
  unfold lock_discipline kipcm_ipcp_factory_unregister
  simp only [KIPCM_LOCK, KIPCM_UNLOCK]
  repeat' split
  all_goals simp [locked_once, lock_unused, lock_held_once, lock_scan, table_access]

theorem lock_discipline_destroy (k : kipcm) (i : ipc_process_id_t) (env : kenv) :
    lock_discipline (kipcm_ipcp_destroy (some k) i env) := by
  unfold lock_discipline kipcm_ipcp_destroy
  simp only [KIPCM_LOCK, KIPCM_UNLOCK]
  repeat' split
  all_goals simp [locked_once, lock_unused, lock_held_once, lock_scan, table_access]

theorem lock_discipline_configure (k : kipcm) (i : ipc_process_id_t) (cfg : Nat)
    (env : kenv) :
    lock_discipline (kipcm_ipcp_configure (some k) i cfg env) := by
  unfold lock_discipline kipcm_ipcp_configure
  simp only [KIPCM_LOCK, KIPCM_UNLOCK]
  repeat' split
  all_goals simp [locked_once, lock_unused, lock_held_once, lock_scan, table_access]

theorem lock_discipline_flow_remove (k : kipcm) (p : port_id_t) (env : kenv) :
    lock_discipline (kipcm_flow_remove (some k) p env) := by
  unfold lock_discipline kipcm_flow_remove
  simp only [KIPCM_LOCK, KIPCM_UNLOCK]
  repeat' split
  all_goals simp [locked_once, lock_unused, lock_held_once, lock_scan, table_access]

theorem kipcm_fini_bug_iff (k : kipcm) (env : kenv) :
    (kipcm_fini (some k) env).ret = .error .Bug ↔
      (ipcp_fmap_empty k.flows = false ∨
        (env.fmap_destroy_ok = true ∧ ipcp_imap_empty k.instances = false)) := by
  unfold kipcm_fini
  simp only [KIPCM_LOCK, KIPCM_UNLOCK]
  repeat' split
  all_goals simp_all

theorem kipcm_ipcp_destroy_bug_iff (k : kipcm) (i : ipc_process_id_t) (env : kenv) :
    (kipcm_ipcp_destroy (some k) i env).ret = .error .Bug ↔
      ∃ x, ipcp_imap_find k.instances i = some x ∧ instance_factory k.factories x = none := by
  unfold kipcm_ipcp_destroy
  simp only [KIPCM_LOCK, KIPCM_UNLOCK]
  repeat' split
  all_goals simp_all

theorem kipcm_ipcp_configure_bug_iff (k : kipcm) (i : ipc_process_id_t) (cfg : Nat)
    (env : kenv) :
    (kipcm_ipcp_configure (some k) i cfg env).ret = .error .Bug ↔
      ∃ x, ipcp_imap_find k.instances i = some x ∧ instance_factory k.factories x = none := by
  unfold kipcm_ipcp_configure
  simp only [KIPCM_LOCK, KIPCM_UNLOCK]
  repeat' split
  all_goals simp_all

theorem kipcm_ipcp_factory_register_returns (k : kipcm) (n : String) (d : Nat)
    (ops : ipcp_factory_ops) (env : kenv) :
    (kipcm_ipcp_factory_register (some k) n d ops env).ret ≠ .error .Bug := by
  unfold kipcm_ipcp_factory_register
  simp only [KIPCM_LOCK, KIPCM_UNLOCK]
  repeat' split
  all_goals simp

theorem kipcm_ipcp_factory_unregister_returns (k : kipcm) (f : Option ipcp_factory)
    (env : kenv) :
    (kipcm_ipcp_factory_unregister (some k) f env).ret ≠ .error .Bug := by
  unfold kipcm_ipcp_factory_unregister
  simp only [KIPCM_LOCK, KIPCM_UNLOCK]
  repeat' split
  all_goals simp

theorem kipcm_ipcp_create_returns (k : kipcm) (nm : Option name) (i : ipc_process_id_t)
    (fname : Option String) (env : kenv) :
    (kipcm_ipcp_create (some k) nm i fname env).ret ≠ .error .Bug := by
  unfold kipcm_ipcp_create
  simp only [KIPCM_LOCK, KIPCM_UNLOCK]
  repeat' split
  all_goals simp

theorem kipcm_flow_add_returns (k : kipcm) (i : ipc_process_id_t) (p : port_id_t)
    (env : kenv) :
    (kipcm_flow_add (some k) i p env).ret ≠ .error .Bug := by
  unfold kipcm_flow_add
  simp only [KIPCM_LOCK, KIPCM_UNLOCK]
  repeat' split
  all_goals simp

theorem kipcm_flow_remove_returns (k : kipcm) (p : port_id_t) (env : kenv) :
    (kipcm_flow_remove (some k) p env).ret ≠ .error .Bug := by
  unfold kipcm_flow_remove
  simp only [KIPCM_LOCK, KIPCM_UNLOCK]
  repeat' split
  all_goals simp

theorem kipcm_sdu_write_returns (k : kipcm) (p : port_id_t) (s : Option sdu) :
    (kipcm_sdu_write (some k) p s).ret ≠ .error .Bug := by
  unfold kipcm_sdu_write
  simp only [KIPCM_LOCK, KIPCM_UNLOCK]
  repeat' split
  all_goals simp

theorem kipcm_sdu_read_returns (k : kipcm) (p : port_id_t) (o : Bool) (env : kenv) :
    (kipcm_sdu_read (some k) p o env).ret ≠ .error .Bug := by
  unfold kipcm_sdu_read
  simp only [KIPCM_LOCK, KIPCM_UNLOCK]
  repeat' split
  all_goals simp

theorem kipcm_sdu_post_returns (k : kipcm) (p : port_id_t) (s : Option sdu) :
    (kipcm_sdu_post (some k) p s).ret ≠ .error .Bug := by
  unfold kipcm_sdu_post
  simp only [KIPCM_LOCK, KIPCM_UNLOCK]
  repeat' split
  all_goals simp

/-- C19 as stated fails: on the scenario manager, lock free, a post of a null
SDU is rejected by the argument check that precedes the lock (kipcm.c,
lines 620-623): the call returns without ever taking the lock, so the lock is
not acquired and released exactly once on that return path. -/
theorem C19_lock_discipline_counterexample :
    scenario_kipcm.lock = false ∧
    (kipcm_sdu_post (some scenario_kipcm) 7 none).ret = .error .InvalidArgument ∧
    (kipcm_sdu_post (some scenario_kipcm) 7 none).code = -1 ∧
    (kipcm_sdu_post (some scenario_kipcm) 7 none).trace = [] ∧
    (kipcm_sdu_post (some scenario_kipcm) 7 none).trace.count .lock = 0 ∧
    (kipcm_sdu_post (some scenario_kipcm) 7 none).trace.count .unlock = 0 ∧
    ¬ locked_once (kipcm_sdu_post (some scenario_kipcm) 7 none).trace := by
  refine ⟨rfl, rfl, rfl, rfl, rfl, rfl, ?_⟩
  intro h
  have h2 := h.2.1
  revert h2
  decide

/-- C19 amended: `KIPCM_LOCK` sets the lock flag of the manager and
`KIPCM_UNLOCK` clears it, changing nothing else.  Called with a valid manager
whose lock is free, each of fini, factory register and unregister, instance
create, destroy and configure, flow add and remove, and sdu write, read and
post takes the lock before its first access to the factory registry, the
instance table or the flow table, and on every return path leaves the lock
flag free, having taken and released the lock exactly once; except that the
paths which reject an argument before anything else (null or malformed SDU,
null result pointer, a name that does not render) return without taking the
lock at all.  The only calls that do not return are those that stop in a
failed assertion: fini when the flow table is not empty, or when the flow
table was destroyed and the instance table is not empty; destroy and
configure when the factory back-reference of the instance found does not
resolve.  Such a call has taken the lock once, before its first table access,
and holds it when it stops. -/
theorem C19_lock_discipline (k : kipcm) (hfree : k.lock = false) :
    ((KIPCM_LOCK k).lock = true ∧ (KIPCM_LOCK k).factories = k.factories ∧
      (KIPCM_LOCK k).instances = k.instances ∧ (KIPCM_LOCK k).flows = k.flows ∧
      KIPCM_UNLOCK (KIPCM_LOCK k) = k) ∧
    (∀ env, lock_discipline (kipcm_fini (some k) env) ∧
      ((kipcm_fini (some k) env).ret = .error .Bug ↔
        (ipcp_fmap_empty k.flows = false ∨
          (env.fmap_destroy_ok = true ∧ ipcp_imap_empty k.instances = false)))) ∧
    (∀ n d ops env, lock_discipline (kipcm_ipcp_factory_register (some k) n d ops env) ∧
      (kipcm_ipcp_factory_register (some k) n d ops env).ret ≠ .error .Bug) ∧
    (∀ f env, lock_discipline (kipcm_ipcp_factory_unregister (some k) f env) ∧
      (kipcm_ipcp_factory_unregister (some k) f env).ret ≠ .error .Bug) ∧
    (∀ nm i fname env, lock_discipline (kipcm_ipcp_create (some k) nm i fname env) ∧
      (kipcm_ipcp_create (some k) nm i fname env).ret ≠ .error .Bug) ∧
    (∀ i env, lock_discipline (kipcm_ipcp_destroy (some k) i env) ∧
      ((kipcm_ipcp_destroy (some k) i env).ret = .error .Bug ↔
        ∃ x, ipcp_imap_find k.instances i = some x ∧
          instance_factory k.factories x = none)) ∧
    (∀ i cfg env, lock_discipline (kipcm_ipcp_configure (some k) i cfg env) ∧
      ((kipcm_ipcp_configure (some k) i cfg env).ret = .error .Bug ↔
        ∃ x, ipcp_imap_find k.instances i = some x ∧
          instance_factory k.factories x = none)) ∧
    (∀ i p env, lock_discipline (kipcm_flow_add (some k) i p env) ∧
      (kipcm_flow_add (some k) i p env).ret ≠ .error .Bug) ∧
    (∀ p env, lock_discipline (kipcm_flow_remove (some k) p env) ∧
      (kipcm_flow_remove (some k) p env).ret ≠ .error .Bug) ∧
    (∀ p s, lock_discipline (kipcm_sdu_write (some k) p s) ∧
      (kipcm_sdu_write (some k) p s).ret ≠ .error .Bug) ∧
    (∀ p o env, lock_discipline (kipcm_sdu_read (some k) p o env) ∧
      (kipcm_sdu_read (some k) p o env).ret ≠ .error .Bug) ∧
    (∀ p s, lock_discipline (kipcm_sdu_post (some k) p s) ∧
      (kipcm_sdu_post (some k) p s).ret ≠ .error .Bug) :=
  ⟨⟨rfl, rfl, rfl, rfl, by cases k; simp_all [KIPCM_LOCK, KIPCM_UNLOCK]⟩,
   fun env => ⟨lock_discipline_fini k env, kipcm_fini_bug_iff k env⟩,
   fun n d ops env =>
     ⟨lock_discipline_register k n d ops env, kipcm_ipcp_factory_register_returns k n d ops env⟩,
   fun f env =>
     ⟨lock_discipline_unregister k f env, kipcm_ipcp_factory_unregister_returns k f env⟩,
   fun nm i fname env =>
     ⟨lock_discipline_create k hfree nm i fname env, kipcm_ipcp_create_returns k nm i fname env⟩,
   fun i env => ⟨lock_discipline_destroy k i env, kipcm_ipcp_destroy_bug_iff k i env⟩,
   fun i cfg env =>
     ⟨lock_discipline_configure k i cfg env, kipcm_ipcp_configure_bug_iff k i cfg env⟩,
   fun i p env => ⟨lock_discipline_flow_add k i p env, kipcm_flow_add_returns k i p env⟩,
   fun p env => ⟨lock_discipline_flow_remove k p env, kipcm_flow_remove_returns k p env⟩,
   fun p s => ⟨lock_discipline_write k hfree p s, kipcm_sdu_write_returns k p s⟩,
   fun p o env => ⟨lock_discipline_read k hfree p o env, kipcm_sdu_read_returns k p o env⟩,
   fun p s => ⟨lock_discipline_post k hfree p s, kipcm_sdu_post_returns k p s⟩⟩

/-- C19 amended, on the scenario manager: a post of "hello" on port 7 returns,
having taken and released the lock once; a destroy of instance 1 does too, the
factory of instance 1 being registered. -/
theorem C19_lock_discipline_witness :
    scenario_kipcm.lock = false ∧
    lock_discipline (kipcm_sdu_post (some scenario_kipcm) 7 (some scenario_hello)) ∧
    (kipcm_sdu_post (some scenario_kipcm) 7 (some scenario_hello)).ret ≠ .error .Bug ∧
    lock_discipline (kipcm_ipcp_destroy (some scenario_kipcm) 1 {}) :=
  ⟨rfl,
   ((C19_lock_discipline scenario_kipcm rfl).2.2.2.2.2.2.2.2.2.2.2 7 (some scenario_hello)).1,
   ((C19_lock_discipline scenario_kipcm rfl).2.2.2.2.2.2.2.2.2.2.2 7 (some scenario_hello)).2,
   ((C19_lock_discipline scenario_kipcm rfl).2.2.2.2.2.1 1 {}).1⟩

/-! ## Manager construction -/

/-- C21: kipcm_init hands back a manager exactly when the manager allocation and
the constructions of the factory registry, the instance table and the flow
table all succeed, attempted in that order; a manager handed back has the lock
free and empty factory, instance and flow tables.  When a construction fails
nothing later is constructed, what was constructed before is released (the
instance table first, then the factory registry), the manager record is freed
and no manager is handed back. -/
theorem C21_init_all_or_nothing (parent : Option Nat) (env : kenv) :
    ((kipcm_init parent env).kipcm.isSome = true ↔
      env.kipcm_mem_ok = true ∧ env.ipcpf_init_ok = true ∧ env.imap_create_ok = true ∧
        env.fmap_create_ok = true) ∧
    ((kipcm_init parent env).kipcm.isSome = true ↔ (kipcm_init parent env).ret = .ok ()) ∧
    (∀ k, (kipcm_init parent env).kipcm = some k →
      k.lock = false ∧ k.factories = [] ∧ k.instances = [] ∧ k.flows = [] ∧
      (kipcm_init parent env).trace
        = [.rkzalloc_kipcm true, .ipcpf_init true, .ipcp_imap_create true,
           .ipcp_fmap_create true, .lock_init]) ∧
    (env.kipcm_mem_ok = false →
      (kipcm_init parent env).kipcm = none ∧
      (kipcm_init parent env).trace = [.rkzalloc_kipcm false]) ∧
    (env.kipcm_mem_ok = true → env.ipcpf_init_ok = false →
      (kipcm_init parent env).kipcm = none ∧
      (kipcm_init parent env).trace
        = [.rkzalloc_kipcm true, .ipcpf_init false, .rkfree_kipcm]) ∧
    (env.kipcm_mem_ok = true → env.ipcpf_init_ok = true → env.imap_create_ok = false →
      (kipcm_init parent env).kipcm = none ∧
      (kipcm_init parent env).trace
        = [.rkzalloc_kipcm true, .ipcpf_init true, .ipcp_imap_create false,
           .ipcpf_fini env.ipcpf_fini_ok, .rkfree_kipcm]) ∧
    (env.kipcm_mem_ok = true → env.ipcpf_init_ok = true → env.imap_create_ok = true →
      env.fmap_create_ok = false →
      (kipcm_init parent env).kipcm = none ∧
      (kipcm_init parent env).trace
        = [.rkzalloc_kipcm true, .ipcpf_init true, .ipcp_imap_create true,
           .ipcp_fmap_create false, .ipcp_imap_destroy env.imap_destroy_ok,
           .ipcpf_fini env.ipcpf_fini_ok, .rkfree_kipcm]) := by
  cases h1 : env.kipcm_mem_ok <;> cases h2 : env.ipcpf_init_ok <;>
    cases h3 : env.imap_create_ok <;> cases h4 : env.fmap_create_ok <;>
    simp [kipcm_init, ipcpf_init, ipcp_imap_create, ipcp_fmap_create, h1, h2, h3, h4]

/-- C21 evaluated: with everything succeeding the fresh empty manager comes
back; with the flow table failing, the instance table and then the factory
registry are released and nothing comes back. -/
theorem C21_init_all_or_nothing_witness :
    (kipcm_init none {}).kipcm = some ⟨false, [], [], []⟩ ∧
    (kipcm_init none { fmap_create_ok := false }).kipcm = none ∧
    (kipcm_init none { fmap_create_ok := false }).trace
      = [.rkzalloc_kipcm true, .ipcpf_init true, .ipcp_imap_create true,
         .ipcp_fmap_create false, .ipcp_imap_destroy true, .ipcpf_fini true, .rkfree_kipcm] :=
  ⟨rfl, ((C21_init_all_or_nothing none { fmap_create_ok := false }).2.2.2.2.2.2
      rfl rfl rfl rfl).1,
   ((C21_init_all_or_nothing none { fmap_create_ok := false }).2.2.2.2.2.2
      rfl rfl rfl rfl).2⟩

/-! ## Per-port isolation -/

theorem ipcp_fmap_store_keys (m : ipcp_fmap) (p : port_id_t) (f : ipcp_flow) :
    (ipcp_fmap_store m p f).map Prod.fst = m.map Prod.fst := by
  induction m with
  | nil => rfl
  | cons e rest ih =>
    obtain ⟨k, v⟩ := e
    by_cases hk : k = p
    · simp [ipcp_fmap_store, hk]
    · simp [ipcp_fmap_store, hk, ih]

theorem only_queue_changed_refl (k : kipcm) (p : port_id_t) (l : Bool) :
    only_queue_changed k ⟨l, k.factories, k.instances, k.flows⟩ p :=
  ⟨rfl, rfl, rfl, fun _ => rfl, fun _ _ => rfl, fun f hf => ⟨f, hf, rfl, rfl, rfl, rfl, rfl⟩⟩

theorem only_queue_changed_store (k : kipcm) (p : port_id_t) (f : ipcp_flow) (q : kfifo)
    (l : Bool) (hf : ipcp_fmap_find k.flows p = some f) (hq : q.size = f.sdu_ready.size) :
    only_queue_changed k
      ⟨l, k.factories, k.instances, ipcp_fmap_store k.flows p { f with sdu_ready := q }⟩ p := by
  refine ⟨rfl, rfl, ipcp_fmap_store_keys _ _ _, ?_, ?_, ?_⟩
  · intro r
    by_cases hr : r = p
    · subst hr
      simp [ipcp_fmap_find_store_same _ _ _ _ hf, hf]
    · simp [ipcp_fmap_find_store_other _ _ _ _ hr]
  · intro r hr
    exact ipcp_fmap_find_store_other _ _ _ _ hr
  · intro g hg
    rw [hf] at hg
    cases Option.some.inj hg
    exact ⟨_, ipcp_fmap_find_store_same _ _ _ _ hf, rfl, rfl, rfl, rfl, hq⟩

/-- Whatever its arguments and its outcome, a read leaves the manager as it was
up to the queue of the flow on its port. -/
theorem kipcm_sdu_read_only_queue (k : kipcm) (p : port_id_t) (o : Bool) (env : kenv) :
    ∃ k', (kipcm_sdu_read (some k) p o env).kipcm = some k' ∧ only_queue_changed k k' p := by
  cases o with
  | false => exact ⟨k, rfl, only_queue_changed_refl k p k.lock⟩
  | true =>
    cases hf : ipcp_fmap_find k.flows p with
    | none =>
      exact ⟨⟨false, k.factories, k.instances, k.flows⟩,
        by simp [kipcm_sdu_read, KIPCM_LOCK, KIPCM_UNLOCK, hf], only_queue_changed_refl k p false⟩
    | some f =>
      have h1 := only_queue_changed_store k p f (kfifo_out f.sdu_ready SIZEOF_SIZE_T).fifo false
        hf rfl
      have h2 := fun n => only_queue_changed_store k p f
        (kfifo_out (kfifo_out f.sdu_ready SIZEOF_SIZE_T).fifo n).fifo false hf rfl
      unfold kipcm_sdu_read
      simp only [KIPCM_LOCK, KIPCM_UNLOCK, hf]
      repeat' split
      all_goals first
        | exact ⟨_, rfl, h1⟩
        | exact ⟨_, rfl, h2 _⟩
        | exact ⟨_, rfl, only_queue_changed_refl k p k.lock⟩

/-- Whatever its arguments and its outcome, a post leaves the manager as it was
up to the queue of the flow on its port. -/
theorem kipcm_sdu_post_only_queue (k : kipcm) (p : port_id_t) (s : Option sdu) :
    ∃ k', (kipcm_sdu_post (some k) p s).kipcm = some k' ∧ only_queue_changed k k' p := by
  cases s with
  | none => exact ⟨k, rfl, only_queue_changed_refl k p k.lock⟩
  | some s =>
    cases hok : sdu_is_ok s with
    | false =>
      exact ⟨k, by simp [kipcm_sdu_post, hok], only_queue_changed_refl k p k.lock⟩
    | true =>
      cases hf : ipcp_fmap_find k.flows p with
      | none =>
        exact ⟨⟨false, k.factories, k.instances, k.flows⟩,
          by simp [kipcm_sdu_post, KIPCM_LOCK, KIPCM_UNLOCK, hf, hok],
          only_queue_changed_refl k p false⟩
      | some f =>
        have h0 := only_queue_changed_refl k p false
        have h1 := only_queue_changed_store k p f
          (kfifo_in f.sdu_ready (size_t_bytes s.size) SIZEOF_SIZE_T).1 false hf rfl
        have h2 := only_queue_changed_store k p f
          (kfifo_in (kfifo_in f.sdu_ready (size_t_bytes s.size) SIZEOF_SIZE_T).1
            s.data s.size).1 false hf rfl
        unfold kipcm_sdu_post
        simp only [KIPCM_LOCK, KIPCM_UNLOCK, hf, hok]
        repeat' split
        all_goals first
          | exact ⟨_, rfl, h0⟩
          | exact ⟨_, rfl, h1⟩
          | exact ⟨_, rfl, h2⟩

/-- C24: for every manager, port p and SDU (null and malformed ones included),
kipcm_sdu_post(p, s) and kipcm_sdu_read(p), whatever their outcome, leave the
factory registry, the instance table, the set of bound ports, the instance of
every flow and every flow on a port other than p unchanged; only the contents
of the queue of the flow on p may differ. -/
theorem C24_per_port_isolation (k : kipcm) (p : port_id_t) (s : Option sdu) (o : Bool)
    (env : kenv) :
    (∃ k', (kipcm_sdu_post (some k) p s).kipcm = some k' ∧ only_queue_changed k k' p) ∧
    (∃ k', (kipcm_sdu_read (some k) p o env).kipcm = some k' ∧ only_queue_changed k k' p) :=
  ⟨kipcm_sdu_post_only_queue k p s, kipcm_sdu_read_only_queue k p o env⟩

/-! ## Reads on a queue of whole frames -/

theorem kipcm_sdu_read_ok_mem (k : kipcm) (p : port_id_t) (o : Bool) (env : kenv) (t : sdu)
    (h : (kipcm_sdu_read (some k) p o env).ret = .ok t) : env.data_mem_ok = true := by
  cases hm : env.data_mem_ok with
  | true => rfl
  | false =>
    exfalso
    revert h
    unfold kipcm_sdu_read
    simp only [hm]
    repeat' split
    all_goals simp_all

/-- Successful posts and reads keep the queue a sequence of frames. -/
theorem holds_frames_run_ok (p : port_id_t) (calls : List queue_call) :
    ∀ k, holds_frames k p → calls_succeed (some k) p calls →
      ∃ k', run_queue_calls (some k) p calls = some k' ∧ holds_frames k' p := by
  induction calls with
  | nil => intro k h _; exact ⟨k, rfl, h⟩
  | cons c rest ih =>
    intro k h hs
    cases c with
    | post so =>
      obtain ⟨k1, hk1, h1⟩ := holds_frames_post k p so h
      simp only [calls_succeed, hk1] at hs
      simp only [run_queue_calls, hk1]
      exact ih k1 h1 hs.2
    | read o env =>
      obtain ⟨⟨t, ht⟩, hrest⟩ := hs
      obtain ⟨k1, hk1, h1⟩ := holds_frames_read k p o env
        (kipcm_sdu_read_ok_mem k p o env t ht) h
      rw [hk1] at hrest
      simp only [run_queue_calls, hk1]
      exact ih k1 h1 hrest

/-- A read, its allocations succeeding, on a queue that holds the frames of
`ss`: an underrun on the missing header when `ss` is empty, otherwise the first
SDU, whose frame leaves the queue. -/
theorem kipcm_sdu_read_on_frames (k : kipcm) (p : port_id_t) (f : ipcp_flow)
    (ss : List sdu) (env : kenv)
    (hf : ipcp_fmap_find k.flows p = some f)
    (hoks : ∀ s ∈ ss, sdu_is_ok s = true)
    (hd : f.sdu_ready.data = sdu_frames ss)
    (hdata : env.data_mem_ok = true) (hsdu : env.sdu_mem_ok = true) :
    (ss = [] → kfifo_len f.sdu_ready = 0 ∧
      kipcm_sdu_read (some k) p true env
        = ⟨.error .Underrun, some ⟨false, k.factories, k.instances, k.flows⟩,
            [.lock, .flows_access, .kfifo_out 0, .unlock]⟩) ∧
    (∀ s rest, ss = s :: rest → kfifo_len f.sdu_ready ≠ 0 ∧
      ∃ q : kfifo, q.size = f.sdu_ready.size ∧ q.data = sdu_frames rest ∧
        kfifo_avail q = kfifo_avail f.sdu_ready + s.size + SIZEOF_SIZE_T ∧
        kipcm_sdu_read (some k) p true env
          = ⟨.ok s, some ⟨false, k.factories, k.instances,
                ipcp_fmap_store k.flows p { f with sdu_ready := q }⟩,
              [.lock, .flows_access, .kfifo_out SIZEOF_SIZE_T, .rkzalloc_data s.size true,
               .kfifo_out s.size, .sdu_create_from true, .unlock]⟩) := by
  constructor
  · intro hss
    subst hss
    have hnil : f.sdu_ready.data = [] := by simpa [sdu_frames] using hd
    have hret : (kfifo_out f.sdu_ready SIZEOF_SIZE_T).ret = 0 := by
      simp [kfifo_out, kfifo_len, hnil]
    have hfifo : (kfifo_out f.sdu_ready SIZEOF_SIZE_T).fifo = f.sdu_ready :=
      kfifo_eq_of _ _ rfl (by simp [kfifo_out, hnil])
    have hflow : ({ f with sdu_ready := (kfifo_out f.sdu_ready SIZEOF_SIZE_T).fifo }
        : ipcp_flow) = f := by rw [hfifo]
    refine ⟨by simp [kfifo_len, hnil], ?_⟩
    simp only [kipcm_sdu_read, KIPCM_LOCK, KIPCM_UNLOCK, hf, hret, hflow,
      ipcp_fmap_store_same _ _ _ hf]
    simp [SIZEOF_SIZE_T]
  · intro s rest hss
    subst hss
    have hok := hoks s (List.mem_cons_self _ _)
    obtain ⟨q, hq1, hq2, hread⟩ := kipcm_sdu_read_frame k p f s (sdu_frames rest) env hf hok
      (by simp [hd, sdu_frames, sdu_frame]) hdata hsdu
    have hlen : f.sdu_ready.data.length = SIZEOF_SIZE_T + s.size + (sdu_frames rest).length := by
      rw [hd]
      simp only [sdu_frames, List.length_append, sdu_frame_length s hok]
    have hle := f.sdu_ready.len_le
    refine ⟨by simp only [kfifo_len, hlen, SIZEOF_SIZE_T]; omega, q, hq1, hq2, ?_, hread⟩
    simp only [kfifo_avail, hq1, hq2, hlen, SIZEOF_SIZE_T] at hle ⊢
    omega


/-- C23: in every queue state reached from a freshly added flow by successful
posts and successful reads, a read whose buffer allocation and SDU construction
succeed succeeds exactly when the queue is not empty (on an empty queue it
stops at the missing header); it never takes the zero-length (InvalidSdu)
branch nor the short-payload branch; the SDU it hands back is well-formed and
the read frees exactly its length plus sizeof(size_t) bytes of queue space,
the amount a successful post of an SDU of that length takes. -/
theorem C23_read_never_sees_broken_frame (k : kipcm) (i : ipc_process_id_t) (p : port_id_t)
    (env0 env : kenv) (calls : List queue_call)
    (hadded : (kipcm_flow_add (some k) i p env0).ret = .ok ())
    (hcalls : calls_succeed (kipcm_flow_add (some k) i p env0).kipcm p calls)
    (hdata : env.data_mem_ok = true) (hsdu : env.sdu_mem_ok = true) :
    ∃ k1 f, run_queue_calls (kipcm_flow_add (some k) i p env0).kipcm p calls = some k1 ∧
      ipcp_fmap_find k1.flows p = some f ∧
      ((∃ t, (kipcm_sdu_read (some k1) p true env).ret = .ok t) ↔
        kfifo_len f.sdu_ready ≠ 0) ∧
      (kfifo_len f.sdu_ready = 0 →
        (kipcm_sdu_read (some k1) p true env).ret = .error .Underrun ∧
        (kipcm_sdu_read (some k1) p true env).trace
          = [.lock, .flows_access, .kfifo_out 0, .unlock]) ∧
      (kipcm_sdu_read (some k1) p true env).ret ≠ .error .InvalidSdu ∧
      (∀ r1 n r2, (kipcm_sdu_read (some k1) p true env).trace ≠
        [.lock, .flows_access, .kfifo_out r1, .rkzalloc_data n true, .kfifo_out r2,
         .rkfree_data, .unlock]) ∧
      (∀ t, (kipcm_sdu_read (some k1) p true env).ret = .ok t →
        sdu_is_ok t = true ∧
        ∃ k2 f2, (kipcm_sdu_read (some k1) p true env).kipcm = some k2 ∧
          ipcp_fmap_find k2.flows p = some f2 ∧
          kfifo_avail f2.sdu_ready = kfifo_avail f.sdu_ready + (t.size + SIZEOF_SIZE_T)) ∧
      (∀ s, (kipcm_sdu_post (some k1) p (some s)).ret = .ok () →
        ∃ k2 f2, (kipcm_sdu_post (some k1) p (some s)).kipcm = some k2 ∧
          ipcp_fmap_find k2.flows p = some f2 ∧
          kfifo_avail f2.sdu_ready + (s.size + SIZEOF_SIZE_T) = kfifo_avail f.sdu_ready) := by
  obtain ⟨_, x, q0, _, _, hq0, hk0⟩ := kipcm_flow_add_ok_inv k i p env0 hadded
  rw [hk0] at hcalls ⊢
  have h0 : holds_frames ⟨false, k.factories, k.instances,
      (p, ⟨p, x, true, none, q0⟩) :: k.flows⟩ p :=
    ⟨⟨p, x, true, none, q0⟩, [], by simp [ipcp_fmap_find], by simp, by simp [hq0, sdu_frames]⟩
  obtain ⟨k1, hk1, f, ss, hf, hoks, hd⟩ := holds_frames_run_ok p calls _ h0 hcalls
  obtain ⟨hempty, hfront⟩ := kipcm_sdu_read_on_frames k1 p f ss env hf hoks hd hdata hsdu
  have hpost : ∀ s, (kipcm_sdu_post (some k1) p (some s)).ret = .ok () →
      ∃ k2 f2, (kipcm_sdu_post (some k1) p (some s)).kipcm = some k2 ∧
        ipcp_fmap_find k2.flows p = some f2 ∧
        kfifo_avail f2.sdu_ready + (s.size + SIZEOF_SIZE_T) = kfifo_avail f.sdu_ready := by
    intro s hs
    obtain ⟨f0, hf0, hok, hfit⟩ := kipcm_sdu_post_ok_inv k1 p s hs
    rw [hf] at hf0
    cases Option.some.inj hf0
    obtain ⟨q, hq1, hq2, hres⟩ := kipcm_sdu_post_fits k1 p f s hf hok hfit
    rw [hres]
    refine ⟨_, _, rfl, ipcp_fmap_find_store_same _ _ _ _ hf, ?_⟩
    have hfl := sdu_frame_length s hok
    simp only [sdu_frame, List.length_append] at hfl
    simp only [kfifo_avail, hq1, hq2, List.length_append, hfl] at hfit ⊢
    omega
  refine ⟨k1, f, hk1, hf, ?_⟩
  cases ss with
  | nil =>
    obtain ⟨hlen, hres⟩ := hempty rfl
    rw [hres]
    refine ⟨?_, fun _ => ⟨rfl, rfl⟩, by simp, by simp, ?_, hpost⟩
    · simp [hlen]
    · intro t ht
      cases ht
  | cons s rest =>
    obtain ⟨hlen, q, hq1, hq2, havail, hres⟩ := hfront s rest rfl
    rw [hres]
    refine ⟨?_, fun h => absurd h hlen, by simp, by simp, ?_, hpost⟩
    · exact ⟨fun _ => hlen, fun _ => ⟨s, rfl⟩⟩
    · intro t ht
      cases ht
      refine ⟨hoks _ (List.mem_cons_self _ _), _, _, rfl,
        ipcp_fmap_find_store_same _ _ _ _ hf, ?_⟩
      simp only [havail]
      omega

/-- C23 on the scenario: port 7 freshly added, "hello" and one zero byte posted,
"hello" read back; the next read succeeds, the queue being non-empty. -/
theorem C23_read_never_sees_broken_frame_witness :
    ∃ k1 f,
      run_queue_calls
        (kipcm_flow_add (some ⟨false, [scenario_factory], [(1, scenario_instance)], []⟩)
          1 7 {}).kipcm 7
        [.post (some scenario_hello), .post (some (zero_sdu 1)), .read true {}] = some k1 ∧
      ipcp_fmap_find k1.flows 7 = some f ∧
      ((∃ t, (kipcm_sdu_read (some k1) 7 true {}).ret = .ok t) ↔ kfifo_len f.sdu_ready ≠ 0) ∧
      (kipcm_sdu_read (some k1) 7 true {}).ret ≠ .error .InvalidSdu :=
  have h := C23_read_never_sees_broken_frame
    ⟨false, [scenario_factory], [(1, scenario_instance)], []⟩ 1 7 {} {}
    [.post (some scenario_hello), .post (some (zero_sdu 1)), .read true {}]
    rfl ⟨rfl, rfl, ⟨_, rfl⟩, trivial⟩ rfl rfl
  h.elim fun k1 h1 => h1.elim fun f h2 => ⟨k1, f, h2.1, h2.2.1, h2.2.2.1, h2.2.2.2.2.1⟩

/-! ## The console: tokens -/

theorem split_filter_cons_space (c : Char) (cs : List Char) (hc : isspace c = true) :
    ((c :: cs).splitOnP isspace).filter (fun t => !t.isEmpty)
      = (cs.splitOnP isspace).filter (fun t => !t.isEmpty) := by
  rw [List.splitOnP_cons, if_pos hc]
  simp [List.filter_cons]

theorem split_filter_dropWhile (cs : List Char) :
    ((cs.dropWhile isspace).splitOnP isspace).filter (fun t => !t.isEmpty)
      = (cs.splitOnP isspace).filter (fun t => !t.isEmpty) := by
  induction cs with
  | nil => rfl
  | cons c cs ih =>
    by_cases hc : isspace c = true
    · rw [List.dropWhile_cons_of_pos hc, ih, split_filter_cons_space c cs hc]
    · rw [List.dropWhile_cons_of_neg hc]

theorem dropWhile_head (p : Char → Bool) (cs : List Char) (c : Char) (rest : List Char)
    (h : cs.dropWhile p = c :: rest) : p c = false := by
  induction cs with
  | nil => simp at h
  | cons d ds ih =>
    by_cases hd : p d = true
    · rw [List.dropWhile_cons_of_pos hd] at h
      exact ih h
    · rw [List.dropWhile_cons_of_neg hd] at h
      cases h
      simpa using hd

/-- Cutting off the first token: the pieces of `cs` are the leading run of
non-whitespace, when there is one, followed by the pieces of what is left. -/
theorem split_filter_token (cs : List Char) :
    (cs.splitOnP isspace).filter (fun t => !t.isEmpty)
      = (if cs.takeWhile (fun c => !isspace c) = [] then []
          else [cs.takeWhile (fun c => !isspace c)]) ++
        ((cs.dropWhile (fun c => !isspace c)).splitOnP isspace).filter (fun t => !t.isEmpty) := by
  have hsplit := List.takeWhile_append_dropWhile (fun c => !isspace c) cs
  have htok : ∀ x ∈ cs.takeWhile (fun c => !isspace c), ¬ (isspace x = true) := by
    intro x hx
    have := List.mem_takeWhile_imp hx
    simpa using this
  cases hrest : cs.dropWhile (fun c => !isspace c) with
  | nil =>
    rw [hrest, List.append_nil] at hsplit
    conv_lhs => rw [← hsplit]
    rw [List.splitOnP_eq_single isspace _ htok]
    by_cases ht : cs.takeWhile (fun c => !isspace c) = []
    · simp [ht, List.splitOnP_nil]
    · simp [ht, List.splitOnP_nil, List.filter_cons]
  | cons sep as =>
    have hsep : isspace sep = true := by
      have := dropWhile_head _ _ _ _ hrest
      simpa using this
    rw [hrest] at hsplit
    conv_lhs => rw [← hsplit]
    rw [List.splitOnP_first isspace _ htok sep hsep, split_filter_cons_space sep as hsep]
    by_cases ht : cs.takeWhile (fun c => !isspace c) = []
    · simp [ht, List.filter_cons]
    · simp [ht, List.filter_cons]

theorem read_tokens_eq_split (fuel : Nat) :
    ∀ cs : List Char, cs.length < fuel →
      read_tokens fuel cs
        = ((cs.splitOnP isspace).filter (fun t => !t.isEmpty)).map String.mk := by
  induction fuel with
  | zero => intro cs h; simp at h
  | succ fuel ih =>
    intro cs hlen
    rw [← split_filter_dropWhile cs, split_filter_token (cs.dropWhile isspace)]
    by_cases ht : (cs.dropWhile isspace).takeWhile (fun c => !isspace c) = []
    · have hcs : cs.dropWhile isspace = [] := by
        cases hd : cs.dropWhile isspace with
        | nil => rfl
        | cons c rest =>
          exfalso
          have hc := dropWhile_head _ _ _ _ hd
          rw [hd] at ht
          simp [List.takeWhile_cons, hc] at ht
      simp [read_tokens, extract_token, ht, hcs, List.splitOnP_nil]
    · have hl1 : ((cs.dropWhile isspace).dropWhile (fun c => !isspace c)).length
          < (cs.dropWhile isspace).length := by
        have h1 := List.takeWhile_append_dropWhile (fun c => !isspace c) (cs.dropWhile isspace)
        have h2 := congrArg List.length h1
        rw [List.length_append] at h2
        have h3 : 0 < ((cs.dropWhile isspace).takeWhile (fun c => !isspace c)).length :=
          List.length_pos.2 ht
        omega
      have hl2 : (cs.dropWhile isspace).length ≤ cs.length :=
        (List.dropWhile_sublist _).length_le
      have hrec := ih ((cs.dropWhile isspace).dropWhile (fun c => !isspace c)) (by omega)
      simp [read_tokens, extract_token, ht, hrec]

theorem console_args_eq_whitespace_split (input : List Char) :
    console_args input = whitespace_split input :=
  read_tokens_eq_split _ input (Nat.lt_succ_self _)

/-! ## The console: dispatch -/

theorem string_take_all (s : String) : String.mk (s.data.take (s.length : Int).toNat) = s := by
  show String.mk (s.data.take (Int.toNat (s.data.length : Nat))) = s
  rw [Int.toNat_ofNat, List.take_length]

/-- C22: for every input buffer, the argument list of process_command is the
input split on whitespace (cut at every whitespace character, empty pieces
dropped).  With no token it returns 0, writes nothing and calls nothing.  When
the first token is not a key of the command table it calls no handler and
returns 0 whatever the write does; it appends the line "Unknown command
'<token>'" to the buffered output and writes the buffer to the connection:
exactly that line when nothing was buffered before and the write takes it all,
the buffer being empty afterwards (the buffer is kept, and nothing goes out,
when the write fails).  When the first token is a registered command it calls
the handler of that command once, with the whole token list, writes nothing
and returns what the handler returned. -/
theorem C22_console_dispatch (c : IPCMConsole) (cfd : Int) (cmdbuf : List Char) (size : Nat)
    (write : Int → String → Int) :
    console_args (cmdbuf.take size) = whitespace_split (cmdbuf.take size) ∧
    (console_args (cmdbuf.take size) = [] →
      process_command c cfd cmdbuf size write = ⟨0, c, "", []⟩) ∧
    (∀ tok rest, console_args (cmdbuf.take size) = tok :: rest →
      commands_find c.commands_map tok = none →
      (process_command c cfd cmdbuf size write).ret = 0 ∧
      (process_command c cfd cmdbuf size write).invoked = [] ∧
      (process_command c cfd cmdbuf size write).console.commands_map = c.commands_map ∧
      (0 ≤ write cfd (c.outstream ++ unknown_command_line tok) →
        (process_command c cfd cmdbuf size write).written
          = String.mk ((c.outstream ++ unknown_command_line tok).data.take
              (write cfd (c.outstream ++ unknown_command_line tok)).toNat) ∧
        (process_command c cfd cmdbuf size write).console.outstream = "") ∧
      (write cfd (c.outstream ++ unknown_command_line tok) < 0 →
        (process_command c cfd cmdbuf size write).written = "" ∧
        (process_command c cfd cmdbuf size write).console.outstream
          = c.outstream ++ unknown_command_line tok) ∧
      (c.outstream = "" →
        write cfd (unknown_command_line tok) = (unknown_command_line tok).length →
        (process_command c cfd cmdbuf size write).written = unknown_command_line tok ∧
        (process_command c cfd cmdbuf size write).console.outstream = "")) ∧
    (∀ tok rest handler, console_args (cmdbuf.take size) = tok :: rest →
      commands_find c.commands_map tok = some handler →
      process_command c cfd cmdbuf size write
        = ⟨handler (tok :: rest), c, "", [(tok, tok :: rest)]⟩) := by
  refine ⟨console_args_eq_whitespace_split _, ?_, ?_, ?_⟩
  · intro h
    simp [process_command, h]
  · intro tok rest hargs hfind
    have hline : c.outstream ++ "Unknown command '" ++ tok ++ "'" ++ "\n"
        = c.outstream ++ unknown_command_line tok := by
      simp [unknown_command_line, String.append_assoc]
    refine ⟨?_, ?_, ?_, ?_, ?_, ?_⟩
    · simp [process_command, hargs, hfind]
    · simp [process_command, hargs, hfind]
    · simp only [process_command, hargs, hfind, flush_output, hline]
      split <;> rfl
    · intro hw
      have hw' : ¬ write cfd (c.outstream ++ unknown_command_line tok) < 0 := by omega
      simp only [process_command, hargs, hfind, flush_output, hline]
      rw [if_neg hw']
      exact ⟨rfl, rfl⟩
    · intro hw
      simp only [process_command, hargs, hfind, flush_output, hline]
      rw [if_pos hw]
      exact ⟨rfl, rfl⟩
    · intro hempty hw
      have hcat : c.outstream ++ unknown_command_line tok = unknown_command_line tok := by
        rw [hempty]; simp
      have hw' : ¬ write cfd (unknown_command_line tok) < 0 := by rw [hw]; omega
      simp only [process_command, hargs, hfind, flush_output, hline, hcat]
      rw [if_neg hw', hw]
      exact ⟨string_take_all _, rfl⟩
  · intro tok rest handler hargs hfind
    simp [process_command, hargs, hfind]

/-- C22 on a console that knows the command "count" only: blanks alone, an
unknown command, and "count" with two arguments. -/
theorem C22_console_dispatch_witness :
    process_command scenario_console 4 " \t\n".data 3 write_all = ⟨0, scenario_console, "", []⟩ ∧
    (process_command scenario_console 4 "bogus 1 2\n".data 10 write_all).written
      = "Unknown command 'bogus'\n" ∧
    (process_command scenario_console 4 "bogus 1 2\n".data 10 write_all).ret = 0 ∧
    process_command scenario_console 4 " count  a b\n".data 12 write_all
      = ⟨3, scenario_console, "", [("count", ["count", "a", "b"])]⟩ :=
  ⟨(C22_console_dispatch scenario_console 4 " \t\n".data 3 write_all).2.1 (by decide),
   ((C22_console_dispatch scenario_console 4 "bogus 1 2\n".data 10 write_all).2.2.1
      "bogus" ["1", "2"] (by decide) rfl).2.2.2.2.2 rfl (by decide) |>.1,
   ((C22_console_dispatch scenario_console 4 "bogus 1 2\n".data 10 write_all).2.2.1
      "bogus" ["1", "2"] (by decide) rfl).1,
   (C22_console_dispatch scenario_console 4 " count  a b\n".data 12 write_all).2.2.2
      "count" ["a", "b"] (fun args => args.length) (by decide) rfl⟩

end Kipcm
